import Mathlib

/-!
# Shared / weak smart pointers: embedding and verification

Shallow embedding of `shared-ptrs/sw_fwd.h`, `shared-ptrs/shared.h` and
`shared-ptrs/weak.h`.

* A `ControlBlock*` is `Option Nat` (`none` is `nullptr`); the free store is a
  map from block addresses to `ControlBlock` records together with the next
  address handed out by `new`.
* A `T*` is `Option Addr`.
* `int strong_` / `int weak_` are `Int`.  Signed overflow is undefined in C++
  and needs `2^31` simultaneous handles, so the arithmetic is exact here; the
  counters may go negative, exactly as an `int` does.
* The virtual hooks `OnZeroStrong` / `OnZeroWeak` do not touch the counters.
  Each block records how many times each hook has run on it (the fields
  `zeroStrongCalls`, `zeroWeakCalls`) next to the effect of the hook on the
  derived class (`BlockKind`).  After `OnZeroWeak` (`delete this`) the block is
  deleted (`ControlBlock.deleted`): its record stays in the map and its address
  is never handed out again, so that a dangling handle is told apart from any
  later block.  A statement that dereferences a deleted block
  (`World.usesDeleted`) is a use-after-free in the code; `step` is total and
  still yields a world for it, which then describes the code no longer.
* Member functions take the free store and the handle objects they touch and
  return the new free store and the new values of those objects.
-/

namespace SmartPtrs

/-- Address of a managed object: an object allocated by the caller, or the
`storage` member of the `ControlBlockMakeShared` at the given block address. -/
inductive Addr where
  | raw (a : Nat)
  | storage (block : Nat)
deriving DecidableEq

/-- The two derived control blocks.  `pointer p` is `ControlBlockPointer<T>` with
`ptr_ == p`; `makeShared alive` is `ControlBlockMakeShared<T>`, `alive` telling
whether the value in `storage` is constructed and not yet destroyed. -/
inductive BlockKind where
  | pointer (ptr_ : Option Addr)
  | makeShared (alive : Bool)
deriving DecidableEq

/-- The record `struct ControlBlock` of `sw_fwd.h`, with the derived part and the
two hook counters. -/
structure ControlBlock where
  strong_ : Int
  weak_ : Int
  kind : BlockKind
  zeroStrongCalls : Nat
  zeroWeakCalls : Nat
deriving DecidableEq

/-- The hook `OnZeroStrong`: `delete ptr_; ptr_ = nullptr;` for `ControlBlockPointer`,
`GetRawPtr()->~T()` for `ControlBlockMakeShared`. -/
def ControlBlock.OnZeroStrong (c : ControlBlock) : ControlBlock :=
  { c with
    kind := match c.kind with
      | BlockKind.pointer _ => BlockKind.pointer none
      | BlockKind.makeShared _ => BlockKind.makeShared false
    zeroStrongCalls := c.zeroStrongCalls + 1 }

/-- The hook `OnZeroWeak`: `delete this;` in both derived classes. -/
def ControlBlock.OnZeroWeak (c : ControlBlock) : ControlBlock :=
  { c with zeroWeakCalls := c.zeroWeakCalls + 1 }

/-- Content of an address that `new` has not handed out yet. -/
def ControlBlock.unused : ControlBlock :=
  { strong_ := 0, weak_ := 0, kind := BlockKind.pointer none,
    zeroStrongCalls := 0, zeroWeakCalls := 0 }

/-- The free store: control blocks by address, and the next fresh address. -/
structure Heap where
  blocks : Nat → ControlBlock
  next : Nat

/-- The empty free store. -/
def Heap.init : Heap :=
  { blocks := fun _ => ControlBlock.unused, next := 0 }

/-- Write through a `ControlBlock*`: replace the record at address `b` by `f` of it. -/
def Heap.modify (h : Heap) (b : Nat) (f : ControlBlock → ControlBlock) : Heap :=
  { h with blocks := Function.update h.blocks b (f (h.blocks b)) }

/-- The expression `new ...`: store `c` at the next fresh address and return the address. -/
def Heap.alloc (h : Heap) (c : ControlBlock) : Heap × Nat :=
  ({ blocks := Function.update h.blocks h.next c, next := h.next + 1 }, h.next)

/-- `new ControlBlockPointer<T>(ptr)`: both counters start at `0`. -/
def ControlBlockPointer.new (h : Heap) (ptr : Option Addr) : Heap × Nat :=
  h.alloc { strong_ := 0, weak_ := 0, kind := BlockKind.pointer ptr,
            zeroStrongCalls := 0, zeroWeakCalls := 0 }

/-- `new ControlBlockMakeShared<T>(args...)`: both counters start at `0`, the value is
constructed in `storage`. -/
def ControlBlockMakeShared.new (h : Heap) : Heap × Nat :=
  h.alloc { strong_ := 0, weak_ := 0, kind := BlockKind.makeShared true,
            zeroStrongCalls := 0, zeroWeakCalls := 0 }

/-- `++c.strong_`. -/
def ControlBlock.incStrong (c : ControlBlock) : ControlBlock :=
  { c with strong_ := c.strong_ + 1 }

/-- `--c.strong_`. -/
def ControlBlock.decStrong (c : ControlBlock) : ControlBlock :=
  { c with strong_ := c.strong_ - 1 }

/-- `++c.weak_`. -/
def ControlBlock.incWeak (c : ControlBlock) : ControlBlock :=
  { c with weak_ := c.weak_ + 1 }

/-- `--c.weak_`. -/
def ControlBlock.decWeak (c : ControlBlock) : ControlBlock :=
  { c with weak_ := c.weak_ - 1 }

/-- The class `SharedPtr<T>`: its two data members. -/
structure SharedPtr where
  state_ : Option Nat
  ptr_ : Option Addr
deriving DecidableEq

/-- The class `WeakPtr<T>`: its two data members. -/
structure WeakPtr where
  state_ : Option Nat
  ptr_ : Option Addr
deriving DecidableEq

/-- The exception class `BadWeakPtr`. -/
inductive BadWeakPtr where
  | mk
deriving DecidableEq

/-! ## `SharedPtr` -/

/-- `SharedPtr()` and `SharedPtr(std::nullptr_t)`. -/
def SharedPtr.empty : SharedPtr := { state_ := none, ptr_ := none }

/-- `SharedPtr(T* ptr)` and `SharedPtr(Y* ptr)`. -/
def SharedPtr.ofRaw (h : Heap) (ptr : Option Addr) : Heap × SharedPtr :=
  let r := ControlBlockPointer.new h ptr
  (r.1.modify r.2 ControlBlock.incStrong, { state_ := some r.2, ptr_ := ptr })

/-- `MakeShared<T>(args...)`: one block, `++block->strong_`, then the private
constructor `SharedPtr(block, block->GetRawPtr())`. -/
def MakeShared (h : Heap) : Heap × SharedPtr :=
  let r := ControlBlockMakeShared.new h
  (r.1.modify r.2 ControlBlock.incStrong,
    { state_ := some r.2, ptr_ := some (Addr.storage r.2) })

/-- `SharedPtr(const SharedPtr& other)` and its converting variant. -/
def SharedPtr.copy (h : Heap) (other : SharedPtr) : Heap × SharedPtr :=
  match other.state_ with
  | some b => (h.modify b ControlBlock.incStrong, { state_ := some b, ptr_ := other.ptr_ })
  | none => (h, { state_ := none, ptr_ := other.ptr_ })

/-- `SharedPtr(SharedPtr&& other)` and its converting variant: the new handle and the
new value of `other`. -/
def SharedPtr.move (other : SharedPtr) : SharedPtr × SharedPtr :=
  ({ state_ := other.state_, ptr_ := other.ptr_ }, { state_ := none, ptr_ := none })

/-- The aliasing constructor `SharedPtr(const SharedPtr<Y>& other, T* ptr)`. -/
def SharedPtr.alias (h : Heap) (other : SharedPtr) (ptr : Option Addr) : Heap × SharedPtr :=
  match other.state_ with
  | some b => (h.modify b ControlBlock.incStrong, { state_ := some b, ptr_ := ptr })
  | none => (h, { state_ := none, ptr_ := ptr })

/-- `WeakPtr::Expired`. -/
def WeakPtr.Expired (h : Heap) (w : WeakPtr) : Bool :=
  match w.state_ with
  | none => true
  | some b => decide ((h.blocks b).strong_ = 0)

/-- `explicit SharedPtr(const WeakPtr<T>& other)`: the free store afterwards and either
the exception thrown or the handle constructed. -/
def SharedPtr.ofWeak (h : Heap) (other : WeakPtr) : Heap × Except BadWeakPtr SharedPtr :=
  if other.Expired h then (h, Except.error BadWeakPtr.mk)
  else
    match other.state_ with
    | some b =>
      (h.modify b ControlBlock.incStrong, Except.ok { state_ := some b, ptr_ := other.ptr_ })
    | none => (h, Except.ok { state_ := none, ptr_ := other.ptr_ })

/-- The private member `SharedPtr::Free`. -/
def SharedPtr.Free (h : Heap) (this : SharedPtr) : Heap × SharedPtr :=
  match this.state_ with
  | some b =>
    let h1 := h.modify b ControlBlock.decStrong
    let h2 :=
      if (h1.blocks b).strong_ = 0 then
        let h3 := h1.modify b ControlBlock.OnZeroStrong
        if (h3.blocks b).weak_ = 0 then h3.modify b ControlBlock.OnZeroWeak else h3
      else h1
    (h2, { state_ := none, ptr_ := none })
  | none => (h, { state_ := none, ptr_ := none })

/-- `SharedPtr& operator=(const SharedPtr& other)`: the free store and the new value
of `*this`. -/
def SharedPtr.copyAssign (h : Heap) (this other : SharedPtr) : Heap × SharedPtr :=
  if this.state_ ≠ other.state_ then
    let h1 := (SharedPtr.Free h this).1
    match other.state_ with
    | some b => (h1.modify b ControlBlock.incStrong, { state_ := some b, ptr_ := other.ptr_ })
    | none => (h1, { state_ := none, ptr_ := other.ptr_ })
  else (h, this)

/-- `SharedPtr& operator=(SharedPtr&& other)`: the free store and the new values of
`*this` and `other`. -/
def SharedPtr.moveAssign (h : Heap) (this other : SharedPtr) : Heap × SharedPtr × SharedPtr :=
  if other.state_ ≠ this.state_ then
    let this1 : SharedPtr := { state_ := other.state_, ptr_ := other.ptr_ }
    let other1 : SharedPtr := { state_ := this.state_, ptr_ := this.ptr_ }
    let r := SharedPtr.Free h other1
    (r.1, this1, r.2)
  else (h, this, other)

/-- The destructor `~SharedPtr()`. -/
def SharedPtr.destroy (h : Heap) (this : SharedPtr) : Heap × SharedPtr :=
  SharedPtr.Free h this

/-- `void Reset()`. -/
def SharedPtr.Reset (h : Heap) (this : SharedPtr) : Heap × SharedPtr :=
  SharedPtr.Free h this

/-- `void Reset(Y* ptr)`. -/
def SharedPtr.ResetPtr (h : Heap) (this : SharedPtr) (ptr : Option Addr) : Heap × SharedPtr :=
  let h1 := (SharedPtr.Free h this).1
  let r := ControlBlockPointer.new h1 ptr
  (r.1.modify r.2 (fun c => { c with strong_ := 1 }), { state_ := some r.2, ptr_ := ptr })

/-- `void Swap(SharedPtr& other)`: the new values of `*this` and `other`. -/
def SharedPtr.Swap (this other : SharedPtr) : SharedPtr × SharedPtr :=
  ({ state_ := other.state_, ptr_ := other.ptr_ }, { state_ := this.state_, ptr_ := this.ptr_ })

/-- `T* Get() const`. -/
def SharedPtr.Get (this : SharedPtr) : Option Addr := this.ptr_

/-- `size_t UseCount() const`: the `int` converted to a 64-bit `size_t`. -/
def SharedPtr.UseCount (h : Heap) (this : SharedPtr) : Nat :=
  match this.state_ with
  | some b => ((h.blocks b).strong_ % 2 ^ 64).toNat
  | none => 0

/-- `explicit operator bool() const`. -/
def SharedPtr.toBool (this : SharedPtr) : Bool :=
  this.state_.isSome && this.ptr_.isSome

/-- Modelled from the spec: `operator==` on two `SharedPtr`s is only declared in
`shared.h`; by the specification two strong handles are equal iff they observe the
same address. -/
def SharedPtr.eq (left right : SharedPtr) : Bool :=
  decide (left.Get = right.Get)

/-! ## `WeakPtr` -/

/-- `WeakPtr() = default`. -/
def WeakPtr.empty : WeakPtr := { state_ := none, ptr_ := none }

/-- `void WeakPtr::Reset()`. -/
def WeakPtr.Reset (h : Heap) (this : WeakPtr) : Heap × WeakPtr :=
  match this.state_ with
  | some b =>
    let h1 := h.modify b ControlBlock.decWeak
    let h2 :=
      if (h1.blocks b).strong_ + (h1.blocks b).weak_ = 0 then h1.modify b ControlBlock.OnZeroWeak
      else h1
    (h2, { state_ := none, ptr_ := none })
  | none => (h, { state_ := none, ptr_ := none })

/-- `WeakPtr(const WeakPtr& other)`. -/
def WeakPtr.copy (h : Heap) (other : WeakPtr) : Heap × WeakPtr :=
  match other.state_ with
  | some b => (h.modify b ControlBlock.incWeak, { state_ := some b, ptr_ := other.ptr_ })
  | none => (h, { state_ := none, ptr_ := other.ptr_ })

/-- `WeakPtr(WeakPtr&& other)`: copies the two members, then calls `other.Reset()`.
Returns the free store, the new handle and the new value of `other`. -/
def WeakPtr.move (h : Heap) (other : WeakPtr) : Heap × WeakPtr × WeakPtr :=
  let this : WeakPtr := { state_ := other.state_, ptr_ := other.ptr_ }
  let r := WeakPtr.Reset h other
  (r.1, this, r.2)

/-- `WeakPtr(const SharedPtr<T>& other)`. -/
def WeakPtr.ofShared (h : Heap) (other : SharedPtr) : Heap × WeakPtr :=
  match other.state_ with
  | some b => (h.modify b ControlBlock.incWeak, { state_ := some b, ptr_ := other.ptr_ })
  | none => (h, { state_ := none, ptr_ := other.ptr_ })

/-- `WeakPtr& operator=(const WeakPtr& other)`: the free store and the new value of
`*this`.  The body overwrites the two members without calling `Reset()`. -/
def WeakPtr.copyAssign (h : Heap) (this other : WeakPtr) : Heap × WeakPtr :=
  if other.state_ ≠ this.state_ then
    match other.state_ with
    | some b => (h.modify b ControlBlock.incWeak, { state_ := some b, ptr_ := other.ptr_ })
    | none => (h, { state_ := none, ptr_ := other.ptr_ })
  else (h, this)

/-- `WeakPtr& operator=(WeakPtr&& other)`: the free store and the new values of `*this`
and `other`. -/
def WeakPtr.moveAssign (h : Heap) (this other : WeakPtr) : Heap × WeakPtr × WeakPtr :=
  if other.state_ ≠ this.state_ then
    let this1 : WeakPtr := { state_ := other.state_, ptr_ := other.ptr_ }
    let other1 : WeakPtr := { state_ := this.state_, ptr_ := this.ptr_ }
    let r := WeakPtr.Reset h other1
    (r.1, this1, r.2)
  else (h, this, other)

/-- The destructor `~WeakPtr()`. -/
def WeakPtr.destroy (h : Heap) (this : WeakPtr) : Heap × WeakPtr :=
  WeakPtr.Reset h this

/-- `void WeakPtr::Swap(WeakPtr& other)`. -/
def WeakPtr.Swap (this other : WeakPtr) : WeakPtr × WeakPtr :=
  ({ state_ := other.state_, ptr_ := other.ptr_ }, { state_ := this.state_, ptr_ := this.ptr_ })

/-- `size_t WeakPtr::UseCount() const`. -/
def WeakPtr.UseCount (h : Heap) (this : WeakPtr) : Nat :=
  match this.state_ with
  | some b => ((h.blocks b).strong_ % 2 ^ 64).toNat
  | none => 0

/-- `SharedPtr<T> WeakPtr::Lock() const`. -/
def WeakPtr.Lock (h : Heap) (this : WeakPtr) : Heap × Except BadWeakPtr SharedPtr :=
  if this.Expired h then (h, Except.ok SharedPtr.empty)
  else SharedPtr.ofWeak h this

/-! ## Programs over a family of handle objects

A `World` is the free store together with the `SharedPtr` and `WeakPtr` objects that
have been constructed so far, in order of construction; a destroyed object is `none`.
An `Op` is one statement: a constructor call (the new object is appended), a member
call on the objects at the given positions, or a destructor call.  A statement that
names an object which does not exist or is already destroyed is not a program
statement and leaves the world as it is. -/

/-- The free store and the handle objects. -/
structure World where
  heap : Heap
  shared : List (Option SharedPtr)
  weak : List (Option WeakPtr)

/-- The world before any statement. -/
def World.init : World := { heap := Heap.init, shared := [], weak := [] }

/-- The live `SharedPtr` object at position `i`. -/
def World.getShared (w : World) (i : Nat) : Option SharedPtr := (w.shared[i]?).join

/-- The live `WeakPtr` object at position `j`. -/
def World.getWeak (w : World) (j : Nat) : Option WeakPtr := (w.weak[j]?).join

/-- One statement of a program over the handles. -/
inductive Op where
  | sharedEmpty
  | sharedOfRaw (ptr : Option Addr)
  | makeShared
  | sharedCopy (i : Nat)
  | sharedMove (i : Nat)
  | sharedAlias (i : Nat) (ptr : Option Addr)
  | sharedOfWeak (j : Nat)
  | sharedCopyAssign (i k : Nat)
  | sharedMoveAssign (i k : Nat)
  | sharedReset (i : Nat)
  | sharedResetPtr (i : Nat) (ptr : Option Addr)
  | sharedSwap (i k : Nat)
  | sharedDestroy (i : Nat)
  | weakEmpty
  | weakOfShared (i : Nat)
  | weakCopy (j : Nat)
  | weakMove (j : Nat)
  | weakCopyAssign (j k : Nat)
  | weakMoveAssign (j k : Nat)
  | weakReset (j : Nat)
  | weakSwap (j k : Nat)
  | weakDestroy (j : Nat)
  | weakLock (j : Nat)
deriving DecidableEq

/-- Append a newly constructed `SharedPtr` object. -/
def World.pushShared (w : World) (h : Heap) (s : SharedPtr) : World :=
  { w with heap := h, shared := w.shared ++ [some s] }

/-- Append a newly constructed `WeakPtr` object. -/
def World.pushWeak (w : World) (h : Heap) (s : WeakPtr) : World :=
  { w with heap := h, weak := w.weak ++ [some s] }

/-- Execute one statement. -/
def step (w : World) : Op → World
  | Op.sharedEmpty => w.pushShared w.heap SharedPtr.empty
  | Op.sharedOfRaw ptr =>
    let r := SharedPtr.ofRaw w.heap ptr
    w.pushShared r.1 r.2
  | Op.makeShared =>
    let r := MakeShared w.heap
    w.pushShared r.1 r.2
  | Op.sharedCopy i =>
    match w.getShared i with
    | some o =>
      let r := SharedPtr.copy w.heap o
      w.pushShared r.1 r.2
    | none => w
  | Op.sharedMove i =>
    match w.getShared i with
    | some o =>
      let r := SharedPtr.move o
      { w with shared := w.shared.set i (some r.2) ++ [some r.1] }
    | none => w
  | Op.sharedAlias i ptr =>
    match w.getShared i with
    | some o =>
      let r := SharedPtr.alias w.heap o ptr
      w.pushShared r.1 r.2
    | none => w
  | Op.sharedOfWeak j =>
    match w.getWeak j with
    | some o =>
      let r := SharedPtr.ofWeak w.heap o
      match r.2 with
      | Except.ok s => w.pushShared r.1 s
      | Except.error _ => { w with heap := r.1 }
    | none => w
  | Op.sharedCopyAssign i k =>
    match w.getShared i, w.getShared k with
    | some a, some b =>
      let r := SharedPtr.copyAssign w.heap a b
      { w with heap := r.1, shared := w.shared.set i (some r.2) }
    | _, _ => w
  | Op.sharedMoveAssign i k =>
    match w.getShared i, w.getShared k with
    | some a, some b =>
      let r := SharedPtr.moveAssign w.heap a b
      { w with heap := r.1, shared := (w.shared.set k (some r.2.2)).set i (some r.2.1) }
    | _, _ => w
  | Op.sharedReset i =>
    match w.getShared i with
    | some a =>
      let r := SharedPtr.Reset w.heap a
      { w with heap := r.1, shared := w.shared.set i (some r.2) }
    | none => w
  | Op.sharedResetPtr i ptr =>
    match w.getShared i with
    | some a =>
      let r := SharedPtr.ResetPtr w.heap a ptr
      { w with heap := r.1, shared := w.shared.set i (some r.2) }
    | none => w
  | Op.sharedSwap i k =>
    match w.getShared i, w.getShared k with
    | some a, some b =>
      let r := SharedPtr.Swap a b
      { w with shared := (w.shared.set k (some r.2)).set i (some r.1) }
    | _, _ => w
  | Op.sharedDestroy i =>
    match w.getShared i with
    | some a =>
      let r := SharedPtr.destroy w.heap a
      { w with heap := r.1, shared := w.shared.set i none }
    | none => w
  | Op.weakEmpty => w.pushWeak w.heap WeakPtr.empty
  | Op.weakOfShared i =>
    match w.getShared i with
    | some o =>
      let r := WeakPtr.ofShared w.heap o
      w.pushWeak r.1 r.2
    | none => w
  | Op.weakCopy j =>
    match w.getWeak j with
    | some o =>
      let r := WeakPtr.copy w.heap o
      w.pushWeak r.1 r.2
    | none => w
  | Op.weakMove j =>
    match w.getWeak j with
    | some o =>
      let r := WeakPtr.move w.heap o
      { w with heap := r.1, weak := w.weak.set j (some r.2.2) ++ [some r.2.1] }
    | none => w
  | Op.weakCopyAssign j k =>
    match w.getWeak j, w.getWeak k with
    | some a, some b =>
      let r := WeakPtr.copyAssign w.heap a b
      { w with heap := r.1, weak := w.weak.set j (some r.2) }
    | _, _ => w
  | Op.weakMoveAssign j k =>
    match w.getWeak j, w.getWeak k with
    | some a, some b =>
      let r := WeakPtr.moveAssign w.heap a b
      { w with heap := r.1, weak := (w.weak.set k (some r.2.2)).set j (some r.2.1) }
    | _, _ => w
  | Op.weakReset j =>
    match w.getWeak j with
    | some a =>
      let r := WeakPtr.Reset w.heap a
      { w with heap := r.1, weak := w.weak.set j (some r.2) }
    | none => w
  | Op.weakSwap j k =>
    match w.getWeak j, w.getWeak k with
    | some a, some b =>
      let r := WeakPtr.Swap a b
      { w with weak := (w.weak.set k (some r.2)).set j (some r.1) }
    | _, _ => w
  | Op.weakDestroy j =>
    match w.getWeak j with
    | some a =>
      let r := WeakPtr.destroy w.heap a
      { w with heap := r.1, weak := w.weak.set j none }
    | none => w
  | Op.weakLock j =>
    match w.getWeak j with
    | some o =>
      let r := WeakPtr.Lock w.heap o
      match r.2 with
      | Except.ok s => w.pushShared r.1 s
      | Except.error _ => { w with heap := r.1 }
    | none => w

/-- Execute a program, statement by statement. -/
def run (w : World) (ops : List Op) : World := ops.foldl step w

/-- Whether a `SharedPtr` object is live and its `state_` is the block at `b`. -/
def sharedRefersTo (b : Nat) : Option SharedPtr → Bool
  | some s => decide (s.state_ = some b)
  | none => false

/-- Whether a `WeakPtr` object is live and its `state_` is the block at `b`. -/
def weakRefersTo (b : Nat) : Option WeakPtr → Bool
  | some s => decide (s.state_ = some b)
  | none => false

/-- Number of live `SharedPtr` objects whose `state_` is the block at `b`. -/
def World.strongRefs (w : World) (b : Nat) : Nat := w.shared.countP (sharedRefersTo b)

/-- Number of live `WeakPtr` objects whose `state_` is the block at `b`. -/
def World.weakRefs (w : World) (b : Nat) : Nat := w.weak.countP (weakRefersTo b)

/-- Whether `OnZeroWeak` has run on the block: `delete this` has ended its lifetime, and
every later read or write of its members and every later hook call on it is a
use-after-free in the code. -/
def ControlBlock.deleted (c : ControlBlock) : Bool := decide (0 < c.zeroWeakCalls)

/-- The control block a `SharedPtr` object points to, if it is live and `state_` is not
null. -/
def sharedBlock : Option SharedPtr → List Nat
  | some s =>
    match s.state_ with
    | some b => [b]
    | none => []
  | none => []

/-- The control block a `WeakPtr` object points to, if it is live and `state_` is not
null. -/
def weakBlock : Option WeakPtr → List Nat
  | some s =>
    match s.state_ with
    | some b => [b]
    | none => []
  | none => []

/-- The control blocks that already exist before a statement and that the statement
dereferences (`state_->strong_`, `state_->weak_` or a hook call), read off the member
bodies: the constructors from a handle dereference the source's block, except the
`SharedPtr` move constructor, which only copies the members; the assignments dereference
a block only when the two `state_` differ (copy: the displaced block and the source's
block for `SharedPtr`, only the source's block for `WeakPtr`; move: the displaced
block); `Reset`, `Reset(ptr)` and the destructors dereference the handle's block; `Lock`
and the promoting constructor dereference the `WeakPtr`'s block in `Expired()`; `Swap`
dereferences nothing. -/
def World.derefs (w : World) : Op → List Nat
  | Op.sharedEmpty => []
  | Op.sharedOfRaw _ => []
  | Op.makeShared => []
  | Op.sharedCopy i => sharedBlock (w.getShared i)
  | Op.sharedMove _ => []
  | Op.sharedAlias i _ => sharedBlock (w.getShared i)
  | Op.sharedOfWeak j => weakBlock (w.getWeak j)
  | Op.sharedCopyAssign i k =>
    match w.getShared i, w.getShared k with
    | some a, some b =>
      if a.state_ ≠ b.state_ then sharedBlock (some a) ++ sharedBlock (some b) else []
    | _, _ => []
  | Op.sharedMoveAssign i k =>
    match w.getShared i, w.getShared k with
    | some a, some b => if b.state_ ≠ a.state_ then sharedBlock (some a) else []
    | _, _ => []
  | Op.sharedReset i => sharedBlock (w.getShared i)
  | Op.sharedResetPtr i _ => sharedBlock (w.getShared i)
  | Op.sharedSwap _ _ => []
  | Op.sharedDestroy i => sharedBlock (w.getShared i)
  | Op.weakEmpty => []
  | Op.weakOfShared i => sharedBlock (w.getShared i)
  | Op.weakCopy j => weakBlock (w.getWeak j)
  | Op.weakMove j => weakBlock (w.getWeak j)
  | Op.weakCopyAssign j k =>
    match w.getWeak j, w.getWeak k with
    | some a, some b => if b.state_ ≠ a.state_ then weakBlock (some b) else []
    | _, _ => []
  | Op.weakMoveAssign j k =>
    match w.getWeak j, w.getWeak k with
    | some a, some b => if b.state_ ≠ a.state_ then weakBlock (some a) else []
    | _, _ => []
  | Op.weakReset j => weakBlock (w.getWeak j)
  | Op.weakSwap _ _ => []
  | Op.weakDestroy j => weakBlock (w.getWeak j)
  | Op.weakLock j => weakBlock (w.getWeak j)

/-- Whether the statement dereferences a control block that has been deleted: in the
code the statement is then a use-after-free with undefined behaviour, and the world
`step` gives for it describes the code no longer. -/
def World.usesDeleted (w : World) (op : Op) : Bool :=
  (w.derefs op).any (fun b => (w.heap.blocks b).deleted)

/-! ## Invariants -/

/-- The invariant of the strong side: every strong counter is the number of live
`SharedPtr` objects on the block, unused addresses are untouched, and on an allocated
block `OnZeroStrong` has run exactly when the strong counter is back at `0`. -/
structure World.WF (w : World) : Prop where
  strong_eq : ∀ b, (w.heap.blocks b).strong_ = (w.strongRefs b : Int)
  fresh : ∀ b, w.heap.next ≤ b →
    (w.heap.blocks b).strong_ = 0 ∧ (w.heap.blocks b).zeroStrongCalls = 0
  hook : ∀ b, b < w.heap.next →
    ((w.heap.blocks b).zeroStrongCalls = 0 ∧ 1 ≤ (w.heap.blocks b).strong_) ∨
    ((w.heap.blocks b).zeroStrongCalls = 1 ∧ (w.heap.blocks b).strong_ = 0)

/-- What one statement does to the strong side: the invariant is kept, no address is
given back, and `OnZeroStrong` runs on a block exactly when its strong counter goes
from `1` to `0`. -/
def StepSpec (w w1 : World) : Prop :=
  w1.WF ∧ w.heap.next ≤ w1.heap.next ∧
  ∀ b, (w1.heap.blocks b).zeroStrongCalls = (w.heap.blocks b).zeroStrongCalls +
    (if (w.heap.blocks b).strong_ = 1 ∧ (w1.heap.blocks b).strong_ = 0 then 1 else 0)

/-- The two free stores agree on every strong counter, every `OnZeroStrong` counter and
the next fresh address. -/
def Heap.StrongSame (h h1 : Heap) : Prop :=
  h1.next = h.next ∧ (∀ b, (h1.blocks b).strong_ = (h.blocks b).strong_) ∧
  ∀ b, (h1.blocks b).zeroStrongCalls = (h.blocks b).zeroStrongCalls

/-! ## `UniquePtr`

A `T*` held by a `UniquePtr` is `Option Nat` (`none` is `nullptr`).  A deleter object is
named by a number: deleters with different numbers are distinguishable, by their type or
by their state.  Calling a deleter is recorded in a log, each entry with the deleter
called, the pointer passed and the pointer the calling handle stores at that moment.
The primary template and the specialisation for arrays have the same member bodies; the
definitions below stand for both. -/

/-- The class `CompressedPair<F, S>`: its two elements, which `GetFirst()` and `GetSecond()`
give access to.  Whether an element is stored as a member or as an empty base does not
change its value. -/
structure CompressedPair (F S : Type) where
  first : F
  second : S
deriving DecidableEq

/-- A deleter object. -/
abbrev Deleter := Nat

/-- The default-constructed deleter `Deleter()`. -/
def Deleter.default : Deleter := 0

/-- One call `deleter(ptr)` made by a handle, with the value of the handle's
`pair_.GetFirst()` at the time of the call. -/
structure DeleterCall where
  deleter : Deleter
  ptr : Option Nat
  stored : Option Nat
deriving DecidableEq

/-- The class `UniquePtr<T, Deleter>` (and `UniquePtr<T[], Deleter>`): its data member. -/
structure UniquePtr where
  pair_ : CompressedPair (Option Nat) Deleter
deriving DecidableEq

/-- `explicit UniquePtr(T* ptr = nullptr)`. -/
def UniquePtr.ofPtr (ptr : Option Nat) : UniquePtr :=
  { pair_ := { first := ptr, second := Deleter.default } }

/-- `UniquePtr(T* ptr, U&& deleter)`. -/
def UniquePtr.ofPtrDeleter (ptr : Option Nat) (deleter : Deleter) : UniquePtr :=
  { pair_ := { first := ptr, second := deleter } }

/-- `T* Release()`: the new value of `*this` and the pointer returned. -/
def UniquePtr.Release (this : UniquePtr) : UniquePtr × Option Nat :=
  let tmp := this.pair_.first
  ({ pair_ := { first := none, second := this.pair_.second } }, tmp)

/-- `void Reset(T* ptr = nullptr)`: the log and the new value of `*this`. -/
def UniquePtr.Reset (log : List DeleterCall) (this : UniquePtr) (ptr : Option Nat) :
    List DeleterCall × UniquePtr :=
  if this.pair_.first ≠ ptr then
    let tmp := this.pair_.first
    let this1 : UniquePtr := { pair_ := { first := ptr, second := this.pair_.second } }
    (log ++ [{ deleter := this1.pair_.second, ptr := tmp, stored := this1.pair_.first }], this1)
  else (log, this)

/-- `UniquePtr(UniquePtr&& other)` and `UniquePtr(UniquePtr<U, Del>&& other)`: the member
`pair_` is default-constructed, then the pointer released by `other` and `other`'s deleter
are stored.  Returns the new handle and the new value of `other`, whose deleter object
stays in place. -/
def UniquePtr.move (other : UniquePtr) : UniquePtr × UniquePtr :=
  let r := other.Release
  ({ pair_ := { first := r.2, second := r.1.pair_.second } }, r.1)

/-- `UniquePtr(UniquePtr<U>&& other)`: only the pointer is taken over, the deleter stays
the default-constructed one. -/
def UniquePtr.moveConverting (other : UniquePtr) : UniquePtr × UniquePtr :=
  let r := other.Release
  ({ pair_ := { first := r.2, second := Deleter.default } }, r.1)

/-- `UniquePtr& operator=(UniquePtr<U, Del>&& other)`: the log and the new values of
`*this` and `other`. -/
def UniquePtr.moveAssign (log : List DeleterCall) (this other : UniquePtr) :
    List DeleterCall × UniquePtr × UniquePtr :=
  if this.pair_.first ≠ other.pair_.first then
    let r := other.Release
    let s := UniquePtr.Reset log this r.2
    (s.1, { pair_ := { first := s.2.pair_.first, second := r.1.pair_.second } }, r.1)
  else (log, this, other)

/-- `UniquePtr& operator=(std::nullptr_t)`. -/
def UniquePtr.assignNull (log : List DeleterCall) (this : UniquePtr) :
    List DeleterCall × UniquePtr :=
  UniquePtr.Reset log this none

/-- The destructor `~UniquePtr()`: calls the deleter on the stored pointer, null or not. -/
def UniquePtr.destroy (log : List DeleterCall) (this : UniquePtr) : List DeleterCall :=
  log ++ [{ deleter := this.pair_.second, ptr := this.pair_.first, stored := this.pair_.first }]

/-- `void Swap(UniquePtr& other)`: `std::swap` of the two `pair_.GetFirst()`. -/
def UniquePtr.Swap (this other : UniquePtr) : UniquePtr × UniquePtr :=
  ({ pair_ := { first := other.pair_.first, second := this.pair_.second } },
   { pair_ := { first := this.pair_.first, second := other.pair_.second } })

/-- `T* Get() const`. -/
def UniquePtr.Get (this : UniquePtr) : Option Nat := this.pair_.first

/-- `Deleter& GetDeleter()`. -/
def UniquePtr.GetDeleter (this : UniquePtr) : Deleter := this.pair_.second

/-- `explicit operator bool() const`. -/
def UniquePtr.toBool (this : UniquePtr) : Bool := this.pair_.first.isSome

/-- Number of calls in the log that passed the pointer `p` to a deleter. -/
def deletions (log : List DeleterCall) (p : Nat) : Nat :=
  log.countP (fun c => decide (c.ptr = some p))

/-! ## Programs over a set of `UniquePtr` objects

A `UWorld` holds the `UniquePtr` objects constructed so far (a destroyed one is `none`),
the log of deleter calls, the pointers `Release` has returned to the caller, the
pointers the caller has given to a handle other than straight from a `new` expression,
and the next pointer a `new` expression yields.  `Reset` and the constructor take any
pointer; which pointers the caller may pass under the contract of an exclusive owner is
the predicate `uvalid`. -/

/-- The `UniquePtr` objects, the deleter calls so far, the pointers given back by
`Release`, the pointers handed to a handle by the caller, and the next fresh pointer. -/
structure UWorld where
  handles : List (Option UniquePtr)
  log : List DeleterCall
  released : List (Option Nat)
  handedOver : List Nat
  next : Nat

/-- The world before any statement. -/
def UWorld.init : UWorld :=
  { handles := [], log := [], released := [], handedOver := [], next := 0 }

/-- The live `UniquePtr` object at position `i`. -/
def UWorld.getHandle (w : UWorld) (i : Nat) : Option UniquePtr := (w.handles[i]?).join

/-- One statement of a program over `UniquePtr` objects.  The statements ending in `New`
pass the result of a `new` expression; `constructFrom p d` is `UniquePtr u(p, d)` and
`resetTo i p` is `u.Reset(p)` for an arbitrary pointer `p`. -/
inductive UOp where
  | constructNew (d : Deleter)
  | constructDefaultNew
  | constructNull (d : Deleter)
  | constructFrom (p : Nat) (d : Deleter)
  | resetNew (i : Nat)
  | resetNull (i : Nat)
  | resetSelf (i : Nat)
  | resetTo (i : Nat) (p : Nat)
  | assignNull (i : Nat)
  | release (i : Nat)
  | moveConstruct (i : Nat)
  | moveConstructConverting (i : Nat)
  | moveAssign (i k : Nat)
  | swap (i k : Nat)
  | destroy (i : Nat)
deriving DecidableEq

/-- Execute one statement. -/
def ustep (w : UWorld) : UOp → UWorld
  | UOp.constructNew d =>
    { w with handles := w.handles ++ [some (UniquePtr.ofPtrDeleter (some w.next) d)],
             next := w.next + 1 }
  | UOp.constructDefaultNew =>
    { w with handles := w.handles ++ [some (UniquePtr.ofPtr (some w.next))],
             next := w.next + 1 }
  | UOp.constructNull d =>
    { w with handles := w.handles ++ [some (UniquePtr.ofPtrDeleter none d)] }
  | UOp.constructFrom p d =>
    { w with handles := w.handles ++ [some (UniquePtr.ofPtrDeleter (some p) d)],
             handedOver := w.handedOver ++ [p] }
  | UOp.resetNew i =>
    match w.getHandle i with
    | some u =>
      let r := UniquePtr.Reset w.log u (some w.next)
      { w with handles := w.handles.set i (some r.2), log := r.1, next := w.next + 1 }
    | none => w
  | UOp.resetNull i =>
    match w.getHandle i with
    | some u =>
      let r := UniquePtr.Reset w.log u none
      { w with handles := w.handles.set i (some r.2), log := r.1 }
    | none => w
  | UOp.resetSelf i =>
    match w.getHandle i with
    | some u =>
      let r := UniquePtr.Reset w.log u u.Get
      { w with handles := w.handles.set i (some r.2), log := r.1 }
    | none => w
  | UOp.resetTo i p =>
    match w.getHandle i with
    | some u =>
      let r := UniquePtr.Reset w.log u (some p)
      { w with handles := w.handles.set i (some r.2), log := r.1,
               handedOver := if u.pair_.first = some p then w.handedOver
                             else w.handedOver ++ [p] }
    | none => w
  | UOp.assignNull i =>
    match w.getHandle i with
    | some u =>
      let r := UniquePtr.assignNull w.log u
      { w with handles := w.handles.set i (some r.2), log := r.1 }
    | none => w
  | UOp.release i =>
    match w.getHandle i with
    | some u =>
      let r := u.Release
      { w with handles := w.handles.set i (some r.1), released := w.released ++ [r.2] }
    | none => w
  | UOp.moveConstruct i =>
    match w.getHandle i with
    | some u =>
      let r := UniquePtr.move u
      { w with handles := w.handles.set i (some r.2) ++ [some r.1] }
    | none => w
  | UOp.moveConstructConverting i =>
    match w.getHandle i with
    | some u =>
      let r := UniquePtr.moveConverting u
      { w with handles := w.handles.set i (some r.2) ++ [some r.1] }
    | none => w
  | UOp.moveAssign i k =>
    match w.getHandle i, w.getHandle k with
    | some a, some b =>
      let r := UniquePtr.moveAssign w.log a b
      { w with handles := (w.handles.set k (some r.2.2)).set i (some r.2.1), log := r.1 }
    | _, _ => w
  | UOp.swap i k =>
    match w.getHandle i, w.getHandle k with
    | some a, some b =>
      let r := UniquePtr.Swap a b
      { w with handles := (w.handles.set k (some r.2)).set i (some r.1) }
    | _, _ => w
  | UOp.destroy i =>
    match w.getHandle i with
    | some u => { w with handles := w.handles.set i none, log := UniquePtr.destroy w.log u }
    | none => w

/-- Execute a program, statement by statement. -/
def urun (w : UWorld) (ops : List UOp) : UWorld := ops.foldl ustep w

/-- Run the destructor of every live object of the list, in the order of the list. -/
def destroyEach : List (Option UniquePtr) → List DeleterCall → List DeleterCall
  | [], log => log
  | none :: us, log => destroyEach us log
  | some u :: us, log => destroyEach us (UniquePtr.destroy log u)

/-- Destroy all live objects, the one constructed last first. -/
def UWorld.destroyAll (w : UWorld) : UWorld :=
  { w with handles := w.handles.map (fun _ => none),
           log := destroyEach w.handles.reverse w.log }

/-- Whether a `UniquePtr` object is live and holds the pointer `p`. -/
def holdsPtr (p : Nat) : Option UniquePtr → Bool
  | some u => decide (u.pair_.first = some p)
  | none => false

/-- Number of live `UniquePtr` objects that hold the pointer `p`. -/
def UWorld.holders (w : UWorld) (p : Nat) : Nat := w.handles.countP (holdsPtr p)

/-- Number of times `Release` has returned the pointer `p`. -/
def UWorld.releases (w : UWorld) (p : Nat) : Nat :=
  w.released.countP (fun q => decide (q = some p))

/-- Number of times the caller has handed the pointer `p` to a handle. -/
def UWorld.handovers (w : UWorld) (p : Nat) : Nat :=
  w.handedOver.countP (fun q => decide (q = p))

/-- Whether the caller holds the pointer `p`: `Release` has returned it more often than
the caller has handed it to a handle. -/
def UWorld.callerHolds (w : UWorld) (p : Nat) : Bool :=
  decide (w.handovers p < w.releases p)

/-- The contract of an exclusive owner for one statement: a pointer passed to
`UniquePtr(p, d)` or to `Reset(p)` is one the caller holds, or (for `Reset`) the pointer
the handle holds already. -/
def uvalidStep (w : UWorld) : UOp → Bool
  | UOp.constructFrom p _ => w.callerHolds p
  | UOp.resetTo i p =>
    match w.getHandle i with
    | some u => decide (u.pair_.first = some p) || w.callerHolds p
    | none => true
  | _ => true

/-- The contract of an exclusive owner for a program. -/
def uvalid (w : UWorld) : List UOp → Bool
  | [] => true
  | op :: ops => uvalidStep w op && uvalid (ustep w op) ops

/-- The ownership invariant: every pointer handed out by `new` is in exactly one place:
held by one live handle, passed to a deleter once, or in the hands of the caller after
`Release`; and no other non-null pointer is anywhere. -/
def UWorld.Inv (w : UWorld) : Prop :=
  ∀ p, (p < w.next →
      (w.holders p : Int) + (deletions w.log p : Int) + (w.releases p : Int)
        = 1 + (w.handovers p : Int)) ∧
    (w.handovers p : Int) ≤ (w.releases p : Int) ∧
    (w.next ≤ p →
      (w.holders p : Int) = 0 ∧ (deletions w.log p : Int) = 0 ∧ (w.releases p : Int) = 0)

/-! ## Pointwise effect of the operations on the free store -/

@[simp]
theorem ControlBlock.incStrong_strong_ (c : ControlBlock) :
    (c.incStrong).strong_ = c.strong_ + 1 := rfl

@[simp]
theorem ControlBlock.incStrong_weak_ (c : ControlBlock) :
    (c.incStrong).weak_ = c.weak_ := rfl

@[simp]
theorem ControlBlock.incStrong_zeroStrongCalls (c : ControlBlock) :
    (c.incStrong).zeroStrongCalls = c.zeroStrongCalls := rfl

@[simp]
theorem ControlBlock.incStrong_zeroWeakCalls (c : ControlBlock) :
    (c.incStrong).zeroWeakCalls = c.zeroWeakCalls := rfl

@[simp]
theorem ControlBlock.decStrong_strong_ (c : ControlBlock) :
    (c.decStrong).strong_ = c.strong_ - 1 := rfl

@[simp]
theorem ControlBlock.decStrong_weak_ (c : ControlBlock) :
    (c.decStrong).weak_ = c.weak_ := rfl

@[simp]
theorem ControlBlock.decStrong_zeroStrongCalls (c : ControlBlock) :
    (c.decStrong).zeroStrongCalls = c.zeroStrongCalls := rfl

@[simp]
theorem ControlBlock.decStrong_zeroWeakCalls (c : ControlBlock) :
    (c.decStrong).zeroWeakCalls = c.zeroWeakCalls := rfl

@[simp]
theorem ControlBlock.incWeak_strong_ (c : ControlBlock) :
    (c.incWeak).strong_ = c.strong_ := rfl

@[simp]
theorem ControlBlock.incWeak_weak_ (c : ControlBlock) :
    (c.incWeak).weak_ = c.weak_ + 1 := rfl

@[simp]
theorem ControlBlock.incWeak_zeroStrongCalls (c : ControlBlock) :
    (c.incWeak).zeroStrongCalls = c.zeroStrongCalls := rfl

@[simp]
theorem ControlBlock.incWeak_zeroWeakCalls (c : ControlBlock) :
    (c.incWeak).zeroWeakCalls = c.zeroWeakCalls := rfl

@[simp]
theorem ControlBlock.decWeak_strong_ (c : ControlBlock) :
    (c.decWeak).strong_ = c.strong_ := rfl

@[simp]
theorem ControlBlock.decWeak_weak_ (c : ControlBlock) :
    (c.decWeak).weak_ = c.weak_ - 1 := rfl

@[simp]
theorem ControlBlock.decWeak_zeroStrongCalls (c : ControlBlock) :
    (c.decWeak).zeroStrongCalls = c.zeroStrongCalls := rfl

@[simp]
theorem ControlBlock.decWeak_zeroWeakCalls (c : ControlBlock) :
    (c.decWeak).zeroWeakCalls = c.zeroWeakCalls := rfl

@[simp]
theorem ControlBlock.OnZeroStrong_strong_ (c : ControlBlock) :
    (c.OnZeroStrong).strong_ = c.strong_ := rfl

@[simp]
theorem ControlBlock.OnZeroStrong_weak_ (c : ControlBlock) :
    (c.OnZeroStrong).weak_ = c.weak_ := rfl

@[simp]
theorem ControlBlock.OnZeroStrong_zeroStrongCalls (c : ControlBlock) :
    (c.OnZeroStrong).zeroStrongCalls = c.zeroStrongCalls + 1 := rfl

@[simp]
theorem ControlBlock.OnZeroStrong_zeroWeakCalls (c : ControlBlock) :
    (c.OnZeroStrong).zeroWeakCalls = c.zeroWeakCalls := rfl

@[simp]
theorem ControlBlock.OnZeroWeak_strong_ (c : ControlBlock) :
    (c.OnZeroWeak).strong_ = c.strong_ := rfl

@[simp]
theorem ControlBlock.OnZeroWeak_weak_ (c : ControlBlock) :
    (c.OnZeroWeak).weak_ = c.weak_ := rfl

@[simp]
theorem ControlBlock.OnZeroWeak_zeroStrongCalls (c : ControlBlock) :
    (c.OnZeroWeak).zeroStrongCalls = c.zeroStrongCalls := rfl

@[simp]
theorem ControlBlock.OnZeroWeak_zeroWeakCalls (c : ControlBlock) :
    (c.OnZeroWeak).zeroWeakCalls = c.zeroWeakCalls + 1 := rfl

theorem Heap.modify_blocks (h : Heap) (b : Nat) (f : ControlBlock → ControlBlock) (b1 : Nat) :
    (h.modify b f).blocks b1 = if b1 = b then f (h.blocks b) else h.blocks b1 := by
  unfold Heap.modify
  by_cases hb : b1 = b
  · subst hb; simp
  · simp [Function.update_noteq hb, hb]

@[simp]
theorem Heap.modify_next (h : Heap) (b : Nat) (f : ControlBlock → ControlBlock) :
    (h.modify b f).next = h.next := rfl

theorem Heap.modify_at (h : Heap) (b0 b : Nat) (f : ControlBlock → ControlBlock) :
    (h.modify b0 f).blocks b = if b0 = b then f (h.blocks b) else h.blocks b := by
  rw [Heap.modify_blocks]
  by_cases hb : b0 = b
  · subst hb; simp
  · have hb2 : b ≠ b0 := fun e => hb e.symm
    simp [hb, hb2]

theorem modify_strong_at (h : Heap) (b0 b : Nat) (f : ControlBlock → ControlBlock) :
    ((h.modify b0 f).blocks b).strong_
      = if b0 = b then (f (h.blocks b)).strong_ else (h.blocks b).strong_ := by
  rw [Heap.modify_at]; split_ifs <;> rfl

theorem modify_weak_at (h : Heap) (b0 b : Nat) (f : ControlBlock → ControlBlock) :
    ((h.modify b0 f).blocks b).weak_
      = if b0 = b then (f (h.blocks b)).weak_ else (h.blocks b).weak_ := by
  rw [Heap.modify_at]; split_ifs <;> rfl

theorem modify_zeroStrongCalls_at (h : Heap) (b0 b : Nat) (f : ControlBlock → ControlBlock) :
    ((h.modify b0 f).blocks b).zeroStrongCalls
      = if b0 = b then (f (h.blocks b)).zeroStrongCalls else (h.blocks b).zeroStrongCalls := by
  rw [Heap.modify_at]; split_ifs <;> rfl

theorem modify_zeroWeakCalls_at (h : Heap) (b0 b : Nat) (f : ControlBlock → ControlBlock) :
    ((h.modify b0 f).blocks b).zeroWeakCalls
      = if b0 = b then (f (h.blocks b)).zeroWeakCalls else (h.blocks b).zeroWeakCalls := by
  rw [Heap.modify_at]; split_ifs <;> rfl

theorem Heap.alloc_at (h : Heap) (c : ControlBlock) (b : Nat) :
    (h.alloc c).1.blocks b = if h.next = b then c else h.blocks b := by
  unfold Heap.alloc
  by_cases hb : h.next = b
  · subst hb; simp
  · have hb2 : b ≠ h.next := fun e => hb e.symm
    simp [Function.update_noteq hb2, hb]

@[simp]
theorem Heap.alloc_next (h : Heap) (c : ControlBlock) :
    (h.alloc c).1.next = h.next + 1 := rfl

@[simp]
theorem Heap.alloc_addr (h : Heap) (c : ControlBlock) : (h.alloc c).2 = h.next := rfl

theorem alloc_strong_at (h : Heap) (c : ControlBlock) (b : Nat) :
    ((h.alloc c).1.blocks b).strong_ = if h.next = b then c.strong_ else (h.blocks b).strong_ := by
  rw [Heap.alloc_at]; split_ifs <;> rfl

theorem alloc_zeroStrongCalls_at (h : Heap) (c : ControlBlock) (b : Nat) :
    ((h.alloc c).1.blocks b).zeroStrongCalls
      = if h.next = b then c.zeroStrongCalls else (h.blocks b).zeroStrongCalls := by
  rw [Heap.alloc_at]; split_ifs <;> rfl

theorem Free_at (h : Heap) (s : SharedPtr) (b : Nat) :
    (SharedPtr.Free h s).1.blocks b =
      if s.state_ = some b then
        (if (h.blocks b).strong_ = 1 then
          (if (h.blocks b).weak_ = 0 then (h.blocks b).decStrong.OnZeroStrong.OnZeroWeak
           else (h.blocks b).decStrong.OnZeroStrong)
         else (h.blocks b).decStrong)
      else h.blocks b := by
  unfold SharedPtr.Free
  cases hs : s.state_ with
  | none => simp
  | some b0 =>
    by_cases hb : b0 = b
    · subst hb
      have e1 : (h.blocks b0).strong_ - 1 = 0 ↔ (h.blocks b0).strong_ = 1 := by omega
      simp only [Heap.modify_at, if_true, ControlBlock.decStrong_strong_,
        ControlBlock.OnZeroStrong_weak_, ControlBlock.decStrong_weak_, e1]
      split_ifs <;> simp [Heap.modify_at]
    · simp only [Heap.modify_at, if_true, ControlBlock.decStrong_strong_,
        ControlBlock.OnZeroStrong_weak_, ControlBlock.decStrong_weak_, Option.some.injEq, hb,
        if_false]
      split_ifs <;> simp [Heap.modify_at, hb]

theorem Free_strong (h : Heap) (s : SharedPtr) (b : Nat) :
    ((SharedPtr.Free h s).1.blocks b).strong_
      = (h.blocks b).strong_ - (if s.state_ = some b then 1 else 0) := by
  rw [Free_at]; split_ifs <;> simp

theorem Free_weak (h : Heap) (s : SharedPtr) (b : Nat) :
    ((SharedPtr.Free h s).1.blocks b).weak_ = (h.blocks b).weak_ := by
  rw [Free_at]; split_ifs <;> simp

theorem Free_zeroStrongCalls (h : Heap) (s : SharedPtr) (b : Nat) :
    ((SharedPtr.Free h s).1.blocks b).zeroStrongCalls
      = (h.blocks b).zeroStrongCalls
        + (if s.state_ = some b ∧ (h.blocks b).strong_ = 1 then 1 else 0) := by
  rw [Free_at]; split_ifs <;> simp_all

theorem Free_zeroWeakCalls (h : Heap) (s : SharedPtr) (b : Nat) :
    ((SharedPtr.Free h s).1.blocks b).zeroWeakCalls
      = (h.blocks b).zeroWeakCalls
        + (if s.state_ = some b ∧ (h.blocks b).strong_ = 1 ∧ (h.blocks b).weak_ = 0
            then 1 else 0) := by
  rw [Free_at]; split_ifs <;> simp_all

@[simp]
theorem Free_next (h : Heap) (s : SharedPtr) : (SharedPtr.Free h s).1.next = h.next := by
  unfold SharedPtr.Free
  cases hs : s.state_ with
  | none => simp
  | some b0 => simp only [Heap.modify_next]; split_ifs <;> simp [Heap.modify_next]

@[simp]
theorem Free_handle (h : Heap) (s : SharedPtr) :
    (SharedPtr.Free h s).2 = { state_ := none, ptr_ := none } := by
  unfold SharedPtr.Free
  cases hs : s.state_ <;> simp

theorem WeakReset_at (h : Heap) (s : WeakPtr) (b : Nat) :
    (WeakPtr.Reset h s).1.blocks b =
      if s.state_ = some b then
        (if (h.blocks b).strong_ + ((h.blocks b).weak_ - 1) = 0
          then (h.blocks b).decWeak.OnZeroWeak else (h.blocks b).decWeak)
      else h.blocks b := by
  unfold WeakPtr.Reset
  cases hs : s.state_ with
  | none => simp
  | some b0 =>
    by_cases hb : b0 = b
    · subst hb
      simp only [Heap.modify_at, if_true, ControlBlock.decWeak_strong_,
        ControlBlock.decWeak_weak_]
      split_ifs <;> simp [Heap.modify_at]
    · simp only [Heap.modify_at, if_true, ControlBlock.decWeak_strong_,
        ControlBlock.decWeak_weak_, Option.some.injEq, hb, if_false]
      split_ifs <;> simp [Heap.modify_at, hb]

theorem WeakReset_strong (h : Heap) (s : WeakPtr) (b : Nat) :
    ((WeakPtr.Reset h s).1.blocks b).strong_ = (h.blocks b).strong_ := by
  rw [WeakReset_at]; split_ifs <;> simp

theorem WeakReset_weak (h : Heap) (s : WeakPtr) (b : Nat) :
    ((WeakPtr.Reset h s).1.blocks b).weak_
      = (h.blocks b).weak_ - (if s.state_ = some b then 1 else 0) := by
  rw [WeakReset_at]; split_ifs <;> simp

theorem WeakReset_zeroStrongCalls (h : Heap) (s : WeakPtr) (b : Nat) :
    ((WeakPtr.Reset h s).1.blocks b).zeroStrongCalls = (h.blocks b).zeroStrongCalls := by
  rw [WeakReset_at]; split_ifs <;> simp

theorem WeakReset_zeroWeakCalls (h : Heap) (s : WeakPtr) (b : Nat) :
    ((WeakPtr.Reset h s).1.blocks b).zeroWeakCalls
      = (h.blocks b).zeroWeakCalls
        + (if s.state_ = some b ∧ (h.blocks b).strong_ + ((h.blocks b).weak_ - 1) = 0
            then 1 else 0) := by
  rw [WeakReset_at]; split_ifs <;> simp_all

@[simp]
theorem WeakReset_next (h : Heap) (s : WeakPtr) : (WeakPtr.Reset h s).1.next = h.next := by
  unfold WeakPtr.Reset
  cases hs : s.state_ with
  | none => simp
  | some b0 => simp only [Heap.modify_next]; split_ifs <;> simp [Heap.modify_next]

@[simp]
theorem WeakReset_handle (h : Heap) (s : WeakPtr) :
    (WeakPtr.Reset h s).2 = { state_ := none, ptr_ := none } := by
  unfold WeakPtr.Reset
  cases hs : s.state_ <;> simp

/-! ## Counting handles -/

theorem countP_set_add {α : Type} (p : α → Bool) (l : List α) (i : Nat) (x y : α)
    (h : l[i]? = some y) :
    (l.set i x).countP p + (if p y then 1 else 0) = l.countP p + (if p x then 1 else 0) := by
  induction l generalizing i with
  | nil => simp at h
  | cons a l ih =>
    cases i with
    | zero =>
      simp at h
      subst h
      simp [List.countP_cons]
      omega
    | succ i =>
      simp at h
      have := ih i h
      simp [List.countP_cons]
      omega

theorem countP_push {α : Type} (p : α → Bool) (l : List α) (x : α) :
    (l ++ [x]).countP p = l.countP p + (if p x then 1 else 0) := by
  simp [List.countP_append, List.countP_cons]

theorem countP_pos_of_getElem {α : Type} (p : α → Bool) (l : List α) (i : Nat) (y : α)
    (h : l[i]? = some y) (hp : p y = true) : 1 ≤ l.countP p := by
  have hm : y ∈ l := List.getElem?_mem h
  exact List.countP_pos_iff.mpr ⟨y, hm, hp⟩

theorem set_getElem_self {α : Type} (l : List α) (i : Nat) (x : α) (h : l[i]? = some x) :
    l.set i x = l := by
  induction l generalizing i with
  | nil => simp
  | cons a l ih =>
    cases i with
    | zero => simp at h; simp [h]
    | succ i => simp at h; simp [ih i h]

theorem getElem_set_other {α : Type} (l : List α) (i k : Nat) (x y : α) (hik : i ≠ k)
    (h : l[i]? = some y) : (l.set k x)[i]? = some y := by
  rw [List.getElem?_set_ne (fun e => hik e.symm)]; exact h

@[simp]
theorem sharedRefersTo_some (b : Nat) (s : SharedPtr) :
    sharedRefersTo b (some s) = decide (s.state_ = some b) := rfl

@[simp]
theorem sharedRefersTo_none (b : Nat) : sharedRefersTo b none = false := rfl

@[simp]
theorem weakRefersTo_some (b : Nat) (s : WeakPtr) :
    weakRefersTo b (some s) = decide (s.state_ = some b) := rfl

@[simp]
theorem weakRefersTo_none (b : Nat) : weakRefersTo b none = false := rfl

theorem getShared_eq (w : World) (i : Nat) (a : SharedPtr) (h : w.getShared i = some a) :
    w.shared[i]? = some (some a) := by
  unfold World.getShared at h
  cases hx : w.shared[i]? with
  | none => simp [hx] at h
  | some x => simp [hx] at h; simp [h]

theorem getWeak_eq (w : World) (i : Nat) (a : WeakPtr) (h : w.getWeak i = some a) :
    w.weak[i]? = some (some a) := by
  unfold World.getWeak at h
  cases hx : w.weak[i]? with
  | none => simp [hx] at h
  | some x => simp [hx] at h; simp [h]

/-! ## The invariant of the strong side -/

theorem World.WF.init : World.init.WF := by
  refine ⟨?_, ?_, ?_⟩
  · intro b; simp [World.init, Heap.init, ControlBlock.unused, World.strongRefs]
  · intro b _; simp [World.init, Heap.init, ControlBlock.unused]
  · intro b hb; simp [World.init, Heap.init] at hb

theorem World.WF.live {w : World} (hw : w.WF) {i : Nat} {a : SharedPtr}
    (hi : w.shared[i]? = some (some a)) (b : Nat) (hs : a.state_ = some b) :
    1 ≤ (w.heap.blocks b).strong_ ∧ b < w.heap.next ∧ (w.heap.blocks b).zeroStrongCalls = 0 := by
  have h1 := hw.strong_eq b
  have h2 := hw.fresh b
  have h3 := hw.hook b
  have h4 : 1 ≤ w.strongRefs b :=
    countP_pos_of_getElem (sharedRefersTo b) w.shared i (some a) hi (by simp [hs])
  omega

theorem World.WF.unexpired {w : World} (hw : w.WF) (b : Nat)
    (hs : (w.heap.blocks b).strong_ ≠ 0) :
    1 ≤ (w.heap.blocks b).strong_ ∧ b < w.heap.next ∧ (w.heap.blocks b).zeroStrongCalls = 0 := by
  have h1 := hw.strong_eq b
  have h2 := hw.fresh b
  have h3 := hw.hook b
  omega

theorem StepSpec.same {w : World} (hw : w.WF) : StepSpec w w := by
  refine ⟨hw, Nat.le_refl _, ?_⟩
  intro b
  split_ifs <;> omega

theorem StepSpec.frame {w w1 : World} (hw : w.WF) (hsh : w1.shared = w.shared)
    (hn : w1.heap.next = w.heap.next)
    (hs : ∀ b, (w1.heap.blocks b).strong_ = (w.heap.blocks b).strong_)
    (hz : ∀ b, (w1.heap.blocks b).zeroStrongCalls = (w.heap.blocks b).zeroStrongCalls) :
    StepSpec w w1 := by
  refine ⟨⟨?_, ?_, ?_⟩, ?_, ?_⟩
  · intro b; rw [hs b, hw.strong_eq b]; simp [World.strongRefs, hsh]
  · intro b hb; rw [hs b, hz b]; exact hw.fresh b (hn ▸ hb)
  · intro b hb; rw [hs b, hz b]; exact hw.hook b (hn ▸ hb)
  · omega
  · intro b; rw [hs b, hz b]; split_ifs <;> omega

theorem countP_set_cast {α : Type} (p : α → Bool) (l : List α) (i : Nat) (x y : α)
    (h : l[i]? = some y) :
    ((l.set i x).countP p : Int)
      = (l.countP p : Int) + (if p x then 1 else 0) - (if p y then 1 else 0) := by
  have := countP_set_add p l i x y h
  split_ifs at * <;> omega

theorem countP_set_set_cast {α : Type} (p : α → Bool) (l : List α) (i k : Nat) (x1 y1 x y : α)
    (hik : i ≠ k) (hi : l[i]? = some x) (hk : l[k]? = some y) :
    (((l.set k y1).set i x1).countP p : Int)
      = (l.countP p : Int) + (if p x1 then 1 else 0) + (if p y1 then 1 else 0)
        - (if p x then 1 else 0) - (if p y then 1 else 0) := by
  rw [countP_set_cast p (l.set k y1) i x1 x (getElem_set_other l i k y1 x hik hi),
    countP_set_cast p l k y1 y hk]
  omega

theorem stepSpec_sharedEmpty (w : World) (hw : w.WF) :
    StepSpec w (step w Op.sharedEmpty) := by
  simp only [step, SharedPtr.empty]
  refine ⟨⟨?_, ?_, ?_⟩, ?_, ?_⟩ <;> (try intro b) <;>
  (try have h1 := hw.strong_eq b) <;> (try have h2 := hw.fresh b) <;>
  (try have h3 := hw.hook b) <;>
  (try simp only [World.strongRefs, World.pushShared, modify_strong_at, modify_zeroStrongCalls_at,
    Heap.modify_next, alloc_strong_at, alloc_zeroStrongCalls_at, Heap.alloc_next, Heap.alloc_addr,
    Free_strong, Free_zeroStrongCalls, Free_next, Free_handle, countP_push, sharedRefersTo_some,
    sharedRefersTo_none, ControlBlock.incStrong_strong_, ControlBlock.incStrong_zeroStrongCalls,
    Option.some.injEq, decide_eq_true_eq, ite_self, reduceCtorEq, if_true, if_false,
    Bool.false_eq_true, ne_eq, not_true_eq_false, not_false_eq_true, Nat.cast_add, Nat.cast_ite,
    Nat.cast_one, Nat.cast_zero, eq_self_iff_true, true_and, and_true, false_and, and_false] at *) <;>
  (try split_ifs at *) <;> omega

theorem stepSpec_sharedOfRaw (w : World) (hw : w.WF) (ptr : Option Addr) :
    StepSpec w (step w (Op.sharedOfRaw ptr)) := by
  simp only [step, SharedPtr.ofRaw, ControlBlockPointer.new]
  refine ⟨⟨?_, ?_, ?_⟩, ?_, ?_⟩ <;> (try intro b) <;>
  (try have h1 := hw.strong_eq b) <;> (try have h2 := hw.fresh b) <;>
  (try have h3 := hw.hook b) <;>
  (try simp only [World.strongRefs, World.pushShared, modify_strong_at, modify_zeroStrongCalls_at,
    Heap.modify_next, alloc_strong_at, alloc_zeroStrongCalls_at, Heap.alloc_next, Heap.alloc_addr,
    Free_strong, Free_zeroStrongCalls, Free_next, Free_handle, countP_push, sharedRefersTo_some,
    sharedRefersTo_none, ControlBlock.incStrong_strong_, ControlBlock.incStrong_zeroStrongCalls,
    Option.some.injEq, decide_eq_true_eq, ite_self, reduceCtorEq, if_true, if_false,
    Bool.false_eq_true, ne_eq, not_true_eq_false, not_false_eq_true, Nat.cast_add, Nat.cast_ite,
    Nat.cast_one, Nat.cast_zero, eq_self_iff_true, true_and, and_true, false_and, and_false] at *) <;>
  (try split_ifs at *) <;> omega

theorem stepSpec_makeShared (w : World) (hw : w.WF) :
    StepSpec w (step w Op.makeShared) := by
  simp only [step, MakeShared, ControlBlockMakeShared.new]
  refine ⟨⟨?_, ?_, ?_⟩, ?_, ?_⟩ <;> (try intro b) <;>
  (try have h1 := hw.strong_eq b) <;> (try have h2 := hw.fresh b) <;>
  (try have h3 := hw.hook b) <;>
  (try simp only [World.strongRefs, World.pushShared, modify_strong_at, modify_zeroStrongCalls_at,
    Heap.modify_next, alloc_strong_at, alloc_zeroStrongCalls_at, Heap.alloc_next, Heap.alloc_addr,
    Free_strong, Free_zeroStrongCalls, Free_next, Free_handle, countP_push, sharedRefersTo_some,
    sharedRefersTo_none, ControlBlock.incStrong_strong_, ControlBlock.incStrong_zeroStrongCalls,
    Option.some.injEq, decide_eq_true_eq, ite_self, reduceCtorEq, if_true, if_false,
    Bool.false_eq_true, ne_eq, not_true_eq_false, not_false_eq_true, Nat.cast_add, Nat.cast_ite,
    Nat.cast_one, Nat.cast_zero, eq_self_iff_true, true_and, and_true, false_and, and_false] at *) <;>
  (try split_ifs at *) <;> omega

theorem stepSpec_sharedCopy (w : World) (hw : w.WF) (i : Nat) :
    StepSpec w (step w (Op.sharedCopy i)) := by
  simp only [step]
  cases hi : w.getShared i with
  | none => exact StepSpec.same hw
  | some a =>
    have hi2 := getShared_eq w i a hi
    simp only [SharedPtr.copy]
    cases hs : a.state_ with
    | none =>
      refine ⟨⟨?_, ?_, ?_⟩, ?_, ?_⟩ <;> (try intro b) <;>
      (try have h1 := hw.strong_eq b) <;> (try have h2 := hw.fresh b) <;>
      (try have h3 := hw.hook b) <;>
      (try simp only [World.strongRefs, World.pushShared, modify_strong_at, modify_zeroStrongCalls_at,
        Heap.modify_next, alloc_strong_at, alloc_zeroStrongCalls_at, Heap.alloc_next, Heap.alloc_addr,
        Free_strong, Free_zeroStrongCalls, Free_next, Free_handle, countP_push, sharedRefersTo_some,
        sharedRefersTo_none, ControlBlock.incStrong_strong_, ControlBlock.incStrong_zeroStrongCalls,
        Option.some.injEq, decide_eq_true_eq, ite_self, reduceCtorEq, if_true, if_false,
        Bool.false_eq_true, ne_eq, not_true_eq_false, not_false_eq_true, Nat.cast_add, Nat.cast_ite,
        Nat.cast_one, Nat.cast_zero, eq_self_iff_true, true_and, and_true, false_and, and_false] at *) <;>
      (try split_ifs at *) <;> omega
    | some b0 =>
      refine ⟨⟨?_, ?_, ?_⟩, ?_, ?_⟩ <;> (try intro b) <;>
      (try have h1 := hw.strong_eq b) <;> (try have h2 := hw.fresh b) <;>
      (try have h3 := hw.hook b) <;>
      (try have h4 := hw.live hi2 b) <;>
      (try simp only [World.strongRefs, World.pushShared, modify_strong_at, modify_zeroStrongCalls_at,
        Heap.modify_next, alloc_strong_at, alloc_zeroStrongCalls_at, Heap.alloc_next, Heap.alloc_addr,
        Free_strong, Free_zeroStrongCalls, Free_next, Free_handle, countP_push, sharedRefersTo_some,
        sharedRefersTo_none, ControlBlock.incStrong_strong_, ControlBlock.incStrong_zeroStrongCalls,
        Option.some.injEq, decide_eq_true_eq, ite_self, reduceCtorEq, if_true, if_false,
        Bool.false_eq_true, ne_eq, not_true_eq_false, not_false_eq_true, Nat.cast_add, Nat.cast_ite,
        Nat.cast_one, Nat.cast_zero, eq_self_iff_true, true_and, and_true, false_and, and_false, hs] at *) <;>
      (try split_ifs at *) <;> omega

theorem stepSpec_sharedAlias (w : World) (hw : w.WF) (i : Nat) (ptr : Option Addr) :
    StepSpec w (step w (Op.sharedAlias i ptr)) := by
  simp only [step]
  cases hi : w.getShared i with
  | none => exact StepSpec.same hw
  | some a =>
    have hi2 := getShared_eq w i a hi
    simp only [SharedPtr.alias]
    cases hs : a.state_ with
    | none =>
      refine ⟨⟨?_, ?_, ?_⟩, ?_, ?_⟩ <;> (try intro b) <;>
      (try have h1 := hw.strong_eq b) <;> (try have h2 := hw.fresh b) <;>
      (try have h3 := hw.hook b) <;>
      (try simp only [World.strongRefs, World.pushShared, modify_strong_at, modify_zeroStrongCalls_at,
        Heap.modify_next, alloc_strong_at, alloc_zeroStrongCalls_at, Heap.alloc_next, Heap.alloc_addr,
        Free_strong, Free_zeroStrongCalls, Free_next, Free_handle, countP_push, sharedRefersTo_some,
        sharedRefersTo_none, ControlBlock.incStrong_strong_, ControlBlock.incStrong_zeroStrongCalls,
        Option.some.injEq, decide_eq_true_eq, ite_self, reduceCtorEq, if_true, if_false,
        Bool.false_eq_true, ne_eq, not_true_eq_false, not_false_eq_true, Nat.cast_add, Nat.cast_ite,
        Nat.cast_one, Nat.cast_zero, eq_self_iff_true, true_and, and_true, false_and, and_false] at *) <;>
      (try split_ifs at *) <;> omega
    | some b0 =>
      refine ⟨⟨?_, ?_, ?_⟩, ?_, ?_⟩ <;> (try intro b) <;>
      (try have h1 := hw.strong_eq b) <;> (try have h2 := hw.fresh b) <;>
      (try have h3 := hw.hook b) <;>
      (try have h4 := hw.live hi2 b) <;>
      (try simp only [World.strongRefs, World.pushShared, modify_strong_at, modify_zeroStrongCalls_at,
        Heap.modify_next, alloc_strong_at, alloc_zeroStrongCalls_at, Heap.alloc_next, Heap.alloc_addr,
        Free_strong, Free_zeroStrongCalls, Free_next, Free_handle, countP_push, sharedRefersTo_some,
        sharedRefersTo_none, ControlBlock.incStrong_strong_, ControlBlock.incStrong_zeroStrongCalls,
        Option.some.injEq, decide_eq_true_eq, ite_self, reduceCtorEq, if_true, if_false,
        Bool.false_eq_true, ne_eq, not_true_eq_false, not_false_eq_true, Nat.cast_add, Nat.cast_ite,
        Nat.cast_one, Nat.cast_zero, eq_self_iff_true, true_and, and_true, false_and, and_false, hs] at *) <;>
      (try split_ifs at *) <;> omega

theorem stepSpec_sharedMove (w : World) (hw : w.WF) (i : Nat) :
    StepSpec w (step w (Op.sharedMove i)) := by
  simp only [step]
  cases hi : w.getShared i with
  | none => exact StepSpec.same hw
  | some a =>
    have hi2 := getShared_eq w i a hi
    simp only [SharedPtr.move]
    cases hs : a.state_ with
    | none =>
      refine ⟨⟨?_, ?_, ?_⟩, ?_, ?_⟩ <;> (try intro b) <;>
      (try have h1 := hw.strong_eq b) <;> (try have h2 := hw.fresh b) <;>
      (try have h3 := hw.hook b) <;>
      (try simp only [World.strongRefs, World.pushShared, modify_strong_at, modify_zeroStrongCalls_at,
        Heap.modify_next, alloc_strong_at, alloc_zeroStrongCalls_at, Heap.alloc_next, Heap.alloc_addr,
        Free_strong, Free_zeroStrongCalls, Free_next, Free_handle, countP_push, sharedRefersTo_some,
        sharedRefersTo_none, ControlBlock.incStrong_strong_, ControlBlock.incStrong_zeroStrongCalls,
        Option.some.injEq, decide_eq_true_eq, ite_self, reduceCtorEq, if_true, if_false,
        Bool.false_eq_true, ne_eq, not_true_eq_false, not_false_eq_true, Nat.cast_add, Nat.cast_ite,
        Nat.cast_one, Nat.cast_zero, eq_self_iff_true, true_and, and_true, false_and, and_false, hs, countP_set_cast _ _ _ _ _ hi2] at *) <;>
      (try split_ifs at *) <;> omega
    | some b0 =>
      refine ⟨⟨?_, ?_, ?_⟩, ?_, ?_⟩ <;> (try intro b) <;>
      (try have h1 := hw.strong_eq b) <;> (try have h2 := hw.fresh b) <;>
      (try have h3 := hw.hook b) <;>
      (try have h4 := hw.live hi2 b) <;>
      (try simp only [World.strongRefs, World.pushShared, modify_strong_at, modify_zeroStrongCalls_at,
        Heap.modify_next, alloc_strong_at, alloc_zeroStrongCalls_at, Heap.alloc_next, Heap.alloc_addr,
        Free_strong, Free_zeroStrongCalls, Free_next, Free_handle, countP_push, sharedRefersTo_some,
        sharedRefersTo_none, ControlBlock.incStrong_strong_, ControlBlock.incStrong_zeroStrongCalls,
        Option.some.injEq, decide_eq_true_eq, ite_self, reduceCtorEq, if_true, if_false,
        Bool.false_eq_true, ne_eq, not_true_eq_false, not_false_eq_true, Nat.cast_add, Nat.cast_ite,
        Nat.cast_one, Nat.cast_zero, eq_self_iff_true, true_and, and_true, false_and, and_false, hs, countP_set_cast _ _ _ _ _ hi2] at *) <;>
      (try split_ifs at *) <;> omega

theorem stepSpec_sharedOfWeak (w : World) (hw : w.WF) (j : Nat) :
    StepSpec w (step w (Op.sharedOfWeak j)) := by
  simp only [step]
  cases hj : w.getWeak j with
  | none => exact StepSpec.same hw
  | some o =>
    rcases o with ⟨_ | b0, p⟩
    · simp only [WeakPtr.Lock, SharedPtr.ofWeak, WeakPtr.Expired, SharedPtr.empty, if_true]
      refine ⟨⟨?_, ?_, ?_⟩, ?_, ?_⟩ <;> (try intro b) <;>
      (try have h1 := hw.strong_eq b) <;> (try have h2 := hw.fresh b) <;>
      (try have h3 := hw.hook b) <;>
      (try simp only [World.strongRefs, World.pushShared, modify_strong_at, modify_zeroStrongCalls_at,
        Heap.modify_next, alloc_strong_at, alloc_zeroStrongCalls_at, Heap.alloc_next, Heap.alloc_addr,
        Free_strong, Free_zeroStrongCalls, Free_next, Free_handle, countP_push, sharedRefersTo_some,
        sharedRefersTo_none, ControlBlock.incStrong_strong_, ControlBlock.incStrong_zeroStrongCalls,
        Option.some.injEq, decide_eq_true_eq, ite_self, reduceCtorEq, if_true, if_false,
        Bool.false_eq_true, ne_eq, not_true_eq_false, not_false_eq_true, Nat.cast_add, Nat.cast_ite,
        Nat.cast_one, Nat.cast_zero, eq_self_iff_true, true_and, and_true, false_and, and_false] at *) <;>
      (try split_ifs at *) <;> omega
    · by_cases hx : (w.heap.blocks b0).strong_ = 0
      · simp only [WeakPtr.Lock, SharedPtr.ofWeak, WeakPtr.Expired, SharedPtr.empty, hx,
          decide_True, if_true]
        refine ⟨⟨?_, ?_, ?_⟩, ?_, ?_⟩ <;> (try intro b) <;>
        (try have h1 := hw.strong_eq b) <;> (try have h2 := hw.fresh b) <;>
        (try have h3 := hw.hook b) <;>
        (try simp only [World.strongRefs, World.pushShared, modify_strong_at, modify_zeroStrongCalls_at,
          Heap.modify_next, alloc_strong_at, alloc_zeroStrongCalls_at, Heap.alloc_next, Heap.alloc_addr,
          Free_strong, Free_zeroStrongCalls, Free_next, Free_handle, countP_push, sharedRefersTo_some,
          sharedRefersTo_none, ControlBlock.incStrong_strong_, ControlBlock.incStrong_zeroStrongCalls,
          Option.some.injEq, decide_eq_true_eq, ite_self, reduceCtorEq, if_true, if_false,
          Bool.false_eq_true, ne_eq, not_true_eq_false, not_false_eq_true, Nat.cast_add, Nat.cast_ite,
          Nat.cast_one, Nat.cast_zero, eq_self_iff_true, true_and, and_true, false_and, and_false] at *) <;>
        (try split_ifs at *) <;> omega
      · simp only [WeakPtr.Lock, SharedPtr.ofWeak, WeakPtr.Expired, SharedPtr.empty, hx,
          decide_False, if_false, Bool.false_eq_true]
        have hx2 : ∀ b, b0 = b → (w.heap.blocks b).strong_ ≠ 0 := by
          intro b e; subst e; exact hx
        refine ⟨⟨?_, ?_, ?_⟩, ?_, ?_⟩ <;> (try intro b) <;>
        (try have h1 := hw.strong_eq b) <;> (try have h2 := hw.fresh b) <;>
        (try have h3 := hw.hook b) <;>
        (try have h4 := hx2 b) <;>
        (try simp only [World.strongRefs, World.pushShared, modify_strong_at, modify_zeroStrongCalls_at,
          Heap.modify_next, alloc_strong_at, alloc_zeroStrongCalls_at, Heap.alloc_next, Heap.alloc_addr,
          Free_strong, Free_zeroStrongCalls, Free_next, Free_handle, countP_push, sharedRefersTo_some,
          sharedRefersTo_none, ControlBlock.incStrong_strong_, ControlBlock.incStrong_zeroStrongCalls,
          Option.some.injEq, decide_eq_true_eq, ite_self, reduceCtorEq, if_true, if_false,
          Bool.false_eq_true, ne_eq, not_true_eq_false, not_false_eq_true, Nat.cast_add, Nat.cast_ite,
          Nat.cast_one, Nat.cast_zero, eq_self_iff_true, true_and, and_true, false_and, and_false] at *) <;>
        (try split_ifs at *) <;> omega

theorem stepSpec_weakLock (w : World) (hw : w.WF) (j : Nat) :
    StepSpec w (step w (Op.weakLock j)) := by
  simp only [step]
  cases hj : w.getWeak j with
  | none => exact StepSpec.same hw
  | some o =>
    rcases o with ⟨_ | b0, p⟩
    · simp only [WeakPtr.Lock, SharedPtr.ofWeak, WeakPtr.Expired, SharedPtr.empty, if_true]
      refine ⟨⟨?_, ?_, ?_⟩, ?_, ?_⟩ <;> (try intro b) <;>
      (try have h1 := hw.strong_eq b) <;> (try have h2 := hw.fresh b) <;>
      (try have h3 := hw.hook b) <;>
      (try simp only [World.strongRefs, World.pushShared, modify_strong_at, modify_zeroStrongCalls_at,
        Heap.modify_next, alloc_strong_at, alloc_zeroStrongCalls_at, Heap.alloc_next, Heap.alloc_addr,
        Free_strong, Free_zeroStrongCalls, Free_next, Free_handle, countP_push, sharedRefersTo_some,
        sharedRefersTo_none, ControlBlock.incStrong_strong_, ControlBlock.incStrong_zeroStrongCalls,
        Option.some.injEq, decide_eq_true_eq, ite_self, reduceCtorEq, if_true, if_false,
        Bool.false_eq_true, ne_eq, not_true_eq_false, not_false_eq_true, Nat.cast_add, Nat.cast_ite,
        Nat.cast_one, Nat.cast_zero, eq_self_iff_true, true_and, and_true, false_and, and_false] at *) <;>
      (try split_ifs at *) <;> omega
    · by_cases hx : (w.heap.blocks b0).strong_ = 0
      · simp only [WeakPtr.Lock, SharedPtr.ofWeak, WeakPtr.Expired, SharedPtr.empty, hx,
          decide_True, if_true]
        refine ⟨⟨?_, ?_, ?_⟩, ?_, ?_⟩ <;> (try intro b) <;>
        (try have h1 := hw.strong_eq b) <;> (try have h2 := hw.fresh b) <;>
        (try have h3 := hw.hook b) <;>
        (try simp only [World.strongRefs, World.pushShared, modify_strong_at, modify_zeroStrongCalls_at,
          Heap.modify_next, alloc_strong_at, alloc_zeroStrongCalls_at, Heap.alloc_next, Heap.alloc_addr,
          Free_strong, Free_zeroStrongCalls, Free_next, Free_handle, countP_push, sharedRefersTo_some,
          sharedRefersTo_none, ControlBlock.incStrong_strong_, ControlBlock.incStrong_zeroStrongCalls,
          Option.some.injEq, decide_eq_true_eq, ite_self, reduceCtorEq, if_true, if_false,
          Bool.false_eq_true, ne_eq, not_true_eq_false, not_false_eq_true, Nat.cast_add, Nat.cast_ite,
          Nat.cast_one, Nat.cast_zero, eq_self_iff_true, true_and, and_true, false_and, and_false] at *) <;>
        (try split_ifs at *) <;> omega
      · simp only [WeakPtr.Lock, SharedPtr.ofWeak, WeakPtr.Expired, SharedPtr.empty, hx,
          decide_False, if_false, Bool.false_eq_true]
        have hx2 : ∀ b, b0 = b → (w.heap.blocks b).strong_ ≠ 0 := by
          intro b e; subst e; exact hx
        refine ⟨⟨?_, ?_, ?_⟩, ?_, ?_⟩ <;> (try intro b) <;>
        (try have h1 := hw.strong_eq b) <;> (try have h2 := hw.fresh b) <;>
        (try have h3 := hw.hook b) <;>
        (try have h4 := hx2 b) <;>
        (try simp only [World.strongRefs, World.pushShared, modify_strong_at, modify_zeroStrongCalls_at,
          Heap.modify_next, alloc_strong_at, alloc_zeroStrongCalls_at, Heap.alloc_next, Heap.alloc_addr,
          Free_strong, Free_zeroStrongCalls, Free_next, Free_handle, countP_push, sharedRefersTo_some,
          sharedRefersTo_none, ControlBlock.incStrong_strong_, ControlBlock.incStrong_zeroStrongCalls,
          Option.some.injEq, decide_eq_true_eq, ite_self, reduceCtorEq, if_true, if_false,
          Bool.false_eq_true, ne_eq, not_true_eq_false, not_false_eq_true, Nat.cast_add, Nat.cast_ite,
          Nat.cast_one, Nat.cast_zero, eq_self_iff_true, true_and, and_true, false_and, and_false] at *) <;>
        (try split_ifs at *) <;> omega

theorem stepSpec_sharedReset (w : World) (hw : w.WF) (i : Nat) :
    StepSpec w (step w (Op.sharedReset i)) := by
  simp only [step]
  cases hi : w.getShared i with
  | none => exact StepSpec.same hw
  | some a =>
    have hi2 := getShared_eq w i a hi
    rcases a with ⟨_ | a0, p⟩ <;>
    simp only [SharedPtr.Reset] <;>
    refine ⟨⟨?_, ?_, ?_⟩, ?_, ?_⟩ <;> (try intro b) <;>
    (try have h1 := hw.strong_eq b) <;> (try have h2 := hw.fresh b) <;>
    (try have h3 := hw.hook b) <;>
    (try have h4 := hw.live hi2 b) <;>
    (try simp only [World.strongRefs, World.pushShared, modify_strong_at, modify_zeroStrongCalls_at,
      Heap.modify_next, alloc_strong_at, alloc_zeroStrongCalls_at, Heap.alloc_next, Heap.alloc_addr,
      Free_strong, Free_zeroStrongCalls, Free_next, Free_handle, countP_push, sharedRefersTo_some,
      sharedRefersTo_none, ControlBlock.incStrong_strong_, ControlBlock.incStrong_zeroStrongCalls,
      Option.some.injEq, decide_eq_true_eq, ite_self, reduceCtorEq, if_true, if_false,
      Bool.false_eq_true, ne_eq, not_true_eq_false, not_false_eq_true, Nat.cast_add, Nat.cast_ite,
      Nat.cast_one, Nat.cast_zero, eq_self_iff_true, true_and, and_true, false_and, and_false, countP_set_cast _ _ _ _ _ hi2] at *) <;>
    (try split_ifs at *) <;> omega

theorem stepSpec_sharedDestroy (w : World) (hw : w.WF) (i : Nat) :
    StepSpec w (step w (Op.sharedDestroy i)) := by
  simp only [step]
  cases hi : w.getShared i with
  | none => exact StepSpec.same hw
  | some a =>
    have hi2 := getShared_eq w i a hi
    rcases a with ⟨_ | a0, p⟩ <;>
    simp only [SharedPtr.destroy] <;>
    refine ⟨⟨?_, ?_, ?_⟩, ?_, ?_⟩ <;> (try intro b) <;>
    (try have h1 := hw.strong_eq b) <;> (try have h2 := hw.fresh b) <;>
    (try have h3 := hw.hook b) <;>
    (try have h4 := hw.live hi2 b) <;>
    (try simp only [World.strongRefs, World.pushShared, modify_strong_at, modify_zeroStrongCalls_at,
      Heap.modify_next, alloc_strong_at, alloc_zeroStrongCalls_at, Heap.alloc_next, Heap.alloc_addr,
      Free_strong, Free_zeroStrongCalls, Free_next, Free_handle, countP_push, sharedRefersTo_some,
      sharedRefersTo_none, ControlBlock.incStrong_strong_, ControlBlock.incStrong_zeroStrongCalls,
      Option.some.injEq, decide_eq_true_eq, ite_self, reduceCtorEq, if_true, if_false,
      Bool.false_eq_true, ne_eq, not_true_eq_false, not_false_eq_true, Nat.cast_add, Nat.cast_ite,
      Nat.cast_one, Nat.cast_zero, eq_self_iff_true, true_and, and_true, false_and, and_false, countP_set_cast _ _ _ _ _ hi2] at *) <;>
    (try split_ifs at *) <;> omega

theorem stepSpec_sharedResetPtr (w : World) (hw : w.WF) (i : Nat) (ptr : Option Addr) :
    StepSpec w (step w (Op.sharedResetPtr i ptr)) := by
  simp only [step]
  cases hi : w.getShared i with
  | none => exact StepSpec.same hw
  | some a =>
    have hi2 := getShared_eq w i a hi
    rcases a with ⟨_ | a0, p⟩ <;>
    simp only [SharedPtr.ResetPtr, ControlBlockPointer.new] <;>
    refine ⟨⟨?_, ?_, ?_⟩, ?_, ?_⟩ <;> (try intro b) <;>
    (try have h1 := hw.strong_eq b) <;> (try have h2 := hw.fresh b) <;>
    (try have h3 := hw.hook b) <;>
    (try have h4 := hw.live hi2 b) <;>
    (try simp only [World.strongRefs, World.pushShared, modify_strong_at, modify_zeroStrongCalls_at,
      Heap.modify_next, alloc_strong_at, alloc_zeroStrongCalls_at, Heap.alloc_next, Heap.alloc_addr,
      Free_strong, Free_zeroStrongCalls, Free_next, Free_handle, countP_push, sharedRefersTo_some,
      sharedRefersTo_none, ControlBlock.incStrong_strong_, ControlBlock.incStrong_zeroStrongCalls,
      Option.some.injEq, decide_eq_true_eq, ite_self, reduceCtorEq, if_true, if_false,
      Bool.false_eq_true, ne_eq, not_true_eq_false, not_false_eq_true, Nat.cast_add, Nat.cast_ite,
      Nat.cast_one, Nat.cast_zero, eq_self_iff_true, true_and, and_true, false_and, and_false, countP_set_cast _ _ _ _ _ hi2] at *) <;>
    (try split_ifs at *) <;> omega

theorem stepSpec_sharedCopyAssign (w : World) (hw : w.WF) (i k : Nat) :
    StepSpec w (step w (Op.sharedCopyAssign i k)) := by
  simp only [step]
  cases hi : w.getShared i with
  | none => exact StepSpec.same hw
  | some a =>
    cases hk : w.getShared k with
    | none => exact StepSpec.same hw
    | some c =>
      have hi2 := getShared_eq w i a hi
      have hk2 := getShared_eq w k c hk
      rcases c with ⟨_ | c0, q⟩ <;> rcases a with ⟨_ | a0, p⟩
      · simp only [SharedPtr.copyAssign]
        refine ⟨⟨?_, ?_, ?_⟩, ?_, ?_⟩ <;> (try intro b) <;>
        (try have h1 := hw.strong_eq b) <;> (try have h2 := hw.fresh b) <;>
        (try have h3 := hw.hook b) <;>
        (try simp only [World.strongRefs, World.pushShared, modify_strong_at, modify_zeroStrongCalls_at,
          Heap.modify_next, alloc_strong_at, alloc_zeroStrongCalls_at, Heap.alloc_next, Heap.alloc_addr,
          Free_strong, Free_zeroStrongCalls, Free_next, Free_handle, countP_push, sharedRefersTo_some,
          sharedRefersTo_none, ControlBlock.incStrong_strong_, ControlBlock.incStrong_zeroStrongCalls,
          Option.some.injEq, decide_eq_true_eq, ite_self, reduceCtorEq, if_true, if_false,
          Bool.false_eq_true, ne_eq, not_true_eq_false, not_false_eq_true, Nat.cast_add, Nat.cast_ite,
          Nat.cast_one, Nat.cast_zero, eq_self_iff_true, true_and, and_true, false_and, and_false, countP_set_cast _ _ _ _ _ hi2] at *) <;>
        (try split_ifs at *) <;> omega
      · simp only [SharedPtr.copyAssign]
        refine ⟨⟨?_, ?_, ?_⟩, ?_, ?_⟩ <;> (try intro b) <;>
        (try have h1 := hw.strong_eq b) <;> (try have h2 := hw.fresh b) <;>
        (try have h3 := hw.hook b) <;>
        (try have h4 := hw.live hi2 b) <;>
        (try simp only [World.strongRefs, World.pushShared, modify_strong_at, modify_zeroStrongCalls_at,
          Heap.modify_next, alloc_strong_at, alloc_zeroStrongCalls_at, Heap.alloc_next, Heap.alloc_addr,
          Free_strong, Free_zeroStrongCalls, Free_next, Free_handle, countP_push, sharedRefersTo_some,
          sharedRefersTo_none, ControlBlock.incStrong_strong_, ControlBlock.incStrong_zeroStrongCalls,
          Option.some.injEq, decide_eq_true_eq, ite_self, reduceCtorEq, if_true, if_false,
          Bool.false_eq_true, ne_eq, not_true_eq_false, not_false_eq_true, Nat.cast_add, Nat.cast_ite,
          Nat.cast_one, Nat.cast_zero, eq_self_iff_true, true_and, and_true, false_and, and_false, countP_set_cast _ _ _ _ _ hi2] at *) <;>
        (try split_ifs at *) <;> omega
      · simp only [SharedPtr.copyAssign]
        refine ⟨⟨?_, ?_, ?_⟩, ?_, ?_⟩ <;> (try intro b) <;>
        (try have h1 := hw.strong_eq b) <;> (try have h2 := hw.fresh b) <;>
        (try have h3 := hw.hook b) <;>
        (try have h5 := hw.live hk2 b) <;>
        (try simp only [World.strongRefs, World.pushShared, modify_strong_at, modify_zeroStrongCalls_at,
          Heap.modify_next, alloc_strong_at, alloc_zeroStrongCalls_at, Heap.alloc_next, Heap.alloc_addr,
          Free_strong, Free_zeroStrongCalls, Free_next, Free_handle, countP_push, sharedRefersTo_some,
          sharedRefersTo_none, ControlBlock.incStrong_strong_, ControlBlock.incStrong_zeroStrongCalls,
          Option.some.injEq, decide_eq_true_eq, ite_self, reduceCtorEq, if_true, if_false,
          Bool.false_eq_true, ne_eq, not_true_eq_false, not_false_eq_true, Nat.cast_add, Nat.cast_ite,
          Nat.cast_one, Nat.cast_zero, eq_self_iff_true, true_and, and_true, false_and, and_false, countP_set_cast _ _ _ _ _ hi2] at *) <;>
        (try split_ifs at *) <;> omega
      · by_cases hg2 : a0 = c0
        · subst hg2
          simp only [SharedPtr.copyAssign]
          refine ⟨⟨?_, ?_, ?_⟩, ?_, ?_⟩ <;> (try intro b) <;>
          (try have h1 := hw.strong_eq b) <;> (try have h2 := hw.fresh b) <;>
          (try have h3 := hw.hook b) <;>
          (try have h4 := hw.live hi2 b) <;>
          (try simp only [World.strongRefs, World.pushShared, modify_strong_at, modify_zeroStrongCalls_at,
            Heap.modify_next, alloc_strong_at, alloc_zeroStrongCalls_at, Heap.alloc_next, Heap.alloc_addr,
            Free_strong, Free_zeroStrongCalls, Free_next, Free_handle, countP_push, sharedRefersTo_some,
            sharedRefersTo_none, ControlBlock.incStrong_strong_, ControlBlock.incStrong_zeroStrongCalls,
            Option.some.injEq, decide_eq_true_eq, ite_self, reduceCtorEq, if_true, if_false,
            Bool.false_eq_true, ne_eq, not_true_eq_false, not_false_eq_true, Nat.cast_add, Nat.cast_ite,
            Nat.cast_one, Nat.cast_zero, eq_self_iff_true, true_and, and_true, false_and, and_false, countP_set_cast _ _ _ _ _ hi2] at *) <;>
          (try split_ifs at *) <;> omega
        · simp only [SharedPtr.copyAssign, ne_eq, Option.some.injEq, hg2, not_false_eq_true,
            if_true]
          refine ⟨⟨?_, ?_, ?_⟩, ?_, ?_⟩ <;> (try intro b) <;>
          (try have h1 := hw.strong_eq b) <;> (try have h2 := hw.fresh b) <;>
          (try have h3 := hw.hook b) <;>
          (try have h4 := hw.live hi2 b) <;>
          (try have h5 := hw.live hk2 b) <;>
          (try simp only [World.strongRefs, World.pushShared, modify_strong_at, modify_zeroStrongCalls_at,
            Heap.modify_next, alloc_strong_at, alloc_zeroStrongCalls_at, Heap.alloc_next, Heap.alloc_addr,
            Free_strong, Free_zeroStrongCalls, Free_next, Free_handle, countP_push, sharedRefersTo_some,
            sharedRefersTo_none, ControlBlock.incStrong_strong_, ControlBlock.incStrong_zeroStrongCalls,
            Option.some.injEq, decide_eq_true_eq, ite_self, reduceCtorEq, if_true, if_false,
            Bool.false_eq_true, ne_eq, not_true_eq_false, not_false_eq_true, Nat.cast_add, Nat.cast_ite,
            Nat.cast_one, Nat.cast_zero, eq_self_iff_true, true_and, and_true, false_and, and_false, countP_set_cast _ _ _ _ _ hi2] at *) <;>
          (try split_ifs at *) <;> omega

theorem stepSpec_sharedMoveAssign (w : World) (hw : w.WF) (i k : Nat) :
    StepSpec w (step w (Op.sharedMoveAssign i k)) := by
  simp only [step]
  cases hi : w.getShared i with
  | none => exact StepSpec.same hw
  | some a =>
    cases hk : w.getShared k with
    | none => exact StepSpec.same hw
    | some c =>
      have hi2 := getShared_eq w i a hi
      have hk2 := getShared_eq w k c hk
      by_cases hik : i = k
      · subst hik
        have hac : a = c := by rw [hi] at hk; exact Option.some.inj hk
        subst hac
        simp only [SharedPtr.moveAssign, ne_eq, not_true_eq_false, if_false,
          set_getElem_self _ _ _ hi2]
        exact StepSpec.same hw
      · rcases c with ⟨_ | c0, q⟩ <;> rcases a with ⟨_ | a0, p⟩
        · simp only [SharedPtr.moveAssign]
          refine ⟨⟨?_, ?_, ?_⟩, ?_, ?_⟩ <;> (try intro b) <;>
          (try have h1 := hw.strong_eq b) <;> (try have h2 := hw.fresh b) <;>
          (try have h3 := hw.hook b) <;>
          (try simp only [World.strongRefs, World.pushShared, modify_strong_at, modify_zeroStrongCalls_at,
            Heap.modify_next, alloc_strong_at, alloc_zeroStrongCalls_at, Heap.alloc_next, Heap.alloc_addr,
            Free_strong, Free_zeroStrongCalls, Free_next, Free_handle, countP_push, sharedRefersTo_some,
            sharedRefersTo_none, ControlBlock.incStrong_strong_, ControlBlock.incStrong_zeroStrongCalls,
            Option.some.injEq, decide_eq_true_eq, ite_self, reduceCtorEq, if_true, if_false,
            Bool.false_eq_true, ne_eq, not_true_eq_false, not_false_eq_true, Nat.cast_add, Nat.cast_ite,
            Nat.cast_one, Nat.cast_zero, eq_self_iff_true, true_and, and_true, false_and, and_false, countP_set_set_cast _ _ _ _ _ _ _ _ hik hi2 hk2] at *) <;>
          (try split_ifs at *) <;> omega
        · simp only [SharedPtr.moveAssign]
          refine ⟨⟨?_, ?_, ?_⟩, ?_, ?_⟩ <;> (try intro b) <;>
          (try have h1 := hw.strong_eq b) <;> (try have h2 := hw.fresh b) <;>
          (try have h3 := hw.hook b) <;>
          (try have h4 := hw.live hi2 b) <;>
          (try simp only [World.strongRefs, World.pushShared, modify_strong_at, modify_zeroStrongCalls_at,
            Heap.modify_next, alloc_strong_at, alloc_zeroStrongCalls_at, Heap.alloc_next, Heap.alloc_addr,
            Free_strong, Free_zeroStrongCalls, Free_next, Free_handle, countP_push, sharedRefersTo_some,
            sharedRefersTo_none, ControlBlock.incStrong_strong_, ControlBlock.incStrong_zeroStrongCalls,
            Option.some.injEq, decide_eq_true_eq, ite_self, reduceCtorEq, if_true, if_false,
            Bool.false_eq_true, ne_eq, not_true_eq_false, not_false_eq_true, Nat.cast_add, Nat.cast_ite,
            Nat.cast_one, Nat.cast_zero, eq_self_iff_true, true_and, and_true, false_and, and_false, countP_set_set_cast _ _ _ _ _ _ _ _ hik hi2 hk2] at *) <;>
          (try split_ifs at *) <;> omega
        · simp only [SharedPtr.moveAssign]
          refine ⟨⟨?_, ?_, ?_⟩, ?_, ?_⟩ <;> (try intro b) <;>
          (try have h1 := hw.strong_eq b) <;> (try have h2 := hw.fresh b) <;>
          (try have h3 := hw.hook b) <;>
          (try have h5 := hw.live hk2 b) <;>
          (try simp only [World.strongRefs, World.pushShared, modify_strong_at, modify_zeroStrongCalls_at,
            Heap.modify_next, alloc_strong_at, alloc_zeroStrongCalls_at, Heap.alloc_next, Heap.alloc_addr,
            Free_strong, Free_zeroStrongCalls, Free_next, Free_handle, countP_push, sharedRefersTo_some,
            sharedRefersTo_none, ControlBlock.incStrong_strong_, ControlBlock.incStrong_zeroStrongCalls,
            Option.some.injEq, decide_eq_true_eq, ite_self, reduceCtorEq, if_true, if_false,
            Bool.false_eq_true, ne_eq, not_true_eq_false, not_false_eq_true, Nat.cast_add, Nat.cast_ite,
            Nat.cast_one, Nat.cast_zero, eq_self_iff_true, true_and, and_true, false_and, and_false, countP_set_set_cast _ _ _ _ _ _ _ _ hik hi2 hk2] at *) <;>
          (try split_ifs at *) <;> omega
        · by_cases hg : c0 = a0
          · subst hg
            simp only [SharedPtr.moveAssign]
            refine ⟨⟨?_, ?_, ?_⟩, ?_, ?_⟩ <;> (try intro b) <;>
            (try have h1 := hw.strong_eq b) <;> (try have h2 := hw.fresh b) <;>
            (try have h3 := hw.hook b) <;>
            (try have h4 := hw.live hi2 b) <;>
            (try simp only [World.strongRefs, World.pushShared, modify_strong_at, modify_zeroStrongCalls_at,
              Heap.modify_next, alloc_strong_at, alloc_zeroStrongCalls_at, Heap.alloc_next, Heap.alloc_addr,
              Free_strong, Free_zeroStrongCalls, Free_next, Free_handle, countP_push, sharedRefersTo_some,
              sharedRefersTo_none, ControlBlock.incStrong_strong_, ControlBlock.incStrong_zeroStrongCalls,
              Option.some.injEq, decide_eq_true_eq, ite_self, reduceCtorEq, if_true, if_false,
              Bool.false_eq_true, ne_eq, not_true_eq_false, not_false_eq_true, Nat.cast_add, Nat.cast_ite,
              Nat.cast_one, Nat.cast_zero, eq_self_iff_true, true_and, and_true, false_and, and_false, countP_set_set_cast _ _ _ _ _ _ _ _ hik hi2 hk2] at *) <;>
            (try split_ifs at *) <;> omega
          · simp only [SharedPtr.moveAssign, ne_eq, Option.some.injEq, hg, not_false_eq_true,
              if_true]
            refine ⟨⟨?_, ?_, ?_⟩, ?_, ?_⟩ <;> (try intro b) <;>
            (try have h1 := hw.strong_eq b) <;> (try have h2 := hw.fresh b) <;>
            (try have h3 := hw.hook b) <;>
            (try have h4 := hw.live hi2 b) <;>
            (try have h5 := hw.live hk2 b) <;>
            (try simp only [World.strongRefs, World.pushShared, modify_strong_at, modify_zeroStrongCalls_at,
              Heap.modify_next, alloc_strong_at, alloc_zeroStrongCalls_at, Heap.alloc_next, Heap.alloc_addr,
              Free_strong, Free_zeroStrongCalls, Free_next, Free_handle, countP_push, sharedRefersTo_some,
              sharedRefersTo_none, ControlBlock.incStrong_strong_, ControlBlock.incStrong_zeroStrongCalls,
              Option.some.injEq, decide_eq_true_eq, ite_self, reduceCtorEq, if_true, if_false,
              Bool.false_eq_true, ne_eq, not_true_eq_false, not_false_eq_true, Nat.cast_add, Nat.cast_ite,
              Nat.cast_one, Nat.cast_zero, eq_self_iff_true, true_and, and_true, false_and, and_false, countP_set_set_cast _ _ _ _ _ _ _ _ hik hi2 hk2] at *) <;>
            (try split_ifs at *) <;> omega

theorem stepSpec_sharedSwap (w : World) (hw : w.WF) (i k : Nat) :
    StepSpec w (step w (Op.sharedSwap i k)) := by
  simp only [step]
  cases hi : w.getShared i with
  | none => exact StepSpec.same hw
  | some a =>
    cases hk : w.getShared k with
    | none => exact StepSpec.same hw
    | some c =>
      have hi2 := getShared_eq w i a hi
      have hk2 := getShared_eq w k c hk
      by_cases hik : i = k
      · subst hik
        have hac : a = c := by rw [hi] at hk; exact Option.some.inj hk
        subst hac
        simp only [SharedPtr.Swap, set_getElem_self _ _ _ hi2]
        exact StepSpec.same hw
      · rcases c with ⟨_ | c0, q⟩ <;> rcases a with ⟨_ | a0, p⟩ <;>
        simp only [SharedPtr.Swap] <;>
        refine ⟨⟨?_, ?_, ?_⟩, ?_, ?_⟩ <;> (try intro b) <;>
        (try have h1 := hw.strong_eq b) <;> (try have h2 := hw.fresh b) <;>
        (try have h3 := hw.hook b) <;>
        (try have h4 := hw.live hi2 b) <;>
        (try have h5 := hw.live hk2 b) <;>
        (try simp only [World.strongRefs, World.pushShared, modify_strong_at, modify_zeroStrongCalls_at,
          Heap.modify_next, alloc_strong_at, alloc_zeroStrongCalls_at, Heap.alloc_next, Heap.alloc_addr,
          Free_strong, Free_zeroStrongCalls, Free_next, Free_handle, countP_push, sharedRefersTo_some,
          sharedRefersTo_none, ControlBlock.incStrong_strong_, ControlBlock.incStrong_zeroStrongCalls,
          Option.some.injEq, decide_eq_true_eq, ite_self, reduceCtorEq, if_true, if_false,
          Bool.false_eq_true, ne_eq, not_true_eq_false, not_false_eq_true, Nat.cast_add, Nat.cast_ite,
          Nat.cast_one, Nat.cast_zero, eq_self_iff_true, true_and, and_true, false_and, and_false, countP_set_set_cast _ _ _ _ _ _ _ _ hik hi2 hk2] at *) <;>
        (try split_ifs at *) <;> omega

/-! ## `WeakPtr` operations leave the strong side alone -/

theorem Heap.StrongSame.rfl (h : Heap) : h.StrongSame h := ⟨Eq.refl _, fun _ => Eq.refl _, fun _ => Eq.refl _⟩

theorem Heap.StrongSame.incWeak (h : Heap) (b0 : Nat) :
    h.StrongSame (h.modify b0 ControlBlock.incWeak) := by
  refine ⟨Eq.refl _, ?_, ?_⟩ <;> intro b
  · simp only [modify_strong_at, ControlBlock.incWeak_strong_, ite_self]
  · simp only [modify_zeroStrongCalls_at, ControlBlock.incWeak_zeroStrongCalls, ite_self]

theorem WeakPtr.Reset_strongSame (h : Heap) (s : WeakPtr) :
    h.StrongSame (WeakPtr.Reset h s).1 :=
  ⟨WeakReset_next h s, WeakReset_strong h s, WeakReset_zeroStrongCalls h s⟩

theorem WeakPtr.ofShared_strongSame (h : Heap) (s : SharedPtr) :
    h.StrongSame (WeakPtr.ofShared h s).1 := by
  rcases s with ⟨_ | b0, p⟩
  · exact Heap.StrongSame.rfl h
  · exact Heap.StrongSame.incWeak h b0

theorem WeakPtr.copy_strongSame (h : Heap) (s : WeakPtr) :
    h.StrongSame (WeakPtr.copy h s).1 := by
  rcases s with ⟨_ | b0, p⟩
  · exact Heap.StrongSame.rfl h
  · exact Heap.StrongSame.incWeak h b0

theorem WeakPtr.move_strongSame (h : Heap) (s : WeakPtr) :
    h.StrongSame (WeakPtr.move h s).1 :=
  WeakPtr.Reset_strongSame h s

theorem WeakPtr.copyAssign_strongSame (h : Heap) (a s : WeakPtr) :
    h.StrongSame (WeakPtr.copyAssign h a s).1 := by
  unfold WeakPtr.copyAssign
  split_ifs
  · rcases s with ⟨_ | b0, p⟩
    · exact Heap.StrongSame.rfl h
    · exact Heap.StrongSame.incWeak h b0
  · exact Heap.StrongSame.rfl h

theorem WeakPtr.moveAssign_strongSame (h : Heap) (a s : WeakPtr) :
    h.StrongSame (WeakPtr.moveAssign h a s).1 := by
  unfold WeakPtr.moveAssign
  split_ifs
  · exact WeakPtr.Reset_strongSame h _
  · exact Heap.StrongSame.rfl h

theorem StepSpec.weakSide {w w1 : World} (hw : w.WF) (hsh : w1.shared = w.shared)
    (hh : w.heap.StrongSame w1.heap) : StepSpec w w1 :=
  StepSpec.frame hw hsh hh.1 hh.2.1 hh.2.2

/-- Every statement keeps the invariant of the strong side and runs `OnZeroStrong`
exactly on the step from `1` to `0`. -/
theorem step_spec (w : World) (hw : w.WF) (op : Op) : StepSpec w (step w op) := by
  cases op with
  | sharedEmpty => exact stepSpec_sharedEmpty w hw
  | sharedOfRaw ptr => exact stepSpec_sharedOfRaw w hw ptr
  | makeShared => exact stepSpec_makeShared w hw
  | sharedCopy i => exact stepSpec_sharedCopy w hw i
  | sharedMove i => exact stepSpec_sharedMove w hw i
  | sharedAlias i ptr => exact stepSpec_sharedAlias w hw i ptr
  | sharedOfWeak j => exact stepSpec_sharedOfWeak w hw j
  | sharedCopyAssign i k => exact stepSpec_sharedCopyAssign w hw i k
  | sharedMoveAssign i k => exact stepSpec_sharedMoveAssign w hw i k
  | sharedReset i => exact stepSpec_sharedReset w hw i
  | sharedResetPtr i ptr => exact stepSpec_sharedResetPtr w hw i ptr
  | sharedSwap i k => exact stepSpec_sharedSwap w hw i k
  | sharedDestroy i => exact stepSpec_sharedDestroy w hw i
  | weakEmpty => exact StepSpec.weakSide hw (Eq.refl _) (Heap.StrongSame.rfl _)
  | weakOfShared i =>
    simp only [step]
    cases w.getShared i with
    | none => exact StepSpec.same hw
    | some o => exact StepSpec.weakSide hw (Eq.refl _) (WeakPtr.ofShared_strongSame _ _)
  | weakCopy j =>
    simp only [step]
    cases w.getWeak j with
    | none => exact StepSpec.same hw
    | some o => exact StepSpec.weakSide hw (Eq.refl _) (WeakPtr.copy_strongSame _ _)
  | weakMove j =>
    simp only [step]
    cases w.getWeak j with
    | none => exact StepSpec.same hw
    | some o => exact StepSpec.weakSide hw (Eq.refl _) (WeakPtr.move_strongSame _ _)
  | weakCopyAssign j k =>
    simp only [step]
    cases w.getWeak j with
    | none => exact StepSpec.same hw
    | some a =>
      cases w.getWeak k with
      | none => exact StepSpec.same hw
      | some c => exact StepSpec.weakSide hw (Eq.refl _) (WeakPtr.copyAssign_strongSame _ _ _)
  | weakMoveAssign j k =>
    simp only [step]
    cases w.getWeak j with
    | none => exact StepSpec.same hw
    | some a =>
      cases w.getWeak k with
      | none => exact StepSpec.same hw
      | some c => exact StepSpec.weakSide hw (Eq.refl _) (WeakPtr.moveAssign_strongSame _ _ _)
  | weakReset j =>
    simp only [step]
    cases w.getWeak j with
    | none => exact StepSpec.same hw
    | some a => exact StepSpec.weakSide hw (Eq.refl _) (WeakPtr.Reset_strongSame _ _)
  | weakSwap j k =>
    simp only [step]
    cases w.getWeak j with
    | none => exact StepSpec.same hw
    | some a =>
      cases w.getWeak k with
      | none => exact StepSpec.same hw
      | some c => exact StepSpec.weakSide hw (Eq.refl _) (Heap.StrongSame.rfl _)
  | weakDestroy j =>
    simp only [step]
    cases w.getWeak j with
    | none => exact StepSpec.same hw
    | some a => exact StepSpec.weakSide hw (Eq.refl _) (WeakPtr.Reset_strongSame _ _)
  | weakLock j => exact stepSpec_weakLock w hw j

theorem run_nil (w : World) : run w [] = w := rfl

theorem run_cons (w : World) (op : Op) (ops : List Op) :
    run w (op :: ops) = run (step w op) ops := rfl

theorem run_append (w : World) (ops1 ops2 : List Op) :
    run w (ops1 ++ ops2) = run (run w ops1) ops2 := by
  simp [run, List.foldl_append]

theorem run_WF (w : World) (hw : w.WF) (ops : List Op) : (run w ops).WF := by
  induction ops generalizing w with
  | nil => exact hw
  | cons op ops ih => exact ih (step w op) (step_spec w hw op).1

theorem run_next_le (w : World) (hw : w.WF) (ops : List Op) :
    w.heap.next ≤ (run w ops).heap.next := by
  induction ops generalizing w with
  | nil => exact Nat.le_refl _
  | cons op ops ih =>
    exact Nat.le_trans (step_spec w hw op).2.1 (ih (step w op) (step_spec w hw op).1)

/-- Once the strong counter of an allocated block is `0`, it stays `0`. -/
theorem run_strong_zero (w : World) (hw : w.WF) (ops : List Op) (b : Nat)
    (hb : b < w.heap.next) (h0 : (w.heap.blocks b).strong_ = 0) :
    ((run w ops).heap.blocks b).strong_ = 0 := by
  induction ops generalizing w with
  | nil => exact h0
  | cons op ops ih =>
    obtain ⟨hw1, hn, hz⟩ := step_spec w hw op
    have h3 := hw.hook b
    have h4 := hw1.hook b
    have h5 := hz b
    have h6 := hw1.strong_eq b
    refine ih (step w op) hw1 (by omega) ?_
    split_ifs at h5 <;> omega

/-- C1 (evaluation at the failing program): after `s = MakeShared(..)`, `WeakPtr w0(s)`,
`WeakPtr w1(std::move(w0))` the block has one live `WeakPtr` (`w1`) but `weak_ == 0`;
destroying `w1` then leaves `weak_ == -1`.  And after `w0 = w1` between two weak handles
on different blocks, the block `w0` left still counts it: one live `WeakPtr`, `weak_ == 2`. -/
theorem C1_weak_count_diverges :
    ((run World.init [Op.makeShared, Op.weakOfShared 0, Op.weakMove 0]).heap.blocks 0).weak_ = 0 ∧
    (run World.init [Op.makeShared, Op.weakOfShared 0, Op.weakMove 0]).weakRefs 0 = 1 ∧
    ((run World.init [Op.makeShared, Op.weakOfShared 0, Op.weakMove 0,
        Op.weakDestroy 1]).heap.blocks 0).weak_ = -1 ∧
    ((run World.init [Op.makeShared, Op.makeShared, Op.weakOfShared 0, Op.weakOfShared 1,
        Op.weakCopyAssign 0 1]).heap.blocks 0).weak_ = 1 ∧
    (run World.init [Op.makeShared, Op.makeShared, Op.weakOfShared 0, Op.weakOfShared 1,
        Op.weakCopyAssign 0 1]).weakRefs 0 = 0 := by
  decide

/-- C2: after every program over `SharedPtr` and `WeakPtr` objects (so in particular after
every sequence of `SharedPtr` operations), and at every point inside it, the `strong_`
counter of every control block equals the number of live `SharedPtr` objects whose
`state_` is that block. -/
theorem C2_strong_count (ops : List Op) (n : Nat) (b : Nat) :
    ((run World.init (ops.take n)).heap.blocks b).strong_
      = ((run World.init (ops.take n)).strongRefs b : Int) :=
  (run_WF World.init World.WF.init (ops.take n)).strong_eq b

/-- C3 (evaluation at the failing program): after `s = MakeShared(..)`, `WeakPtr w0(s)`,
`WeakPtr w1(std::move(w0))`, `~w1` the hook `OnZeroWeak` has run on the block although
`OnZeroStrong` has not, `strong_ == 1`, `weak_ == -1` and the live `SharedPtr` `s` still
references the block.  With `~s` in place of `~w1` the hook runs while the live `WeakPtr`
`w1` still references the block. -/
theorem C3_zeroWeak_diverges :
    ((run World.init [Op.makeShared, Op.weakOfShared 0, Op.weakMove 0,
        Op.weakDestroy 1]).heap.blocks 0).zeroWeakCalls = 1 ∧
    ((run World.init [Op.makeShared, Op.weakOfShared 0, Op.weakMove 0,
        Op.weakDestroy 1]).heap.blocks 0).zeroStrongCalls = 0 ∧
    ((run World.init [Op.makeShared, Op.weakOfShared 0, Op.weakMove 0,
        Op.weakDestroy 1]).heap.blocks 0).strong_ = 1 ∧
    ((run World.init [Op.makeShared, Op.weakOfShared 0, Op.weakMove 0,
        Op.weakDestroy 1]).heap.blocks 0).weak_ = -1 ∧
    (run World.init [Op.makeShared, Op.weakOfShared 0, Op.weakMove 0,
        Op.weakDestroy 1]).strongRefs 0 = 1 ∧
    ((run World.init [Op.makeShared, Op.weakOfShared 0, Op.weakMove 0,
        Op.sharedDestroy 0]).heap.blocks 0).zeroWeakCalls = 1 ∧
    (run World.init [Op.makeShared, Op.weakOfShared 0, Op.weakMove 0,
        Op.sharedDestroy 0]).weakRefs 0 = 1 := by
  decide

/-- C4 (evaluation at the failing program): after `s = MakeShared(..)`, `WeakPtr w0(s)`,
`WeakPtr w1(std::move(w0))`, `~w1` the block is deleted (`OnZeroWeak` has run) while the
live `SharedPtr` `s` still points to it with `strong_ == 1` and `OnZeroStrong` not yet run.
The statement `~s`, which takes `strong_` from `1` to `0` and calls `OnZeroStrong`, then
dereferences the deleted block: the decrement and the hook call are a use-after-free.
None of the four statements before it dereferences a deleted block. -/
theorem C4_hook_on_deleted_block :
    World.init.usesDeleted Op.makeShared = false ∧
    (run World.init [Op.makeShared]).usesDeleted (Op.weakOfShared 0) = false ∧
    (run World.init [Op.makeShared, Op.weakOfShared 0]).usesDeleted (Op.weakMove 0) = false ∧
    (run World.init [Op.makeShared, Op.weakOfShared 0, Op.weakMove 0]).usesDeleted
      (Op.weakDestroy 1) = false ∧
    ((run World.init [Op.makeShared, Op.weakOfShared 0, Op.weakMove 0,
        Op.weakDestroy 1]).heap.blocks 0).deleted = true ∧
    (run World.init [Op.makeShared, Op.weakOfShared 0, Op.weakMove 0,
        Op.weakDestroy 1]).getShared 0
      = some { state_ := some 0, ptr_ := some (Addr.storage 0) } ∧
    ((run World.init [Op.makeShared, Op.weakOfShared 0, Op.weakMove 0,
        Op.weakDestroy 1]).heap.blocks 0).strong_ = 1 ∧
    ((run World.init [Op.makeShared, Op.weakOfShared 0, Op.weakMove 0,
        Op.weakDestroy 1]).heap.blocks 0).zeroStrongCalls = 0 ∧
    (run World.init [Op.makeShared, Op.weakOfShared 0, Op.weakMove 0,
        Op.weakDestroy 1]).derefs (Op.sharedDestroy 0) = [0] ∧
    (run World.init [Op.makeShared, Op.weakOfShared 0, Op.weakMove 0,
        Op.weakDestroy 1]).usesDeleted (Op.sharedDestroy 0) = true := by
  decide

/-- C5: `SharedPtr(const WeakPtr&)` throws `BadWeakPtr` exactly when the `WeakPtr` is
expired (null `state_`, or `strong_ == 0` on its block); then the free store is the one
before the call and, as a statement of a program, the construction leaves every object
and block as it was.  Otherwise it does not throw, the new handle has the `WeakPtr`'s
`state_` and `ptr_`, `strong_` of that block is one more than before, its `weak_` and hook
counters are as before and every other block is untouched. -/
theorem C5_promote (h : Heap) (w : WeakPtr) :
    (w.Expired h = true ↔
      (w.state_ = none ∨ ∃ b, w.state_ = some b ∧ (h.blocks b).strong_ = 0)) ∧
    (w.Expired h = true → SharedPtr.ofWeak h w = (h, Except.error BadWeakPtr.mk)) ∧
    (w.Expired h = true → ∀ (wd : World) (j : Nat), wd.heap = h → wd.getWeak j = some w →
      step wd (Op.sharedOfWeak j) = wd) ∧
    (w.Expired h = false → ∃ b, w.state_ = some b ∧
      (SharedPtr.ofWeak h w).2 = Except.ok { state_ := w.state_, ptr_ := w.ptr_ } ∧
      ((SharedPtr.ofWeak h w).1.blocks b).strong_ = (h.blocks b).strong_ + 1 ∧
      ((SharedPtr.ofWeak h w).1.blocks b).weak_ = (h.blocks b).weak_ ∧
      ((SharedPtr.ofWeak h w).1.blocks b).zeroStrongCalls = (h.blocks b).zeroStrongCalls ∧
      ((SharedPtr.ofWeak h w).1.blocks b).zeroWeakCalls = (h.blocks b).zeroWeakCalls ∧
      (∀ c, c ≠ b → (SharedPtr.ofWeak h w).1.blocks c = h.blocks c) ∧
      (SharedPtr.ofWeak h w).1.next = h.next) := by
  rcases w with ⟨_ | b0, p⟩
  · refine ⟨?_, ?_, ?_, ?_⟩
    · simp [WeakPtr.Expired]
    · intro _; simp [SharedPtr.ofWeak, WeakPtr.Expired]
    · intro _ wd j hh hj
      simp [step, hj, SharedPtr.ofWeak, WeakPtr.Expired]
    · intro hx; simp [WeakPtr.Expired] at hx
  · refine ⟨?_, ?_, ?_, ?_⟩
    · simp [WeakPtr.Expired]
    · intro hx; simp [SharedPtr.ofWeak, hx]
    · intro hx wd j hh hj
      subst hh
      simp [step, hj, SharedPtr.ofWeak, hx]
    · intro hx
      refine ⟨b0, Eq.refl _, ?_⟩
      simp only [SharedPtr.ofWeak, hx, Bool.false_eq_true, if_false, modify_strong_at,
        modify_weak_at, modify_zeroStrongCalls_at, modify_zeroWeakCalls_at, if_true,
        ControlBlock.incStrong_strong_, ControlBlock.incStrong_weak_,
        ControlBlock.incStrong_zeroStrongCalls, ControlBlock.incStrong_zeroWeakCalls,
        Heap.modify_next, true_and, and_true]
      intro c hc
      rw [Heap.modify_at, if_neg (fun e => hc e.symm)]

/-- C5, at an expired handle (its block has `strong_ == 0` after the only owner was
destroyed) and at a live one (the block of a fresh `MakeShared`). -/
theorem C5_promote_witness :
    (WeakPtr.Expired (run World.init [Op.makeShared, Op.weakOfShared 0, Op.sharedDestroy 0]).heap
        { state_ := some 0, ptr_ := some (Addr.storage 0) } = true ∧
      SharedPtr.ofWeak (run World.init [Op.makeShared, Op.weakOfShared 0, Op.sharedDestroy 0]).heap
        { state_ := some 0, ptr_ := some (Addr.storage 0) }
        = ((run World.init [Op.makeShared, Op.weakOfShared 0, Op.sharedDestroy 0]).heap,
            Except.error BadWeakPtr.mk)) ∧
    (WeakPtr.Expired (MakeShared Heap.init).1
        { state_ := some 0, ptr_ := some (Addr.storage 0) } = false ∧
      ∃ b, (some 0 : Option Nat) = some b ∧
        (SharedPtr.ofWeak (MakeShared Heap.init).1
          { state_ := some 0, ptr_ := some (Addr.storage 0) }).2
          = Except.ok { state_ := some 0, ptr_ := some (Addr.storage 0) } ∧
        ((SharedPtr.ofWeak (MakeShared Heap.init).1
          { state_ := some 0, ptr_ := some (Addr.storage 0) }).1.blocks b).strong_
          = (((MakeShared Heap.init).1).blocks b).strong_ + 1) :=
  ⟨⟨by decide,
      (C5_promote (run World.init [Op.makeShared, Op.weakOfShared 0, Op.sharedDestroy 0]).heap
        { state_ := some 0, ptr_ := some (Addr.storage 0) }).2.1 (by decide)⟩,
    ⟨by decide,
      match (C5_promote (MakeShared Heap.init).1
        { state_ := some 0, ptr_ := some (Addr.storage 0) }).2.2.2 (by decide) with
      | ⟨b, hb, hr, hs, _⟩ => ⟨b, hb, hr, hs⟩⟩⟩

/-- C6: `WeakPtr::Lock` never throws.  On an expired handle it returns the empty
`SharedPtr` (null `state_` and `ptr_`, `UseCount() == 0`) and leaves the free store as it
was.  Otherwise the result has the handle's `state_` and `ptr_`, `strong_` of that block is
one more than before, its `weak_` and hook counters are as before and every other block is
untouched; and when the `WeakPtr` was made from a `SharedPtr` owner, the result has the
owner's `state_` and compares equal to the owner. -/
theorem C6_lock (h : Heap) (w : WeakPtr) :
    (∀ e, (w.Lock h).2 ≠ Except.error e) ∧
    (w.Expired h = true →
      w.Lock h = (h, Except.ok SharedPtr.empty) ∧ SharedPtr.empty.state_ = none ∧
      SharedPtr.empty.ptr_ = none ∧ SharedPtr.empty.UseCount h = 0) ∧
    (w.Expired h = false → ∃ b, w.state_ = some b ∧
      (w.Lock h).2 = Except.ok { state_ := w.state_, ptr_ := w.ptr_ } ∧
      ((w.Lock h).1.blocks b).strong_ = (h.blocks b).strong_ + 1 ∧
      ((w.Lock h).1.blocks b).weak_ = (h.blocks b).weak_ ∧
      ((w.Lock h).1.blocks b).zeroStrongCalls = (h.blocks b).zeroStrongCalls ∧
      ((w.Lock h).1.blocks b).zeroWeakCalls = (h.blocks b).zeroWeakCalls ∧
      (∀ c, c ≠ b → (w.Lock h).1.blocks c = h.blocks c) ∧
      (∀ (h0 : Heap) (owner r : SharedPtr), w = (WeakPtr.ofShared h0 owner).2 →
        (w.Lock h).2 = Except.ok r → r.state_ = owner.state_ ∧ SharedPtr.eq r owner = true)) := by
  rcases w with ⟨_ | b0, p⟩
  · refine ⟨?_, ?_, ?_⟩
    · intro e; simp [WeakPtr.Lock, WeakPtr.Expired]
    · intro _; simp [WeakPtr.Lock, WeakPtr.Expired, SharedPtr.empty, SharedPtr.UseCount]
    · intro hx; simp [WeakPtr.Expired] at hx
  · refine ⟨?_, ?_, ?_⟩
    · intro e
      by_cases hx : WeakPtr.Expired h { state_ := some b0, ptr_ := p } = true
      · simp [WeakPtr.Lock, hx]
      · simp [WeakPtr.Lock, SharedPtr.ofWeak, hx]
    · intro hx; simp [WeakPtr.Lock, hx, SharedPtr.empty, SharedPtr.UseCount]
    · intro hx
      refine ⟨b0, Eq.refl _, ?_⟩
      simp only [WeakPtr.Lock, SharedPtr.ofWeak, hx, Bool.false_eq_true, if_false,
        modify_strong_at, modify_weak_at, modify_zeroStrongCalls_at, modify_zeroWeakCalls_at,
        if_true, ControlBlock.incStrong_strong_, ControlBlock.incStrong_weak_,
        ControlBlock.incStrong_zeroStrongCalls, ControlBlock.incStrong_zeroWeakCalls, true_and]
      refine ⟨?_, ?_⟩
      · intro c hc
        rw [Heap.modify_at, if_neg (fun e => hc e.symm)]
      · intro h0 owner r hw hr
        rcases owner with ⟨_ | o0, q⟩
        · simp [WeakPtr.ofShared] at hw
        · simp only [WeakPtr.ofShared, WeakPtr.mk.injEq, Option.some.injEq] at hw
          obtain ⟨hb, hp⟩ := hw
          have hr2 : r = { state_ := some b0, ptr_ := p } := by
            injection hr with hr; exact hr.symm
          subst hr2 hb hp
          simp [SharedPtr.eq, SharedPtr.Get]

/-- C6, at an expired handle and at a live one made from its owner. -/
theorem C6_lock_witness :
    (WeakPtr.Expired (run World.init [Op.makeShared, Op.weakOfShared 0, Op.sharedDestroy 0]).heap
        { state_ := some 0, ptr_ := some (Addr.storage 0) } = true ∧
      WeakPtr.Lock (run World.init [Op.makeShared, Op.weakOfShared 0, Op.sharedDestroy 0]).heap
        { state_ := some 0, ptr_ := some (Addr.storage 0) }
        = ((run World.init [Op.makeShared, Op.weakOfShared 0, Op.sharedDestroy 0]).heap,
            Except.ok SharedPtr.empty)) ∧
    (WeakPtr.Expired (MakeShared Heap.init).1
        { state_ := some 0, ptr_ := some (Addr.storage 0) } = false ∧
      ∃ b, (some 0 : Option Nat) = some b ∧
        (WeakPtr.Lock (MakeShared Heap.init).1
          { state_ := some 0, ptr_ := some (Addr.storage 0) }).2
          = Except.ok { state_ := some 0, ptr_ := some (Addr.storage 0) } ∧
        ((WeakPtr.Lock (MakeShared Heap.init).1
          { state_ := some 0, ptr_ := some (Addr.storage 0) }).1.blocks b).strong_
          = (((MakeShared Heap.init).1).blocks b).strong_ + 1) :=
  ⟨⟨by decide,
      ((C6_lock (run World.init [Op.makeShared, Op.weakOfShared 0, Op.sharedDestroy 0]).heap
        { state_ := some 0, ptr_ := some (Addr.storage 0) }).2.1 (by decide)).1⟩,
    ⟨by decide,
      match (C6_lock (MakeShared Heap.init).1
        { state_ := some 0, ptr_ := some (Addr.storage 0) }).2.2 (by decide) with
      | ⟨b, hb, hr, hs, _⟩ => ⟨b, hb, hr, hs⟩⟩⟩

/-- C7 (evaluation at the failing input): move-constructing a `WeakPtr` from the only
`WeakPtr` of a block with `strong_ == 1`, `weak_ == 1` hands the block and pointer over and
empties the source, but leaves `weak_ == 0`; and when the block has `strong_ == 0`,
`weak_ == 1` the constructor runs `OnZeroWeak` on the block the new handle references. -/
theorem C7_weak_move_diverges :
    (((run World.init [Op.makeShared, Op.weakOfShared 0]).heap.blocks 0).strong_ = 1 ∧
      ((run World.init [Op.makeShared, Op.weakOfShared 0]).heap.blocks 0).weak_ = 1 ∧
      (WeakPtr.move (run World.init [Op.makeShared, Op.weakOfShared 0]).heap
        { state_ := some 0, ptr_ := some (Addr.storage 0) }).2
        = ({ state_ := some 0, ptr_ := some (Addr.storage 0) }, { state_ := none, ptr_ := none }) ∧
      ((WeakPtr.move (run World.init [Op.makeShared, Op.weakOfShared 0]).heap
        { state_ := some 0, ptr_ := some (Addr.storage 0) }).1.blocks 0).weak_ = 0) ∧
    (((run World.init [Op.makeShared, Op.weakOfShared 0, Op.sharedDestroy 0]).heap.blocks 0).strong_
        = 0 ∧
      ((run World.init [Op.makeShared, Op.weakOfShared 0, Op.sharedDestroy 0]).heap.blocks 0).weak_
        = 1 ∧
      ((run World.init [Op.makeShared, Op.weakOfShared 0,
        Op.sharedDestroy 0]).heap.blocks 0).zeroWeakCalls = 0 ∧
      (WeakPtr.move (run World.init [Op.makeShared, Op.weakOfShared 0, Op.sharedDestroy 0]).heap
        { state_ := some 0, ptr_ := some (Addr.storage 0) }).2.1.state_ = some 0 ∧
      ((WeakPtr.move (run World.init [Op.makeShared, Op.weakOfShared 0, Op.sharedDestroy 0]).heap
        { state_ := some 0, ptr_ := some (Addr.storage 0) }).1.blocks 0).zeroWeakCalls = 1) := by
  decide

/-- C8 (evaluation at the failing input): with `w` the only `WeakPtr` of block `0` and `o`
the only `WeakPtr` of block `1`, the assignment `w = o` makes `w` share `o`'s block and
pointer and takes `weak_` of block `1` from `1` to `2`, but leaves `weak_ == 1` on block
`0`; when block `0` has `strong_ == 0` as well, `OnZeroWeak` is not run on it. -/
theorem C8_weak_copyAssign_diverges :
    (((run World.init [Op.makeShared, Op.makeShared, Op.weakOfShared 0,
        Op.weakOfShared 1]).heap.blocks 0).weak_ = 1 ∧
      (WeakPtr.copyAssign (run World.init [Op.makeShared, Op.makeShared, Op.weakOfShared 0,
        Op.weakOfShared 1]).heap { state_ := some 0, ptr_ := some (Addr.storage 0) }
        { state_ := some 1, ptr_ := some (Addr.storage 1) }).2
        = { state_ := some 1, ptr_ := some (Addr.storage 1) } ∧
      ((WeakPtr.copyAssign (run World.init [Op.makeShared, Op.makeShared, Op.weakOfShared 0,
        Op.weakOfShared 1]).heap { state_ := some 0, ptr_ := some (Addr.storage 0) }
        { state_ := some 1, ptr_ := some (Addr.storage 1) }).1.blocks 1).weak_ = 2 ∧
      ((WeakPtr.copyAssign (run World.init [Op.makeShared, Op.makeShared, Op.weakOfShared 0,
        Op.weakOfShared 1]).heap { state_ := some 0, ptr_ := some (Addr.storage 0) }
        { state_ := some 1, ptr_ := some (Addr.storage 1) }).1.blocks 0).weak_ = 1) ∧
    (((run World.init [Op.makeShared, Op.makeShared, Op.weakOfShared 0, Op.weakOfShared 1,
        Op.sharedDestroy 0]).heap.blocks 0).strong_ = 0 ∧
      ((WeakPtr.copyAssign (run World.init [Op.makeShared, Op.makeShared, Op.weakOfShared 0,
        Op.weakOfShared 1, Op.sharedDestroy 0]).heap
        { state_ := some 0, ptr_ := some (Addr.storage 0) }
        { state_ := some 1, ptr_ := some (Addr.storage 1) }).1.blocks 0).weak_ = 1 ∧
      ((WeakPtr.copyAssign (run World.init [Op.makeShared, Op.makeShared, Op.weakOfShared 0,
        Op.weakOfShared 1, Op.sharedDestroy 0]).heap
        { state_ := some 0, ptr_ := some (Addr.storage 0) }
        { state_ := some 1, ptr_ := some (Addr.storage 1) }).1.blocks 0).zeroWeakCalls = 0) := by
  decide

/-- C9 as stated fails: with `a` made by `MakeShared` and `b` an alias of `a` (same block,
`strong_ == 2`, another pointer), after `a = std::move(b)` the handle `b` is not empty and
`a` does not observe the pointer `b` held. -/
theorem C9_counterexample :
    (SharedPtr.moveAssign
      (run World.init [Op.makeShared, Op.sharedAlias 0 (some (Addr.raw 7))]).heap
      { state_ := some 0, ptr_ := some (Addr.storage 0) }
      { state_ := some 0, ptr_ := some (Addr.raw 7) }).2.2 ≠ SharedPtr.empty ∧
    (SharedPtr.moveAssign
      (run World.init [Op.makeShared, Op.sharedAlias 0 (some (Addr.raw 7))]).heap
      { state_ := some 0, ptr_ := some (Addr.storage 0) }
      { state_ := some 0, ptr_ := some (Addr.raw 7) }).2.1.ptr_ ≠ some (Addr.raw 7) ∧
    (run World.init [Op.makeShared, Op.sharedAlias 0 (some (Addr.raw 7))]).getShared 0
      = some { state_ := some 0, ptr_ := some (Addr.storage 0) } ∧
    (run World.init [Op.makeShared, Op.sharedAlias 0 (some (Addr.raw 7))]).getShared 1
      = some { state_ := some 0, ptr_ := some (Addr.raw 7) } := by
  decide

/-- C9, amended: when the control blocks of `a` and `b` differ, after `a = std::move(b)`
the handle `a` has the block and pointer `b` had, `b` is empty, the free store is the one
`Free` leaves when releasing `a`'s former ownership (as in copy assignment): the
transferred block is untouched, the block `a` held has `strong_` one less, `OnZeroStrong`
run iff that is `0` and then `OnZeroWeak` iff `weak_ == 0`.  When the control blocks are the
same, the assignment changes nothing: no handle, no count, no hook. -/
theorem C9_moveAssign (h : Heap) (a b : SharedPtr) :
    (b.state_ ≠ a.state_ →
      (SharedPtr.moveAssign h a b).2.1 = b ∧
      (SharedPtr.moveAssign h a b).2.2 = SharedPtr.empty ∧
      (SharedPtr.moveAssign h a b).1 = (SharedPtr.Free h a).1 ∧
      (∀ c, b.state_ = some c → (SharedPtr.moveAssign h a b).1.blocks c = h.blocks c) ∧
      (∀ c, a.state_ = some c →
        ((SharedPtr.moveAssign h a b).1.blocks c).strong_ = (h.blocks c).strong_ - 1 ∧
        ((SharedPtr.moveAssign h a b).1.blocks c).weak_ = (h.blocks c).weak_ ∧
        ((SharedPtr.moveAssign h a b).1.blocks c).zeroStrongCalls
          = (h.blocks c).zeroStrongCalls + (if (h.blocks c).strong_ - 1 = 0 then 1 else 0) ∧
        ((SharedPtr.moveAssign h a b).1.blocks c).zeroWeakCalls
          = (h.blocks c).zeroWeakCalls
            + (if (h.blocks c).strong_ - 1 = 0 ∧ (h.blocks c).weak_ = 0 then 1 else 0)) ∧
      (∀ c, a.state_ ≠ some c → (SharedPtr.moveAssign h a b).1.blocks c = h.blocks c)) ∧
    (b.state_ = a.state_ → SharedPtr.moveAssign h a b = (h, a, b)) := by
  rcases a with ⟨sa, pa⟩
  rcases b with ⟨sb, pb⟩
  refine ⟨?_, ?_⟩
  · intro hne
    have hne2 : sb ≠ sa := hne
    have e1 : ∀ c : Nat, (h.blocks c).strong_ - 1 = 0 ↔ (h.blocks c).strong_ = 1 := by
      intro c; omega
    simp only [SharedPtr.moveAssign, ne_eq, hne2, not_false_eq_true, if_true, Free_handle,
      SharedPtr.empty, true_and]
    refine ⟨?_, ?_, ?_⟩
    · intro c hc
      rw [Free_at, if_neg]
      intro hs
      exact hne2 (hc.trans hs.symm)
    · intro c hc
      simp only [Free_strong, Free_weak, Free_zeroStrongCalls, Free_zeroWeakCalls, hc, if_true,
        true_and, e1]
    · intro c hc
      rw [Free_at, if_neg hc]
  · intro he
    have he2 : sb = sa := he
    simp [SharedPtr.moveAssign, he2]

/-- C9 amended, at two handles on different blocks and at two handles on one block. -/
theorem C9_moveAssign_witness :
    ((some 1 : Option Nat) ≠ some 0 ∧
      (SharedPtr.moveAssign (run World.init [Op.makeShared, Op.makeShared]).heap
        { state_ := some 0, ptr_ := some (Addr.storage 0) }
        { state_ := some 1, ptr_ := some (Addr.storage 1) }).2.1
        = { state_ := some 1, ptr_ := some (Addr.storage 1) } ∧
      (SharedPtr.moveAssign (run World.init [Op.makeShared, Op.makeShared]).heap
        { state_ := some 0, ptr_ := some (Addr.storage 0) }
        { state_ := some 1, ptr_ := some (Addr.storage 1) }).2.2 = SharedPtr.empty) ∧
    ((some 0 : Option Nat) = some 0 ∧
      SharedPtr.moveAssign
        (run World.init [Op.makeShared, Op.sharedAlias 0 (some (Addr.raw 7))]).heap
        { state_ := some 0, ptr_ := some (Addr.storage 0) }
        { state_ := some 0, ptr_ := some (Addr.raw 7) }
        = ((run World.init [Op.makeShared, Op.sharedAlias 0 (some (Addr.raw 7))]).heap,
            { state_ := some 0, ptr_ := some (Addr.storage 0) },
            { state_ := some 0, ptr_ := some (Addr.raw 7) })) :=
  ⟨⟨by decide,
      ((C9_moveAssign (run World.init [Op.makeShared, Op.makeShared]).heap
        { state_ := some 0, ptr_ := some (Addr.storage 0) }
        { state_ := some 1, ptr_ := some (Addr.storage 1) }).1 (by decide)).1,
      ((C9_moveAssign (run World.init [Op.makeShared, Op.makeShared]).heap
        { state_ := some 0, ptr_ := some (Addr.storage 0) }
        { state_ := some 1, ptr_ := some (Addr.storage 1) }).1 (by decide)).2.1⟩,
    ⟨Eq.refl _,
      (C9_moveAssign (run World.init [Op.makeShared, Op.sharedAlias 0 (some (Addr.raw 7))]).heap
        { state_ := some 0, ptr_ := some (Addr.storage 0) }
        { state_ := some 0, ptr_ := some (Addr.raw 7) }).2 (Eq.refl _)⟩⟩

/-- C10: for the copy assignment `a = b`: when the control blocks differ, `a` ends with
`b`'s block and pointer; the block `a` held has `strong_` one less, `OnZeroStrong` run iff
that is `0` and then `OnZeroWeak` iff `weak_ == 0`, its `weak_` as before; `b`'s block (when
non-null) has `strong_` one more and nothing else changed; every other block is untouched.
When the control blocks are the same (self-assignment included) no field, no count and
no hook counter changes. -/
theorem C10_copyAssign (h : Heap) (a b : SharedPtr) :
    (a.state_ ≠ b.state_ →
      (SharedPtr.copyAssign h a b).2 = { state_ := b.state_, ptr_ := b.ptr_ } ∧
      (∀ c, a.state_ = some c →
        ((SharedPtr.copyAssign h a b).1.blocks c).strong_ = (h.blocks c).strong_ - 1 ∧
        ((SharedPtr.copyAssign h a b).1.blocks c).weak_ = (h.blocks c).weak_ ∧
        ((SharedPtr.copyAssign h a b).1.blocks c).zeroStrongCalls
          = (h.blocks c).zeroStrongCalls + (if (h.blocks c).strong_ - 1 = 0 then 1 else 0) ∧
        ((SharedPtr.copyAssign h a b).1.blocks c).zeroWeakCalls
          = (h.blocks c).zeroWeakCalls
            + (if (h.blocks c).strong_ - 1 = 0 ∧ (h.blocks c).weak_ = 0 then 1 else 0)) ∧
      (∀ c, b.state_ = some c →
        ((SharedPtr.copyAssign h a b).1.blocks c).strong_ = (h.blocks c).strong_ + 1 ∧
        ((SharedPtr.copyAssign h a b).1.blocks c).weak_ = (h.blocks c).weak_ ∧
        ((SharedPtr.copyAssign h a b).1.blocks c).zeroStrongCalls = (h.blocks c).zeroStrongCalls ∧
        ((SharedPtr.copyAssign h a b).1.blocks c).zeroWeakCalls = (h.blocks c).zeroWeakCalls) ∧
      (∀ c, a.state_ ≠ some c → b.state_ ≠ some c →
        (SharedPtr.copyAssign h a b).1.blocks c = h.blocks c)) ∧
    (a.state_ = b.state_ → SharedPtr.copyAssign h a b = (h, a)) := by
  rcases a with ⟨sa, pa⟩
  rcases b with ⟨sb, pb⟩
  refine ⟨?_, ?_⟩
  · intro hne
    have hne2 : sa ≠ sb := hne
    have e1 : ∀ c : Nat, (h.blocks c).strong_ - 1 = 0 ↔ (h.blocks c).strong_ = 1 := by
      intro c; omega
    rcases sb with _ | b0
    · simp only [SharedPtr.copyAssign, ne_eq, hne2, not_false_eq_true, if_true, true_and]
      refine ⟨?_, ?_, ?_⟩
      · intro c hc
        simp only [Free_strong, Free_weak, Free_zeroStrongCalls, Free_zeroWeakCalls, hc,
          if_true, true_and, e1]
      · intro c hc; simp at hc
      · intro c hc _
        rw [Free_at, if_neg hc]
    · simp only [SharedPtr.copyAssign, ne_eq, hne2, not_false_eq_true, if_true, true_and]
      refine ⟨?_, ?_, ?_⟩
      · intro c hc
        have hcb : b0 ≠ c := by
          intro e; subst e; exact hne2 hc
        simp only [modify_strong_at, modify_weak_at, modify_zeroStrongCalls_at,
          modify_zeroWeakCalls_at, if_neg hcb, Free_strong, Free_weak, Free_zeroStrongCalls,
          Free_zeroWeakCalls, hc, if_true, true_and, e1]
      · intro c hc
        have hcb : b0 = c := Option.some.inj hc
        subst hcb
        have hsa : ¬ sa = some b0 := hne2
        simp only [modify_strong_at, modify_weak_at, modify_zeroStrongCalls_at,
          modify_zeroWeakCalls_at, if_true, Free_strong, Free_weak, Free_zeroStrongCalls,
          Free_zeroWeakCalls, hsa, if_false, false_and, ControlBlock.incStrong_strong_,
          ControlBlock.incStrong_weak_, ControlBlock.incStrong_zeroStrongCalls,
          ControlBlock.incStrong_zeroWeakCalls, sub_zero, add_zero, and_self]
      · intro c hc hcb
        have hcb2 : b0 ≠ c := fun e => hcb (congrArg some e)
        rw [Heap.modify_at, if_neg hcb2, Free_at, if_neg hc]
  · intro he
    have he2 : sa = sb := he
    simp [SharedPtr.copyAssign, he2]

/-- C10, at two handles on different blocks and at two handles on one block. -/
theorem C10_copyAssign_witness :
    ((some 0 : Option Nat) ≠ some 1 ∧
      (SharedPtr.copyAssign (run World.init [Op.makeShared, Op.makeShared]).heap
        { state_ := some 0, ptr_ := some (Addr.storage 0) }
        { state_ := some 1, ptr_ := some (Addr.storage 1) }).2
        = { state_ := some 1, ptr_ := some (Addr.storage 1) }) ∧
    ((some 0 : Option Nat) = some 0 ∧
      SharedPtr.copyAssign
        (run World.init [Op.makeShared, Op.sharedAlias 0 (some (Addr.raw 7))]).heap
        { state_ := some 0, ptr_ := some (Addr.storage 0) }
        { state_ := some 0, ptr_ := some (Addr.raw 7) }
        = ((run World.init [Op.makeShared, Op.sharedAlias 0 (some (Addr.raw 7))]).heap,
            { state_ := some 0, ptr_ := some (Addr.storage 0) })) :=
  ⟨⟨by decide,
      ((C10_copyAssign (run World.init [Op.makeShared, Op.makeShared]).heap
        { state_ := some 0, ptr_ := some (Addr.storage 0) }
        { state_ := some 1, ptr_ := some (Addr.storage 1) }).1 (by decide)).1⟩,
    ⟨Eq.refl _,
      (C10_copyAssign (run World.init [Op.makeShared, Op.sharedAlias 0 (some (Addr.raw 7))]).heap
        { state_ := some 0, ptr_ := some (Addr.storage 0) }
        { state_ := some 0, ptr_ := some (Addr.raw 7) }).2 (Eq.refl _)⟩⟩

/-! ## The ownership invariant of `UniquePtr` programs -/

@[simp]
theorem holdsPtr_some (p : Nat) (u : UniquePtr) :
    holdsPtr p (some u) = decide (u.pair_.first = some p) := rfl

@[simp]
theorem holdsPtr_none (p : Nat) : holdsPtr p none = false := rfl

theorem getHandle_eq (w : UWorld) (i : Nat) (a : UniquePtr) (h : w.getHandle i = some a) :
    w.handles[i]? = some (some a) := by
  unfold UWorld.getHandle at h
  cases hx : w.handles[i]? with
  | none => simp [hx] at h
  | some x => simp [hx] at h; simp [h]

theorem uinv_init : UWorld.init.Inv := by
  intro p
  simp [UWorld.init, UWorld.holders, UWorld.releases, UWorld.handovers, deletions]

theorem held_pos (w : UWorld) (i : Nat) (u : UniquePtr) (hi : w.handles[i]? = some (some u))
    (p : Nat) (hp : u.pair_.first = some p) : 1 ≤ w.holders p :=
  countP_pos_of_getElem (holdsPtr p) w.handles i (some u) hi (by simp [hp])

theorem UWorld.Inv.held_lt {w : UWorld} (hw : w.Inv) {i : Nat} {u : UniquePtr}
    (hi : w.handles[i]? = some (some u)) (p : Nat) (hp : u.pair_.first = some p) :
    p < w.next := by
  have h1 := hw p
  have h2 := held_pos w i u hi p hp
  omega

theorem uinv_constructNew (w : UWorld) (hw : w.Inv) (d : Deleter) :
    (ustep w (UOp.constructNew d)).Inv := by
  simp only [ustep]
  intro p
  have h1 := hw p
  simp only [UWorld.holders, UWorld.releases, UWorld.handovers, deletions, countP_push, holdsPtr_some, holdsPtr_none,
    UniquePtr.ofPtr, UniquePtr.ofPtrDeleter, UniquePtr.destroy, UniquePtr.Release,
    UniquePtr.move, UniquePtr.moveConverting, UniquePtr.Swap, UniquePtr.Get,
    Option.some.injEq, decide_eq_true_eq, ite_self, reduceCtorEq, if_true, if_false,
    Bool.false_eq_true, ne_eq, not_true_eq_false, not_false_eq_true, Nat.cast_add, Nat.cast_ite,
    Nat.cast_one, Nat.cast_zero, eq_self_iff_true, true_and, and_true, false_and, and_false,
    decide_False, decide_True] at *
  omega

theorem uinv_constructDefaultNew (w : UWorld) (hw : w.Inv)  :
    (ustep w (UOp.constructDefaultNew)).Inv := by
  simp only [ustep]
  intro p
  have h1 := hw p
  simp only [UWorld.holders, UWorld.releases, UWorld.handovers, deletions, countP_push, holdsPtr_some, holdsPtr_none,
    UniquePtr.ofPtr, UniquePtr.ofPtrDeleter, UniquePtr.destroy, UniquePtr.Release,
    UniquePtr.move, UniquePtr.moveConverting, UniquePtr.Swap, UniquePtr.Get,
    Option.some.injEq, decide_eq_true_eq, ite_self, reduceCtorEq, if_true, if_false,
    Bool.false_eq_true, ne_eq, not_true_eq_false, not_false_eq_true, Nat.cast_add, Nat.cast_ite,
    Nat.cast_one, Nat.cast_zero, eq_self_iff_true, true_and, and_true, false_and, and_false,
    decide_False, decide_True] at *
  omega

theorem uinv_constructNull (w : UWorld) (hw : w.Inv) (d : Deleter) :
    (ustep w (UOp.constructNull d)).Inv := by
  simp only [ustep]
  intro p
  have h1 := hw p
  simp only [UWorld.holders, UWorld.releases, UWorld.handovers, deletions, countP_push, holdsPtr_some, holdsPtr_none,
    UniquePtr.ofPtr, UniquePtr.ofPtrDeleter, UniquePtr.destroy, UniquePtr.Release,
    UniquePtr.move, UniquePtr.moveConverting, UniquePtr.Swap, UniquePtr.Get,
    Option.some.injEq, decide_eq_true_eq, ite_self, reduceCtorEq, if_true, if_false,
    Bool.false_eq_true, ne_eq, not_true_eq_false, not_false_eq_true, Nat.cast_add, Nat.cast_ite,
    Nat.cast_one, Nat.cast_zero, eq_self_iff_true, true_and, and_true, false_and, and_false,
    decide_False, decide_True] at *
  omega

theorem uinv_resetNew (w : UWorld) (hw : w.Inv) (i : Nat) :
    (ustep w (UOp.resetNew i)).Inv := by
  simp only [ustep]
  cases hi : w.getHandle i with
  | none => exact hw
  | some a =>
    have hi2 := getHandle_eq w i a hi
    rcases a with ⟨⟨_ | a0, da⟩⟩
    · have hne : True := trivial
      simp only [UniquePtr.Reset, ne_eq, reduceCtorEq, not_false_eq_true, if_true, Option.some.injEq, hne]
      intro p
      have h1 := hw p
      simp only [UWorld.holders, UWorld.releases, UWorld.handovers, deletions, countP_push, holdsPtr_some, holdsPtr_none,
        UniquePtr.ofPtr, UniquePtr.ofPtrDeleter, UniquePtr.destroy, UniquePtr.Release,
        UniquePtr.move, UniquePtr.moveConverting, UniquePtr.Swap, UniquePtr.Get,
        Option.some.injEq, decide_eq_true_eq, ite_self, reduceCtorEq, if_true, if_false,
        Bool.false_eq_true, ne_eq, not_true_eq_false, not_false_eq_true, Nat.cast_add, Nat.cast_ite,
        Nat.cast_one, Nat.cast_zero, eq_self_iff_true, true_and, and_true, false_and, and_false,
        decide_False, decide_True, countP_set_cast _ _ _ _ _ hi2] at *
      omega
    · have hne : ¬ a0 = w.next := Nat.ne_of_lt (hw.held_lt hi2 a0 (Eq.refl _))
      simp only [UniquePtr.Reset, ne_eq, reduceCtorEq, not_false_eq_true, if_true, Option.some.injEq, hne]
      intro p
      have h1 := hw p
      have h4 := held_pos w i _ hi2 p
      simp only [UWorld.holders, UWorld.releases, UWorld.handovers, deletions, countP_push, holdsPtr_some, holdsPtr_none,
        UniquePtr.ofPtr, UniquePtr.ofPtrDeleter, UniquePtr.destroy, UniquePtr.Release,
        UniquePtr.move, UniquePtr.moveConverting, UniquePtr.Swap, UniquePtr.Get,
        Option.some.injEq, decide_eq_true_eq, ite_self, reduceCtorEq, if_true, if_false,
        Bool.false_eq_true, ne_eq, not_true_eq_false, not_false_eq_true, Nat.cast_add, Nat.cast_ite,
        Nat.cast_one, Nat.cast_zero, eq_self_iff_true, true_and, and_true, false_and, and_false,
        decide_False, decide_True, countP_set_cast _ _ _ _ _ hi2] at *
      omega

theorem uinv_resetNull (w : UWorld) (hw : w.Inv) (i : Nat) :
    (ustep w (UOp.resetNull i)).Inv := by
  simp only [ustep]
  cases hi : w.getHandle i with
  | none => exact hw
  | some a =>
    have hi2 := getHandle_eq w i a hi
    rcases a with ⟨⟨_ | a0, da⟩⟩
    · simp only [UniquePtr.Reset, ne_eq, reduceCtorEq, not_false_eq_true, not_true_eq_false, if_true, if_false]
      intro p
      have h1 := hw p
      simp only [UWorld.holders, UWorld.releases, UWorld.handovers, deletions, countP_push, holdsPtr_some, holdsPtr_none,
        UniquePtr.ofPtr, UniquePtr.ofPtrDeleter, UniquePtr.destroy, UniquePtr.Release,
        UniquePtr.move, UniquePtr.moveConverting, UniquePtr.Swap, UniquePtr.Get,
        Option.some.injEq, decide_eq_true_eq, ite_self, reduceCtorEq, if_true, if_false,
        Bool.false_eq_true, ne_eq, not_true_eq_false, not_false_eq_true, Nat.cast_add, Nat.cast_ite,
        Nat.cast_one, Nat.cast_zero, eq_self_iff_true, true_and, and_true, false_and, and_false,
        decide_False, decide_True, countP_set_cast _ _ _ _ _ hi2] at *
      omega
    · simp only [UniquePtr.Reset, ne_eq, reduceCtorEq, not_false_eq_true, not_true_eq_false, if_true, if_false]
      intro p
      have h1 := hw p
      have h4 := held_pos w i _ hi2 p
      simp only [UWorld.holders, UWorld.releases, UWorld.handovers, deletions, countP_push, holdsPtr_some, holdsPtr_none,
        UniquePtr.ofPtr, UniquePtr.ofPtrDeleter, UniquePtr.destroy, UniquePtr.Release,
        UniquePtr.move, UniquePtr.moveConverting, UniquePtr.Swap, UniquePtr.Get,
        Option.some.injEq, decide_eq_true_eq, ite_self, reduceCtorEq, if_true, if_false,
        Bool.false_eq_true, ne_eq, not_true_eq_false, not_false_eq_true, Nat.cast_add, Nat.cast_ite,
        Nat.cast_one, Nat.cast_zero, eq_self_iff_true, true_and, and_true, false_and, and_false,
        decide_False, decide_True, countP_set_cast _ _ _ _ _ hi2] at *
      omega

theorem uinv_resetSelf (w : UWorld) (hw : w.Inv) (i : Nat) :
    (ustep w (UOp.resetSelf i)).Inv := by
  simp only [ustep]
  cases hi : w.getHandle i with
  | none => exact hw
  | some a =>
    have hi2 := getHandle_eq w i a hi
    rcases a with ⟨⟨_ | a0, da⟩⟩
    · simp only [UniquePtr.Reset, UniquePtr.Get, ne_eq, not_true_eq_false, if_false]
      intro p
      have h1 := hw p
      simp only [UWorld.holders, UWorld.releases, UWorld.handovers, deletions, countP_push, holdsPtr_some, holdsPtr_none,
        UniquePtr.ofPtr, UniquePtr.ofPtrDeleter, UniquePtr.destroy, UniquePtr.Release,
        UniquePtr.move, UniquePtr.moveConverting, UniquePtr.Swap, UniquePtr.Get,
        Option.some.injEq, decide_eq_true_eq, ite_self, reduceCtorEq, if_true, if_false,
        Bool.false_eq_true, ne_eq, not_true_eq_false, not_false_eq_true, Nat.cast_add, Nat.cast_ite,
        Nat.cast_one, Nat.cast_zero, eq_self_iff_true, true_and, and_true, false_and, and_false,
        decide_False, decide_True, countP_set_cast _ _ _ _ _ hi2] at *
      omega
    · simp only [UniquePtr.Reset, UniquePtr.Get, ne_eq, not_true_eq_false, if_false]
      intro p
      have h1 := hw p
      have h4 := held_pos w i _ hi2 p
      simp only [UWorld.holders, UWorld.releases, UWorld.handovers, deletions, countP_push, holdsPtr_some, holdsPtr_none,
        UniquePtr.ofPtr, UniquePtr.ofPtrDeleter, UniquePtr.destroy, UniquePtr.Release,
        UniquePtr.move, UniquePtr.moveConverting, UniquePtr.Swap, UniquePtr.Get,
        Option.some.injEq, decide_eq_true_eq, ite_self, reduceCtorEq, if_true, if_false,
        Bool.false_eq_true, ne_eq, not_true_eq_false, not_false_eq_true, Nat.cast_add, Nat.cast_ite,
        Nat.cast_one, Nat.cast_zero, eq_self_iff_true, true_and, and_true, false_and, and_false,
        decide_False, decide_True, countP_set_cast _ _ _ _ _ hi2] at *
      omega

theorem uinv_assignNull (w : UWorld) (hw : w.Inv) (i : Nat) :
    (ustep w (UOp.assignNull i)).Inv := by
  simp only [ustep]
  cases hi : w.getHandle i with
  | none => exact hw
  | some a =>
    have hi2 := getHandle_eq w i a hi
    rcases a with ⟨⟨_ | a0, da⟩⟩
    · simp only [UniquePtr.assignNull, UniquePtr.Reset, ne_eq, reduceCtorEq, not_false_eq_true, not_true_eq_false, if_true, if_false]
      intro p
      have h1 := hw p
      simp only [UWorld.holders, UWorld.releases, UWorld.handovers, deletions, countP_push, holdsPtr_some, holdsPtr_none,
        UniquePtr.ofPtr, UniquePtr.ofPtrDeleter, UniquePtr.destroy, UniquePtr.Release,
        UniquePtr.move, UniquePtr.moveConverting, UniquePtr.Swap, UniquePtr.Get,
        Option.some.injEq, decide_eq_true_eq, ite_self, reduceCtorEq, if_true, if_false,
        Bool.false_eq_true, ne_eq, not_true_eq_false, not_false_eq_true, Nat.cast_add, Nat.cast_ite,
        Nat.cast_one, Nat.cast_zero, eq_self_iff_true, true_and, and_true, false_and, and_false,
        decide_False, decide_True, countP_set_cast _ _ _ _ _ hi2] at *
      omega
    · simp only [UniquePtr.assignNull, UniquePtr.Reset, ne_eq, reduceCtorEq, not_false_eq_true, not_true_eq_false, if_true, if_false]
      intro p
      have h1 := hw p
      have h4 := held_pos w i _ hi2 p
      simp only [UWorld.holders, UWorld.releases, UWorld.handovers, deletions, countP_push, holdsPtr_some, holdsPtr_none,
        UniquePtr.ofPtr, UniquePtr.ofPtrDeleter, UniquePtr.destroy, UniquePtr.Release,
        UniquePtr.move, UniquePtr.moveConverting, UniquePtr.Swap, UniquePtr.Get,
        Option.some.injEq, decide_eq_true_eq, ite_self, reduceCtorEq, if_true, if_false,
        Bool.false_eq_true, ne_eq, not_true_eq_false, not_false_eq_true, Nat.cast_add, Nat.cast_ite,
        Nat.cast_one, Nat.cast_zero, eq_self_iff_true, true_and, and_true, false_and, and_false,
        decide_False, decide_True, countP_set_cast _ _ _ _ _ hi2] at *
      omega

theorem uinv_release (w : UWorld) (hw : w.Inv) (i : Nat) :
    (ustep w (UOp.release i)).Inv := by
  simp only [ustep]
  cases hi : w.getHandle i with
  | none => exact hw
  | some a =>
    have hi2 := getHandle_eq w i a hi
    rcases a with ⟨⟨_ | a0, da⟩⟩
    · simp only [UniquePtr.Release]
      intro p
      have h1 := hw p
      simp only [UWorld.holders, UWorld.releases, UWorld.handovers, deletions, countP_push, holdsPtr_some, holdsPtr_none,
        UniquePtr.ofPtr, UniquePtr.ofPtrDeleter, UniquePtr.destroy, UniquePtr.Release,
        UniquePtr.move, UniquePtr.moveConverting, UniquePtr.Swap, UniquePtr.Get,
        Option.some.injEq, decide_eq_true_eq, ite_self, reduceCtorEq, if_true, if_false,
        Bool.false_eq_true, ne_eq, not_true_eq_false, not_false_eq_true, Nat.cast_add, Nat.cast_ite,
        Nat.cast_one, Nat.cast_zero, eq_self_iff_true, true_and, and_true, false_and, and_false,
        decide_False, decide_True, countP_set_cast _ _ _ _ _ hi2] at *
      omega
    · simp only [UniquePtr.Release]
      intro p
      have h1 := hw p
      have h4 := held_pos w i _ hi2 p
      simp only [UWorld.holders, UWorld.releases, UWorld.handovers, deletions, countP_push, holdsPtr_some, holdsPtr_none,
        UniquePtr.ofPtr, UniquePtr.ofPtrDeleter, UniquePtr.destroy, UniquePtr.Release,
        UniquePtr.move, UniquePtr.moveConverting, UniquePtr.Swap, UniquePtr.Get,
        Option.some.injEq, decide_eq_true_eq, ite_self, reduceCtorEq, if_true, if_false,
        Bool.false_eq_true, ne_eq, not_true_eq_false, not_false_eq_true, Nat.cast_add, Nat.cast_ite,
        Nat.cast_one, Nat.cast_zero, eq_self_iff_true, true_and, and_true, false_and, and_false,
        decide_False, decide_True, countP_set_cast _ _ _ _ _ hi2] at *
      omega

theorem uinv_moveConstruct (w : UWorld) (hw : w.Inv) (i : Nat) :
    (ustep w (UOp.moveConstruct i)).Inv := by
  simp only [ustep]
  cases hi : w.getHandle i with
  | none => exact hw
  | some a =>
    have hi2 := getHandle_eq w i a hi
    rcases a with ⟨⟨_ | a0, da⟩⟩
    · simp only [UniquePtr.move, UniquePtr.Release]
      intro p
      have h1 := hw p
      simp only [UWorld.holders, UWorld.releases, UWorld.handovers, deletions, countP_push, holdsPtr_some, holdsPtr_none,
        UniquePtr.ofPtr, UniquePtr.ofPtrDeleter, UniquePtr.destroy, UniquePtr.Release,
        UniquePtr.move, UniquePtr.moveConverting, UniquePtr.Swap, UniquePtr.Get,
        Option.some.injEq, decide_eq_true_eq, ite_self, reduceCtorEq, if_true, if_false,
        Bool.false_eq_true, ne_eq, not_true_eq_false, not_false_eq_true, Nat.cast_add, Nat.cast_ite,
        Nat.cast_one, Nat.cast_zero, eq_self_iff_true, true_and, and_true, false_and, and_false,
        decide_False, decide_True, countP_set_cast _ _ _ _ _ hi2] at *
      omega
    · simp only [UniquePtr.move, UniquePtr.Release]
      intro p
      have h1 := hw p
      have h4 := held_pos w i _ hi2 p
      simp only [UWorld.holders, UWorld.releases, UWorld.handovers, deletions, countP_push, holdsPtr_some, holdsPtr_none,
        UniquePtr.ofPtr, UniquePtr.ofPtrDeleter, UniquePtr.destroy, UniquePtr.Release,
        UniquePtr.move, UniquePtr.moveConverting, UniquePtr.Swap, UniquePtr.Get,
        Option.some.injEq, decide_eq_true_eq, ite_self, reduceCtorEq, if_true, if_false,
        Bool.false_eq_true, ne_eq, not_true_eq_false, not_false_eq_true, Nat.cast_add, Nat.cast_ite,
        Nat.cast_one, Nat.cast_zero, eq_self_iff_true, true_and, and_true, false_and, and_false,
        decide_False, decide_True, countP_set_cast _ _ _ _ _ hi2] at *
      omega

theorem uinv_moveConstructConverting (w : UWorld) (hw : w.Inv) (i : Nat) :
    (ustep w (UOp.moveConstructConverting i)).Inv := by
  simp only [ustep]
  cases hi : w.getHandle i with
  | none => exact hw
  | some a =>
    have hi2 := getHandle_eq w i a hi
    rcases a with ⟨⟨_ | a0, da⟩⟩
    · simp only [UniquePtr.moveConverting, UniquePtr.Release]
      intro p
      have h1 := hw p
      simp only [UWorld.holders, UWorld.releases, UWorld.handovers, deletions, countP_push, holdsPtr_some, holdsPtr_none,
        UniquePtr.ofPtr, UniquePtr.ofPtrDeleter, UniquePtr.destroy, UniquePtr.Release,
        UniquePtr.move, UniquePtr.moveConverting, UniquePtr.Swap, UniquePtr.Get,
        Option.some.injEq, decide_eq_true_eq, ite_self, reduceCtorEq, if_true, if_false,
        Bool.false_eq_true, ne_eq, not_true_eq_false, not_false_eq_true, Nat.cast_add, Nat.cast_ite,
        Nat.cast_one, Nat.cast_zero, eq_self_iff_true, true_and, and_true, false_and, and_false,
        decide_False, decide_True, countP_set_cast _ _ _ _ _ hi2] at *
      omega
    · simp only [UniquePtr.moveConverting, UniquePtr.Release]
      intro p
      have h1 := hw p
      have h4 := held_pos w i _ hi2 p
      simp only [UWorld.holders, UWorld.releases, UWorld.handovers, deletions, countP_push, holdsPtr_some, holdsPtr_none,
        UniquePtr.ofPtr, UniquePtr.ofPtrDeleter, UniquePtr.destroy, UniquePtr.Release,
        UniquePtr.move, UniquePtr.moveConverting, UniquePtr.Swap, UniquePtr.Get,
        Option.some.injEq, decide_eq_true_eq, ite_self, reduceCtorEq, if_true, if_false,
        Bool.false_eq_true, ne_eq, not_true_eq_false, not_false_eq_true, Nat.cast_add, Nat.cast_ite,
        Nat.cast_one, Nat.cast_zero, eq_self_iff_true, true_and, and_true, false_and, and_false,
        decide_False, decide_True, countP_set_cast _ _ _ _ _ hi2] at *
      omega

theorem uinv_destroy (w : UWorld) (hw : w.Inv) (i : Nat) :
    (ustep w (UOp.destroy i)).Inv := by
  simp only [ustep]
  cases hi : w.getHandle i with
  | none => exact hw
  | some a =>
    have hi2 := getHandle_eq w i a hi
    rcases a with ⟨⟨_ | a0, da⟩⟩
    · simp only [UniquePtr.destroy]
      intro p
      have h1 := hw p
      simp only [UWorld.holders, UWorld.releases, UWorld.handovers, deletions, countP_push, holdsPtr_some, holdsPtr_none,
        UniquePtr.ofPtr, UniquePtr.ofPtrDeleter, UniquePtr.destroy, UniquePtr.Release,
        UniquePtr.move, UniquePtr.moveConverting, UniquePtr.Swap, UniquePtr.Get,
        Option.some.injEq, decide_eq_true_eq, ite_self, reduceCtorEq, if_true, if_false,
        Bool.false_eq_true, ne_eq, not_true_eq_false, not_false_eq_true, Nat.cast_add, Nat.cast_ite,
        Nat.cast_one, Nat.cast_zero, eq_self_iff_true, true_and, and_true, false_and, and_false,
        decide_False, decide_True, countP_set_cast _ _ _ _ _ hi2] at *
      omega
    · simp only [UniquePtr.destroy]
      intro p
      have h1 := hw p
      have h4 := held_pos w i _ hi2 p
      simp only [UWorld.holders, UWorld.releases, UWorld.handovers, deletions, countP_push, holdsPtr_some, holdsPtr_none,
        UniquePtr.ofPtr, UniquePtr.ofPtrDeleter, UniquePtr.destroy, UniquePtr.Release,
        UniquePtr.move, UniquePtr.moveConverting, UniquePtr.Swap, UniquePtr.Get,
        Option.some.injEq, decide_eq_true_eq, ite_self, reduceCtorEq, if_true, if_false,
        Bool.false_eq_true, ne_eq, not_true_eq_false, not_false_eq_true, Nat.cast_add, Nat.cast_ite,
        Nat.cast_one, Nat.cast_zero, eq_self_iff_true, true_and, and_true, false_and, and_false,
        decide_False, decide_True, countP_set_cast _ _ _ _ _ hi2] at *
      omega

theorem uinv_moveAssign (w : UWorld) (hw : w.Inv) (i k : Nat) :
    (ustep w (UOp.moveAssign i k)).Inv := by
  simp only [ustep]
  cases hi : w.getHandle i with
  | none => exact hw
  | some a =>
    cases hk : w.getHandle k with
    | none => exact hw
    | some c =>
      have hi2 := getHandle_eq w i a hi
      have hk2 := getHandle_eq w k c hk
      by_cases hik : i = k
      · subst hik
        have hac : a = c := by rw [hi] at hk; exact Option.some.inj hk
        subst hac
        rcases a with ⟨⟨fa, da⟩⟩
        simp only [UniquePtr.moveAssign, ne_eq, not_true_eq_false, if_false,
          set_getElem_self _ _ _ hi2]
        exact hw
      · rcases c with ⟨⟨_ | c0, dc⟩⟩ <;> rcases a with ⟨⟨_ | a0, da⟩⟩
        · simp only [UniquePtr.moveAssign, UniquePtr.Reset, UniquePtr.Release, ne_eq, reduceCtorEq,
            not_true_eq_false, not_false_eq_true, if_true, if_false]
          intro p
          have h1 := hw p
          simp only [UWorld.holders, UWorld.releases, UWorld.handovers, deletions, countP_push, holdsPtr_some, holdsPtr_none,
            UniquePtr.ofPtr, UniquePtr.ofPtrDeleter, UniquePtr.destroy, UniquePtr.Release,
            UniquePtr.move, UniquePtr.moveConverting, UniquePtr.Swap, UniquePtr.Get,
            Option.some.injEq, decide_eq_true_eq, ite_self, reduceCtorEq, if_true, if_false,
            Bool.false_eq_true, ne_eq, not_true_eq_false, not_false_eq_true, Nat.cast_add, Nat.cast_ite,
            Nat.cast_one, Nat.cast_zero, eq_self_iff_true, true_and, and_true, false_and, and_false,
            decide_False, decide_True, countP_set_set_cast _ _ _ _ _ _ _ _ hik hi2 hk2] at *
          omega
        · simp only [UniquePtr.moveAssign, UniquePtr.Reset, UniquePtr.Release, ne_eq, reduceCtorEq,
            not_true_eq_false, not_false_eq_true, if_true, if_false]
          intro p
          have h1 := hw p
          have h4 := held_pos w i _ hi2 p
          simp only [UWorld.holders, UWorld.releases, UWorld.handovers, deletions, countP_push, holdsPtr_some, holdsPtr_none,
            UniquePtr.ofPtr, UniquePtr.ofPtrDeleter, UniquePtr.destroy, UniquePtr.Release,
            UniquePtr.move, UniquePtr.moveConverting, UniquePtr.Swap, UniquePtr.Get,
            Option.some.injEq, decide_eq_true_eq, ite_self, reduceCtorEq, if_true, if_false,
            Bool.false_eq_true, ne_eq, not_true_eq_false, not_false_eq_true, Nat.cast_add, Nat.cast_ite,
            Nat.cast_one, Nat.cast_zero, eq_self_iff_true, true_and, and_true, false_and, and_false,
            decide_False, decide_True, countP_set_set_cast _ _ _ _ _ _ _ _ hik hi2 hk2] at *
          omega
        · simp only [UniquePtr.moveAssign, UniquePtr.Reset, UniquePtr.Release, ne_eq, reduceCtorEq,
            not_true_eq_false, not_false_eq_true, if_true, if_false]
          intro p
          have h1 := hw p
          have h5 := held_pos w k _ hk2 p
          simp only [UWorld.holders, UWorld.releases, UWorld.handovers, deletions, countP_push, holdsPtr_some, holdsPtr_none,
            UniquePtr.ofPtr, UniquePtr.ofPtrDeleter, UniquePtr.destroy, UniquePtr.Release,
            UniquePtr.move, UniquePtr.moveConverting, UniquePtr.Swap, UniquePtr.Get,
            Option.some.injEq, decide_eq_true_eq, ite_self, reduceCtorEq, if_true, if_false,
            Bool.false_eq_true, ne_eq, not_true_eq_false, not_false_eq_true, Nat.cast_add, Nat.cast_ite,
            Nat.cast_one, Nat.cast_zero, eq_self_iff_true, true_and, and_true, false_and, and_false,
            decide_False, decide_True, countP_set_set_cast _ _ _ _ _ _ _ _ hik hi2 hk2] at *
          omega
        · by_cases hg : a0 = c0
          · subst hg
            simp only [UniquePtr.moveAssign, UniquePtr.Reset, UniquePtr.Release, ne_eq,
              not_true_eq_false, if_false]
            intro p
            have h1 := hw p
            have h4 := held_pos w i _ hi2 p
            simp only [UWorld.holders, UWorld.releases, UWorld.handovers, deletions, countP_push, holdsPtr_some, holdsPtr_none,
              UniquePtr.ofPtr, UniquePtr.ofPtrDeleter, UniquePtr.destroy, UniquePtr.Release,
              UniquePtr.move, UniquePtr.moveConverting, UniquePtr.Swap, UniquePtr.Get,
              Option.some.injEq, decide_eq_true_eq, ite_self, reduceCtorEq, if_true, if_false,
              Bool.false_eq_true, ne_eq, not_true_eq_false, not_false_eq_true, Nat.cast_add, Nat.cast_ite,
              Nat.cast_one, Nat.cast_zero, eq_self_iff_true, true_and, and_true, false_and, and_false,
              decide_False, decide_True, countP_set_set_cast _ _ _ _ _ _ _ _ hik hi2 hk2] at *
            omega
          · simp only [UniquePtr.moveAssign, UniquePtr.Reset, UniquePtr.Release, ne_eq,
              Option.some.injEq, hg, not_false_eq_true, if_true]
            intro p
            have h1 := hw p
            have h4 := held_pos w i _ hi2 p
            have h5 := held_pos w k _ hk2 p
            simp only [UWorld.holders, UWorld.releases, UWorld.handovers, deletions, countP_push, holdsPtr_some, holdsPtr_none,
              UniquePtr.ofPtr, UniquePtr.ofPtrDeleter, UniquePtr.destroy, UniquePtr.Release,
              UniquePtr.move, UniquePtr.moveConverting, UniquePtr.Swap, UniquePtr.Get,
              Option.some.injEq, decide_eq_true_eq, ite_self, reduceCtorEq, if_true, if_false,
              Bool.false_eq_true, ne_eq, not_true_eq_false, not_false_eq_true, Nat.cast_add, Nat.cast_ite,
              Nat.cast_one, Nat.cast_zero, eq_self_iff_true, true_and, and_true, false_and, and_false,
              decide_False, decide_True, countP_set_set_cast _ _ _ _ _ _ _ _ hik hi2 hk2] at *
            omega

theorem uinv_swap (w : UWorld) (hw : w.Inv) (i k : Nat) :
    (ustep w (UOp.swap i k)).Inv := by
  simp only [ustep]
  cases hi : w.getHandle i with
  | none => exact hw
  | some a =>
    cases hk : w.getHandle k with
    | none => exact hw
    | some c =>
      have hi2 := getHandle_eq w i a hi
      have hk2 := getHandle_eq w k c hk
      by_cases hik : i = k
      · subst hik
        have hac : a = c := by rw [hi] at hk; exact Option.some.inj hk
        subst hac
        rcases a with ⟨⟨fa, da⟩⟩
        simp only [UniquePtr.Swap, ne_eq, not_true_eq_false, if_false,
          set_getElem_self _ _ _ hi2]
        exact hw
      · rcases c with ⟨⟨_ | c0, dc⟩⟩ <;> rcases a with ⟨⟨_ | a0, da⟩⟩
        · simp only [UniquePtr.Swap, UniquePtr.Reset, UniquePtr.Release, ne_eq, reduceCtorEq,
            not_true_eq_false, not_false_eq_true, if_true, if_false]
          intro p
          have h1 := hw p
          simp only [UWorld.holders, UWorld.releases, UWorld.handovers, deletions, countP_push, holdsPtr_some, holdsPtr_none,
            UniquePtr.ofPtr, UniquePtr.ofPtrDeleter, UniquePtr.destroy, UniquePtr.Release,
            UniquePtr.move, UniquePtr.moveConverting, UniquePtr.Swap, UniquePtr.Get,
            Option.some.injEq, decide_eq_true_eq, ite_self, reduceCtorEq, if_true, if_false,
            Bool.false_eq_true, ne_eq, not_true_eq_false, not_false_eq_true, Nat.cast_add, Nat.cast_ite,
            Nat.cast_one, Nat.cast_zero, eq_self_iff_true, true_and, and_true, false_and, and_false,
            decide_False, decide_True, countP_set_set_cast _ _ _ _ _ _ _ _ hik hi2 hk2] at *
          omega
        · simp only [UniquePtr.Swap, UniquePtr.Reset, UniquePtr.Release, ne_eq, reduceCtorEq,
            not_true_eq_false, not_false_eq_true, if_true, if_false]
          intro p
          have h1 := hw p
          have h4 := held_pos w i _ hi2 p
          simp only [UWorld.holders, UWorld.releases, UWorld.handovers, deletions, countP_push, holdsPtr_some, holdsPtr_none,
            UniquePtr.ofPtr, UniquePtr.ofPtrDeleter, UniquePtr.destroy, UniquePtr.Release,
            UniquePtr.move, UniquePtr.moveConverting, UniquePtr.Swap, UniquePtr.Get,
            Option.some.injEq, decide_eq_true_eq, ite_self, reduceCtorEq, if_true, if_false,
            Bool.false_eq_true, ne_eq, not_true_eq_false, not_false_eq_true, Nat.cast_add, Nat.cast_ite,
            Nat.cast_one, Nat.cast_zero, eq_self_iff_true, true_and, and_true, false_and, and_false,
            decide_False, decide_True, countP_set_set_cast _ _ _ _ _ _ _ _ hik hi2 hk2] at *
          omega
        · simp only [UniquePtr.Swap, UniquePtr.Reset, UniquePtr.Release, ne_eq, reduceCtorEq,
            not_true_eq_false, not_false_eq_true, if_true, if_false]
          intro p
          have h1 := hw p
          have h5 := held_pos w k _ hk2 p
          simp only [UWorld.holders, UWorld.releases, UWorld.handovers, deletions, countP_push, holdsPtr_some, holdsPtr_none,
            UniquePtr.ofPtr, UniquePtr.ofPtrDeleter, UniquePtr.destroy, UniquePtr.Release,
            UniquePtr.move, UniquePtr.moveConverting, UniquePtr.Swap, UniquePtr.Get,
            Option.some.injEq, decide_eq_true_eq, ite_self, reduceCtorEq, if_true, if_false,
            Bool.false_eq_true, ne_eq, not_true_eq_false, not_false_eq_true, Nat.cast_add, Nat.cast_ite,
            Nat.cast_one, Nat.cast_zero, eq_self_iff_true, true_and, and_true, false_and, and_false,
            decide_False, decide_True, countP_set_set_cast _ _ _ _ _ _ _ _ hik hi2 hk2] at *
          omega
        · by_cases hg : a0 = c0
          · subst hg
            simp only [UniquePtr.Swap, UniquePtr.Reset, UniquePtr.Release, ne_eq,
              not_true_eq_false, if_false]
            intro p
            have h1 := hw p
            have h4 := held_pos w i _ hi2 p
            simp only [UWorld.holders, UWorld.releases, UWorld.handovers, deletions, countP_push, holdsPtr_some, holdsPtr_none,
              UniquePtr.ofPtr, UniquePtr.ofPtrDeleter, UniquePtr.destroy, UniquePtr.Release,
              UniquePtr.move, UniquePtr.moveConverting, UniquePtr.Swap, UniquePtr.Get,
              Option.some.injEq, decide_eq_true_eq, ite_self, reduceCtorEq, if_true, if_false,
              Bool.false_eq_true, ne_eq, not_true_eq_false, not_false_eq_true, Nat.cast_add, Nat.cast_ite,
              Nat.cast_one, Nat.cast_zero, eq_self_iff_true, true_and, and_true, false_and, and_false,
              decide_False, decide_True, countP_set_set_cast _ _ _ _ _ _ _ _ hik hi2 hk2] at *
            omega
          · simp only [UniquePtr.Swap, UniquePtr.Reset, UniquePtr.Release, ne_eq,
              Option.some.injEq, hg, not_false_eq_true, if_true]
            intro p
            have h1 := hw p
            have h4 := held_pos w i _ hi2 p
            have h5 := held_pos w k _ hk2 p
            simp only [UWorld.holders, UWorld.releases, UWorld.handovers, deletions, countP_push, holdsPtr_some, holdsPtr_none,
              UniquePtr.ofPtr, UniquePtr.ofPtrDeleter, UniquePtr.destroy, UniquePtr.Release,
              UniquePtr.move, UniquePtr.moveConverting, UniquePtr.Swap, UniquePtr.Get,
              Option.some.injEq, decide_eq_true_eq, ite_self, reduceCtorEq, if_true, if_false,
              Bool.false_eq_true, ne_eq, not_true_eq_false, not_false_eq_true, Nat.cast_add, Nat.cast_ite,
              Nat.cast_one, Nat.cast_zero, eq_self_iff_true, true_and, and_true, false_and, and_false,
              decide_False, decide_True, countP_set_set_cast _ _ _ _ _ _ _ _ hik hi2 hk2] at *
            omega

theorem uinv_constructFrom (w : UWorld) (hw : w.Inv) (p0 : Nat) (d : Deleter)
    (hv : uvalidStep w (UOp.constructFrom p0 d) = true) :
    (ustep w (UOp.constructFrom p0 d)).Inv := by
  simp only [uvalidStep, UWorld.callerHolds, decide_eq_true_eq] at hv
  simp only [ustep]
  intro p
  have h1 := hw p
  rcases eq_or_ne p0 p with rfl | hpq
  · simp only [UWorld.holders, UWorld.releases, UWorld.handovers, deletions, countP_push, holdsPtr_some, holdsPtr_none,
      UniquePtr.ofPtr, UniquePtr.ofPtrDeleter, UniquePtr.destroy, UniquePtr.Release,
      UniquePtr.move, UniquePtr.moveConverting, UniquePtr.Swap, UniquePtr.Get,
      Option.some.injEq, decide_eq_true_eq, ite_self, reduceCtorEq, if_true, if_false,
      Bool.false_eq_true, ne_eq, not_true_eq_false, not_false_eq_true, Nat.cast_add, Nat.cast_ite,
      Nat.cast_one, Nat.cast_zero, eq_self_iff_true, true_and, and_true, false_and, and_false,
      decide_False, decide_True] at *
    omega
  · simp only [UWorld.holders, UWorld.releases, UWorld.handovers, deletions, countP_push, holdsPtr_some, holdsPtr_none,
      UniquePtr.ofPtr, UniquePtr.ofPtrDeleter, UniquePtr.destroy, UniquePtr.Release,
      UniquePtr.move, UniquePtr.moveConverting, UniquePtr.Swap, UniquePtr.Get,
      Option.some.injEq, decide_eq_true_eq, ite_self, reduceCtorEq, if_true, if_false,
      Bool.false_eq_true, ne_eq, not_true_eq_false, not_false_eq_true, Nat.cast_add, Nat.cast_ite,
      Nat.cast_one, Nat.cast_zero, eq_self_iff_true, true_and, and_true, false_and, and_false,
      decide_False, decide_True, hpq] at *
    omega

theorem uinv_resetTo (w : UWorld) (hw : w.Inv) (i : Nat) (p0 : Nat)
    (hv : uvalidStep w (UOp.resetTo i p0) = true) :
    (ustep w (UOp.resetTo i p0)).Inv := by
  simp only [ustep]
  cases hi : w.getHandle i with
  | none => exact hw
  | some a =>
    have hi2 := getHandle_eq w i a hi
    simp only [uvalidStep, hi, UWorld.callerHolds, Bool.or_eq_true, decide_eq_true_eq] at hv
    rcases a with ⟨⟨_ | a0, da⟩⟩
    · have hv2 : w.handovers p0 < w.releases p0 := by
        rcases hv with hv | hv
        · simp at hv
        · exact hv
      simp only [UniquePtr.Reset, ne_eq, reduceCtorEq, not_false_eq_true, if_true, if_false]
      intro p
      have h1 := hw p
      rcases eq_or_ne p0 p with rfl | hpq
      · simp only [UWorld.holders, UWorld.releases, UWorld.handovers, deletions, countP_push, holdsPtr_some, holdsPtr_none,
          UniquePtr.ofPtr, UniquePtr.ofPtrDeleter, UniquePtr.destroy, UniquePtr.Release,
          UniquePtr.move, UniquePtr.moveConverting, UniquePtr.Swap, UniquePtr.Get,
          Option.some.injEq, decide_eq_true_eq, ite_self, reduceCtorEq, if_true, if_false,
          Bool.false_eq_true, ne_eq, not_true_eq_false, not_false_eq_true, Nat.cast_add, Nat.cast_ite,
          Nat.cast_one, Nat.cast_zero, eq_self_iff_true, true_and, and_true, false_and, and_false,
          decide_False, decide_True,
          countP_set_cast _ _ _ _ _ hi2] at *
        omega
      · simp only [UWorld.holders, UWorld.releases, UWorld.handovers, deletions, countP_push, holdsPtr_some, holdsPtr_none,
          UniquePtr.ofPtr, UniquePtr.ofPtrDeleter, UniquePtr.destroy, UniquePtr.Release,
          UniquePtr.move, UniquePtr.moveConverting, UniquePtr.Swap, UniquePtr.Get,
          Option.some.injEq, decide_eq_true_eq, ite_self, reduceCtorEq, if_true, if_false,
          Bool.false_eq_true, ne_eq, not_true_eq_false, not_false_eq_true, Nat.cast_add, Nat.cast_ite,
          Nat.cast_one, Nat.cast_zero, eq_self_iff_true, true_and, and_true, false_and, and_false,
          decide_False, decide_True,
          countP_set_cast _ _ _ _ _ hi2, hpq] at *
        omega
    · by_cases hg : a0 = p0
      · subst hg
        simp only [UniquePtr.Reset, ne_eq, not_true_eq_false, if_false, if_true,
          set_getElem_self _ _ _ hi2]
        exact hw
      · have hv2 : w.handovers p0 < w.releases p0 := by
          rcases hv with hv | hv
          · exact absurd (Option.some.inj hv) hg
          · exact hv
        simp only [UniquePtr.Reset, ne_eq, Option.some.injEq, hg, not_false_eq_true, if_true,
          if_false]
        intro p
        have h1 := hw p
        have h4 := held_pos w i _ hi2 p
        rcases eq_or_ne p0 p with rfl | hpq
        · simp only [UWorld.holders, UWorld.releases, UWorld.handovers, deletions, countP_push, holdsPtr_some, holdsPtr_none,
            UniquePtr.ofPtr, UniquePtr.ofPtrDeleter, UniquePtr.destroy, UniquePtr.Release,
            UniquePtr.move, UniquePtr.moveConverting, UniquePtr.Swap, UniquePtr.Get,
            Option.some.injEq, decide_eq_true_eq, ite_self, reduceCtorEq, if_true, if_false,
            Bool.false_eq_true, ne_eq, not_true_eq_false, not_false_eq_true, Nat.cast_add, Nat.cast_ite,
            Nat.cast_one, Nat.cast_zero, eq_self_iff_true, true_and, and_true, false_and, and_false,
            decide_False, decide_True,
            countP_set_cast _ _ _ _ _ hi2] at *
          omega
        · simp only [UWorld.holders, UWorld.releases, UWorld.handovers, deletions, countP_push, holdsPtr_some, holdsPtr_none,
            UniquePtr.ofPtr, UniquePtr.ofPtrDeleter, UniquePtr.destroy, UniquePtr.Release,
            UniquePtr.move, UniquePtr.moveConverting, UniquePtr.Swap, UniquePtr.Get,
            Option.some.injEq, decide_eq_true_eq, ite_self, reduceCtorEq, if_true, if_false,
            Bool.false_eq_true, ne_eq, not_true_eq_false, not_false_eq_true, Nat.cast_add, Nat.cast_ite,
            Nat.cast_one, Nat.cast_zero, eq_self_iff_true, true_and, and_true, false_and, and_false,
            decide_False, decide_True,
            countP_set_cast _ _ _ _ _ hi2, hpq] at *
          omega

theorem ustep_Inv (w : UWorld) (hw : w.Inv) (op : UOp) (hv : uvalidStep w op = true) :
    (ustep w op).Inv := by
  cases op with
  | constructNew d => exact uinv_constructNew w hw d
  | constructDefaultNew => exact uinv_constructDefaultNew w hw
  | constructNull d => exact uinv_constructNull w hw d
  | constructFrom p d => exact uinv_constructFrom w hw p d hv
  | resetNew i => exact uinv_resetNew w hw i
  | resetNull i => exact uinv_resetNull w hw i
  | resetSelf i => exact uinv_resetSelf w hw i
  | resetTo i p => exact uinv_resetTo w hw i p hv
  | assignNull i => exact uinv_assignNull w hw i
  | release i => exact uinv_release w hw i
  | moveConstruct i => exact uinv_moveConstruct w hw i
  | moveConstructConverting i => exact uinv_moveConstructConverting w hw i
  | moveAssign i k => exact uinv_moveAssign w hw i k
  | swap i k => exact uinv_swap w hw i k
  | destroy i => exact uinv_destroy w hw i

theorem urun_Inv (w : UWorld) (hw : w.Inv) (ops : List UOp) (hv : uvalid w ops = true) :
    (urun w ops).Inv := by
  induction ops generalizing w with
  | nil => exact hw
  | cons op ops ih =>
    simp only [uvalid, Bool.and_eq_true] at hv
    exact ih (ustep w op) (ustep_Inv w hw op hv.1) hv.2

theorem deletions_destroyEach (us : List (Option UniquePtr)) (log : List DeleterCall) (p : Nat) :
    deletions (destroyEach us log) p = deletions log p + us.countP (holdsPtr p) := by
  induction us generalizing log with
  | nil => simp [destroyEach]
  | cons u us ih =>
    cases u with
    | none => simp [destroyEach, ih, List.countP_cons]
    | some u =>
      simp only [destroyEach, ih, List.countP_cons, holdsPtr_some, decide_eq_true_eq]
      simp only [deletions, UniquePtr.destroy, countP_push, decide_eq_true_eq]
      omega

theorem holders_destroyAll (w : UWorld) (p : Nat) : w.destroyAll.holders p = 0 := by
  simp only [UWorld.destroyAll, UWorld.holders]
  rw [List.countP_eq_zero]
  intro a ha
  simp only [List.mem_map] at ha
  obtain ⟨_, _, rfl⟩ := ha
  simp

/-! ## Release steps, aliasing, the lifecycle scenario and `UniquePtr` -/

/-- C11: `SharedPtr::Free` (the body of the destructor and of `Reset()`) on a handle with a
control block takes `strong_` down by exactly `1`, runs `OnZeroStrong` iff the result is
`0` and then `OnZeroWeak` iff `weak_ == 0` as well, so `OnZeroWeak` never runs without
`OnZeroStrong`; `weak_` and every other block are as before.  On an empty handle the free
store is as before.  In every case the handle ends with null `state_` and `ptr_`. -/
theorem C11_free (h : Heap) (s : SharedPtr) :
    (∀ b, s.state_ = some b →
      ((SharedPtr.Free h s).1.blocks b).strong_ = (h.blocks b).strong_ - 1 ∧
      ((SharedPtr.Free h s).1.blocks b).weak_ = (h.blocks b).weak_ ∧
      ((SharedPtr.Free h s).1.blocks b).zeroStrongCalls
        = (h.blocks b).zeroStrongCalls + (if (h.blocks b).strong_ - 1 = 0 then 1 else 0) ∧
      ((SharedPtr.Free h s).1.blocks b).zeroWeakCalls
        = (h.blocks b).zeroWeakCalls
          + (if (h.blocks b).strong_ - 1 = 0 ∧ (h.blocks b).weak_ = 0 then 1 else 0) ∧
      ((h.blocks b).zeroWeakCalls < ((SharedPtr.Free h s).1.blocks b).zeroWeakCalls →
        (h.blocks b).zeroStrongCalls < ((SharedPtr.Free h s).1.blocks b).zeroStrongCalls)) ∧
    (∀ c, s.state_ ≠ some c → (SharedPtr.Free h s).1.blocks c = h.blocks c) ∧
    (s.state_ = none → (SharedPtr.Free h s).1 = h) ∧
    (SharedPtr.Free h s).1.next = h.next ∧
    (SharedPtr.Free h s).2 = { state_ := none, ptr_ := none } ∧
    SharedPtr.destroy h s = SharedPtr.Free h s ∧
    SharedPtr.Reset h s = SharedPtr.Free h s := by
  have e1 : ∀ c : Nat, (h.blocks c).strong_ - 1 = 0 ↔ (h.blocks c).strong_ = 1 := by
    intro c; omega
  refine ⟨?_, ?_, ?_, Free_next h s, Free_handle h s, rfl, rfl⟩
  · intro b hb
    simp only [Free_strong, Free_weak, Free_zeroStrongCalls, Free_zeroWeakCalls, hb, if_true,
      true_and, e1]
    split_ifs <;> simp_all
  · intro c hc
    rw [Free_at, if_neg hc]
  · intro hs
    simp [SharedPtr.Free, hs]

/-- C11, at the only owner of a block without weak handles (both hooks run), and at an
empty handle. -/
theorem C11_free_witness :
    (((SharedPtr.Free (MakeShared Heap.init).1
        { state_ := some 0, ptr_ := some (Addr.storage 0) }).1.blocks 0).strong_
        = (((MakeShared Heap.init).1).blocks 0).strong_ - 1 ∧
      ((SharedPtr.Free (MakeShared Heap.init).1
        { state_ := some 0, ptr_ := some (Addr.storage 0) }).1.blocks 0).zeroWeakCalls
        = (((MakeShared Heap.init).1).blocks 0).zeroWeakCalls
          + (if (((MakeShared Heap.init).1).blocks 0).strong_ - 1 = 0 ∧
              (((MakeShared Heap.init).1).blocks 0).weak_ = 0 then 1 else 0)) ∧
    (SharedPtr.Free (MakeShared Heap.init).1 { state_ := none, ptr_ := none }).1
      = (MakeShared Heap.init).1 :=
  ⟨⟨((C11_free (MakeShared Heap.init).1
        { state_ := some 0, ptr_ := some (Addr.storage 0) }).1 0 (Eq.refl _)).1,
      ((C11_free (MakeShared Heap.init).1
        { state_ := some 0, ptr_ := some (Addr.storage 0) }).1 0 (Eq.refl _)).2.2.2.1⟩,
    (C11_free (MakeShared Heap.init).1 { state_ := none, ptr_ := none }).2.2.1 (Eq.refl _)⟩

/-- C12 (evaluation at the failing program): after `s = MakeShared(..)`, `WeakPtr w0(s)`,
`WeakPtr w1(std::move(w0))` the live handle `w1` points to a block with `strong_ == 1`,
`weak_ == 0`; `w1.Reset()` takes `weak_` to `-1`, leaves `strong_ == 1`, and runs
`OnZeroWeak` on the block although the two counters are not both `0` and `OnZeroStrong`
has not run. -/
theorem C12_reset_diverges :
    (run World.init [Op.makeShared, Op.weakOfShared 0, Op.weakMove 0]).getWeak 1
      = some { state_ := some 0, ptr_ := some (Addr.storage 0) } ∧
    ((WeakPtr.Reset (run World.init [Op.makeShared, Op.weakOfShared 0, Op.weakMove 0]).heap
      { state_ := some 0, ptr_ := some (Addr.storage 0) }).1.blocks 0).zeroWeakCalls
      = ((run World.init [Op.makeShared, Op.weakOfShared 0,
          Op.weakMove 0]).heap.blocks 0).zeroWeakCalls + 1 ∧
    ((WeakPtr.Reset (run World.init [Op.makeShared, Op.weakOfShared 0, Op.weakMove 0]).heap
      { state_ := some 0, ptr_ := some (Addr.storage 0) }).1.blocks 0).strong_ = 1 ∧
    ((WeakPtr.Reset (run World.init [Op.makeShared, Op.weakOfShared 0, Op.weakMove 0]).heap
      { state_ := some 0, ptr_ := some (Addr.storage 0) }).1.blocks 0).weak_ = -1 ∧
    ((WeakPtr.Reset (run World.init [Op.makeShared, Op.weakOfShared 0, Op.weakMove 0]).heap
      { state_ := some 0, ptr_ := some (Addr.storage 0) }).1.blocks 0).zeroStrongCalls = 0 ∧
    (WeakPtr.Reset (run World.init [Op.makeShared, Op.weakOfShared 0, Op.weakMove 0]).heap
      { state_ := some 0, ptr_ := some (Addr.storage 0) }).2
      = { state_ := none, ptr_ := none } := by
  decide

/-- C13: the aliasing constructor `SharedPtr(other, ptr)` on a source with a control block
gives a handle on the same block whose `Get()` is `ptr`; `strong_` of the block is one
more than before (`2` when the source was the sole owner), `weak_`, the hook counters and
every other block are as before.  The source of every program is counted
(`1 <= strong_`), and then releasing the source afterwards does not run `OnZeroStrong`;
when the source was the sole owner the hook runs, once, when the alias is released as
well. -/
theorem C13_alias (h : Heap) (other : SharedPtr) (ptr : Option Addr) (b : Nat)
    (hb : other.state_ = some b) :
    (SharedPtr.alias h other ptr).2.state_ = some b ∧
    (SharedPtr.alias h other ptr).2.Get = ptr ∧
    ((SharedPtr.alias h other ptr).1.blocks b).strong_ = (h.blocks b).strong_ + 1 ∧
    ((SharedPtr.alias h other ptr).1.blocks b).weak_ = (h.blocks b).weak_ ∧
    ((SharedPtr.alias h other ptr).1.blocks b).zeroStrongCalls = (h.blocks b).zeroStrongCalls ∧
    ((SharedPtr.alias h other ptr).1.blocks b).zeroWeakCalls = (h.blocks b).zeroWeakCalls ∧
    (∀ c, c ≠ b → (SharedPtr.alias h other ptr).1.blocks c = h.blocks c) ∧
    (∀ (ops : List Op) (i : Nat), (run World.init ops).getShared i = some other →
      1 ≤ ((run World.init ops).heap.blocks b).strong_) ∧
    (1 ≤ (h.blocks b).strong_ →
      ((SharedPtr.Free (SharedPtr.alias h other ptr).1 other).1.blocks b).zeroStrongCalls
        = (h.blocks b).zeroStrongCalls ∧
      ((SharedPtr.Free (SharedPtr.alias h other ptr).1 other).1.blocks b).strong_
        = (h.blocks b).strong_) ∧
    ((h.blocks b).strong_ = 1 →
      ((SharedPtr.alias h other ptr).1.blocks b).strong_ = 2 ∧
      ((SharedPtr.Free (SharedPtr.Free (SharedPtr.alias h other ptr).1 other).1
        (SharedPtr.alias h other ptr).2).1.blocks b).zeroStrongCalls
        = (h.blocks b).zeroStrongCalls + 1 ∧
      ((SharedPtr.Free (SharedPtr.Free (SharedPtr.alias h other ptr).1 other).1
        (SharedPtr.alias h other ptr).2).1.blocks b).strong_ = 0) := by
  rcases other with ⟨so, po⟩
  have hb2 : so = some b := hb
  subst hb2
  simp only [SharedPtr.alias, SharedPtr.Get, modify_strong_at, modify_weak_at,
    modify_zeroStrongCalls_at, modify_zeroWeakCalls_at, if_true,
    ControlBlock.incStrong_strong_, ControlBlock.incStrong_weak_,
    ControlBlock.incStrong_zeroStrongCalls, ControlBlock.incStrong_zeroWeakCalls,
    Free_strong, Free_zeroStrongCalls, true_and, and_true]
  refine ⟨?_, ?_, ?_, ?_⟩
  · intro c hc
    rw [Heap.modify_at, if_neg (fun e => hc e.symm)]
  · intro ops i hi
    exact ((run_WF World.init World.WF.init ops).live (getShared_eq _ i _ hi) b
      (Eq.refl _)).1
  · intro h1
    refine ⟨?_, ?_⟩
    · split_ifs <;> omega
    · omega
  · intro h1
    refine ⟨?_, ?_, ?_⟩
    · omega
    · rw [h1]; simp
    · omega

/-- C13, at the sole owner made by `MakeShared`. -/
theorem C13_alias_witness :
    (SharedPtr.alias (MakeShared Heap.init).1 { state_ := some 0, ptr_ := some (Addr.storage 0) }
      (some (Addr.raw 7))).2.Get = some (Addr.raw 7) ∧
    ((SharedPtr.alias (MakeShared Heap.init).1
      { state_ := some 0, ptr_ := some (Addr.storage 0) }
      (some (Addr.raw 7))).1.blocks 0).strong_ = 2 :=
  ⟨(C13_alias (MakeShared Heap.init).1 { state_ := some 0, ptr_ := some (Addr.storage 0) }
      (some (Addr.raw 7)) 0 (Eq.refl _)).2.1,
    ((C13_alias (MakeShared Heap.init).1 { state_ := some 0, ptr_ := some (Addr.storage 0) }
      (some (Addr.raw 7)) 0 (Eq.refl _)).2.2.2.2.2.2.2.2.2 (by decide)).1⟩

/-- C14: the lifecycle scenario, from any free store `h` (the value given to `MakeShared`
does not enter the counting): `h1 = MakeShared(v)` has `UseCount() == 1`; after `h2 = h1`
(copy construction, or copy assignment to an empty `h2`) both have `UseCount() == 2`;
after `w = WeakPtr(h1)` still `h1.UseCount() == 2` and `w.Expired()` is false; after
`h1.Reset()` and `h2.Reset()`, `w.Expired()` is true, `w.Lock()` returns the empty
`SharedPtr` and changes nothing, `OnZeroStrong` has run exactly once on the block and
`OnZeroWeak` has not run, `w` still being counted in `weak_`. -/
theorem C14_lifecycle (h : Heap) :
    (MakeShared h).2.UseCount (MakeShared h).1 = 1 ∧
    SharedPtr.copyAssign (MakeShared h).1 SharedPtr.empty (MakeShared h).2
      = SharedPtr.copy (MakeShared h).1 (MakeShared h).2 ∧
    (MakeShared h).2.UseCount (SharedPtr.copy (MakeShared h).1 (MakeShared h).2).1 = 2 ∧
    (SharedPtr.copy (MakeShared h).1 (MakeShared h).2).2.UseCount
      (SharedPtr.copy (MakeShared h).1 (MakeShared h).2).1 = 2 ∧
    (MakeShared h).2.UseCount
      (WeakPtr.ofShared (SharedPtr.copy (MakeShared h).1 (MakeShared h).2).1
        (MakeShared h).2).1 = 2 ∧
    (WeakPtr.ofShared (SharedPtr.copy (MakeShared h).1 (MakeShared h).2).1
        (MakeShared h).2).2.Expired
      (WeakPtr.ofShared (SharedPtr.copy (MakeShared h).1 (MakeShared h).2).1
        (MakeShared h).2).1 = false ∧
    (WeakPtr.ofShared (SharedPtr.copy (MakeShared h).1 (MakeShared h).2).1
        (MakeShared h).2).2.Expired
      (SharedPtr.Reset (SharedPtr.Reset
        (WeakPtr.ofShared (SharedPtr.copy (MakeShared h).1 (MakeShared h).2).1
          (MakeShared h).2).1 (MakeShared h).2).1
        (SharedPtr.copy (MakeShared h).1 (MakeShared h).2).2).1 = true ∧
    (WeakPtr.ofShared (SharedPtr.copy (MakeShared h).1 (MakeShared h).2).1
        (MakeShared h).2).2.Lock
      (SharedPtr.Reset (SharedPtr.Reset
        (WeakPtr.ofShared (SharedPtr.copy (MakeShared h).1 (MakeShared h).2).1
          (MakeShared h).2).1 (MakeShared h).2).1
        (SharedPtr.copy (MakeShared h).1 (MakeShared h).2).2).1
      = ((SharedPtr.Reset (SharedPtr.Reset
        (WeakPtr.ofShared (SharedPtr.copy (MakeShared h).1 (MakeShared h).2).1
          (MakeShared h).2).1 (MakeShared h).2).1
        (SharedPtr.copy (MakeShared h).1 (MakeShared h).2).2).1, Except.ok SharedPtr.empty) ∧
    ((SharedPtr.Reset (SharedPtr.Reset
        (WeakPtr.ofShared (SharedPtr.copy (MakeShared h).1 (MakeShared h).2).1
          (MakeShared h).2).1 (MakeShared h).2).1
        (SharedPtr.copy (MakeShared h).1 (MakeShared h).2).2).1.blocks h.next).zeroStrongCalls
      = 1 ∧
    ((SharedPtr.Reset (SharedPtr.Reset
        (WeakPtr.ofShared (SharedPtr.copy (MakeShared h).1 (MakeShared h).2).1
          (MakeShared h).2).1 (MakeShared h).2).1
        (SharedPtr.copy (MakeShared h).1 (MakeShared h).2).2).1.blocks h.next).zeroWeakCalls
      = 0 ∧
    ((SharedPtr.Reset (SharedPtr.Reset
        (WeakPtr.ofShared (SharedPtr.copy (MakeShared h).1 (MakeShared h).2).1
          (MakeShared h).2).1 (MakeShared h).2).1
        (SharedPtr.copy (MakeShared h).1 (MakeShared h).2).2).1.blocks h.next).weak_ = 1 := by
  have hm : (MakeShared h).2 = { state_ := some h.next, ptr_ := some (Addr.storage h.next) } :=
    rfl
  have hs : ((MakeShared h).1.blocks h.next).strong_ = 1 := by
    simp [MakeShared, ControlBlockMakeShared.new, modify_strong_at, alloc_strong_at]
  have hw : ((MakeShared h).1.blocks h.next).weak_ = 0 := by
    simp [MakeShared, ControlBlockMakeShared.new, modify_weak_at, Heap.alloc_at]
  have hz : ((MakeShared h).1.blocks h.next).zeroStrongCalls = 0 := by
    simp [MakeShared, ControlBlockMakeShared.new, modify_zeroStrongCalls_at,
      alloc_zeroStrongCalls_at]
  have hy : ((MakeShared h).1.blocks h.next).zeroWeakCalls = 0 := by
    simp [MakeShared, ControlBlockMakeShared.new, modify_zeroWeakCalls_at, Heap.alloc_at]
  generalize MakeShared h = r at *
  rcases r with ⟨h1, s1⟩
  simp only at hm hs hw hz hy
  subst hm
  refine ⟨?_, ?_, ?_, ?_, ?_, ?_, ?_, ?_, ?_, ?_, ?_⟩
  · simp [SharedPtr.UseCount, hs]
  · simp [SharedPtr.copyAssign, SharedPtr.copy, SharedPtr.empty, SharedPtr.Free]
  · simp [SharedPtr.UseCount, SharedPtr.copy, modify_strong_at, hs]
  · simp [SharedPtr.UseCount, SharedPtr.copy, modify_strong_at, hs]
  · simp [SharedPtr.UseCount, SharedPtr.copy, WeakPtr.ofShared, modify_strong_at, hs]
  · simp [WeakPtr.Expired, SharedPtr.copy, WeakPtr.ofShared, modify_strong_at, hs]
  · simp [WeakPtr.Expired, SharedPtr.copy, WeakPtr.ofShared, SharedPtr.Reset, Free_strong,
      modify_strong_at, hs]
  · simp [WeakPtr.Lock, WeakPtr.Expired, SharedPtr.copy, WeakPtr.ofShared, SharedPtr.Reset,
      Free_strong, modify_strong_at, hs]
  · simp [SharedPtr.copy, WeakPtr.ofShared, SharedPtr.Reset, Free_strong,
      Free_zeroStrongCalls, modify_strong_at, modify_zeroStrongCalls_at, hs, hz]
  · simp [SharedPtr.copy, WeakPtr.ofShared, SharedPtr.Reset, Free_strong, Free_weak,
      Free_zeroWeakCalls, modify_strong_at, modify_weak_at, modify_zeroWeakCalls_at, hs, hw, hy]
  · simp [SharedPtr.copy, WeakPtr.ofShared, SharedPtr.Reset, Free_weak, modify_weak_at, hw]

/-- C15: `w.Expired()` is true iff `w` has no control block or the block's `strong_` is
`0`; `w.UseCount()` is `0` without a block and otherwise the block's `strong_`, in every
program (where `strong_` is never negative) as long as it is inside the range of `int`;
and a `WeakPtr` made from a `SharedPtr` that was reset before has no control block, leaves
the free store as it was and is expired. -/
theorem C15_expired_useCount (h : Heap) (w : WeakPtr) (s : SharedPtr) (ops : List Op)
    (b : Nat) (p : Option Addr) :
    (w.Expired h = true ↔
      (w.state_ = none ∨ ∃ c, w.state_ = some c ∧ (h.blocks c).strong_ = 0)) ∧
    WeakPtr.UseCount h { state_ := none, ptr_ := p } = 0 ∧
    (((run World.init ops).heap.blocks b).strong_ < 2 ^ 31 →
      ((WeakPtr.UseCount (run World.init ops).heap { state_ := some b, ptr_ := p } : Nat) : Int)
        = ((run World.init ops).heap.blocks b).strong_) ∧
    (0 ≤ (h.blocks b).strong_ → (h.blocks b).strong_ < 2 ^ 31 →
      ((WeakPtr.UseCount h { state_ := some b, ptr_ := p } : Nat) : Int)
        = (h.blocks b).strong_) ∧
    (WeakPtr.ofShared (SharedPtr.Reset h s).1 (SharedPtr.Reset h s).2).2.state_ = none ∧
    (WeakPtr.ofShared (SharedPtr.Reset h s).1 (SharedPtr.Reset h s).2).1
      = (SharedPtr.Reset h s).1 ∧
    (WeakPtr.ofShared (SharedPtr.Reset h s).1 (SharedPtr.Reset h s).2).2.Expired
      (WeakPtr.ofShared (SharedPtr.Reset h s).1 (SharedPtr.Reset h s).2).1 = true := by
  have key : ∀ (g : Heap), 0 ≤ (g.blocks b).strong_ → (g.blocks b).strong_ < 2 ^ 31 →
      ((WeakPtr.UseCount g { state_ := some b, ptr_ := p } : Nat) : Int)
        = (g.blocks b).strong_ := by
    intro g h0 h1
    simp only [WeakPtr.UseCount]
    have h2 : (g.blocks b).strong_ % 2 ^ 64 = (g.blocks b).strong_ :=
      Int.emod_eq_of_lt h0 (by omega)
    rw [h2]
    exact Int.toNat_of_nonneg h0
  refine ⟨?_, rfl, ?_, key h, ?_, ?_, ?_⟩
  · rcases w with ⟨_ | c0, q⟩ <;> simp [WeakPtr.Expired]
  · intro h1
    have hwf := (run_WF World.init World.WF.init ops).strong_eq b
    exact key _ (by omega) h1
  · simp [SharedPtr.Reset, WeakPtr.ofShared]
  · simp [SharedPtr.Reset, WeakPtr.ofShared]
  · simp [SharedPtr.Reset, WeakPtr.ofShared, WeakPtr.Expired]

/-- C15, at the block of a program with two owners. -/
theorem C15_expired_useCount_witness :
    ((run World.init [Op.makeShared, Op.sharedCopy 0]).heap.blocks 0).strong_ < 2 ^ 31 ∧
    ((WeakPtr.UseCount (run World.init [Op.makeShared, Op.sharedCopy 0]).heap
      { state_ := some 0, ptr_ := none } : Nat) : Int)
      = ((run World.init [Op.makeShared, Op.sharedCopy 0]).heap.blocks 0).strong_ :=
  ⟨by decide,
    (C15_expired_useCount Heap.init WeakPtr.empty SharedPtr.empty
      [Op.makeShared, Op.sharedCopy 0] 0 none).2.2.1 (by decide)⟩

/-- C16: `UniquePtr::Reset(p)`: when `p` is the pointer the handle holds, the deleter is
not called and the handle is as before; otherwise the handle holds `p` afterwards, keeps
its deleter, and the log grows by exactly one call, of the handle's deleter on the pointer
held before, made when the handle already stored `p`. -/
theorem C16_reset (log : List DeleterCall) (u : UniquePtr) (p : Option Nat) :
    (u.pair_.first = p → UniquePtr.Reset log u p = (log, u)) ∧
    (u.pair_.first ≠ p →
      (UniquePtr.Reset log u p).2.Get = p ∧
      (UniquePtr.Reset log u p).2.GetDeleter = u.GetDeleter ∧
      (UniquePtr.Reset log u p).1
        = log ++ [{ deleter := u.pair_.second, ptr := u.pair_.first, stored := p }]) := by
  refine ⟨?_, ?_⟩
  · intro he
    simp [UniquePtr.Reset, he]
  · intro hne
    simp [UniquePtr.Reset, hne, UniquePtr.Get, UniquePtr.GetDeleter]

/-- C16, at a self-reset and at a reset to another pointer. -/
theorem C16_reset_witness :
    UniquePtr.Reset [] (UniquePtr.ofPtrDeleter (some 3) 5) (some 3)
      = ([], UniquePtr.ofPtrDeleter (some 3) 5) ∧
    (UniquePtr.Reset [] (UniquePtr.ofPtrDeleter (some 3) 5) (some 4)).1
      = [] ++ [{ deleter := 5, ptr := some 3, stored := some 4 }] :=
  ⟨(C16_reset [] (UniquePtr.ofPtrDeleter (some 3) 5) (some 3)).1 (Eq.refl _),
    ((C16_reset [] (UniquePtr.ofPtrDeleter (some 3) 5) (some 4)).2 (by decide)).2.2⟩

/-- C17: move construction (all three constructors) gives a handle with the pointer the
source held and leaves the source with a null pointer, and as a statement of a program
it leaves the log of deleter calls as it was.  Move
assignment `d = std::move(s)` with different pointers leaves `d` with `s`'s former pointer
and deleter, `s` with a null pointer, and the log grows by exactly one call, of `d`'s
former deleter on `d`'s former pointer; with equal pointers (self-move included) the log
and both handles are as before. -/
theorem C17_move (log : List DeleterCall) (d s : UniquePtr) :
    ((UniquePtr.move s).1.Get = s.Get ∧ (UniquePtr.move s).2.Get = none ∧
      (UniquePtr.move s).1.GetDeleter = s.GetDeleter) ∧
    ((UniquePtr.moveConverting s).1.Get = s.Get ∧ (UniquePtr.moveConverting s).2.Get = none) ∧
    (d.pair_.first ≠ s.pair_.first →
      (UniquePtr.moveAssign log d s).2.1.Get = s.Get ∧
      (UniquePtr.moveAssign log d s).2.1.GetDeleter = s.GetDeleter ∧
      (UniquePtr.moveAssign log d s).2.2.Get = none ∧
      (UniquePtr.moveAssign log d s).1
        = log ++ [{ deleter := d.pair_.second, ptr := d.pair_.first,
                    stored := s.pair_.first }]) ∧
    (d.pair_.first = s.pair_.first → UniquePtr.moveAssign log d s = (log, d, s)) ∧
    (∀ (w : UWorld) (i : Nat), (ustep w (UOp.moveConstruct i)).log = w.log ∧
      (ustep w (UOp.moveConstructConverting i)).log = w.log) := by
  refine ⟨?_, ?_, ?_, ?_, ?_⟩
  · simp [UniquePtr.move, UniquePtr.Release, UniquePtr.Get, UniquePtr.GetDeleter]
  · simp [UniquePtr.moveConverting, UniquePtr.Release, UniquePtr.Get]
  · intro hne
    simp [UniquePtr.moveAssign, UniquePtr.Reset, UniquePtr.Release, hne, UniquePtr.Get,
      UniquePtr.GetDeleter]
  · intro he
    simp [UniquePtr.moveAssign, he]
  · intro w i
    simp only [ustep]
    cases w.getHandle i <;> exact ⟨rfl, rfl⟩

/-- C17, at a move assignment between two owners and at a self-move. -/
theorem C17_move_witness :
    (UniquePtr.moveAssign [] (UniquePtr.ofPtrDeleter (some 3) 5)
        (UniquePtr.ofPtrDeleter (some 4) 6)).1
      = [] ++ [{ deleter := 5, ptr := some 3, stored := some 4 }] ∧
    UniquePtr.moveAssign [] (UniquePtr.ofPtrDeleter (some 3) 5) (UniquePtr.ofPtrDeleter (some 3) 5)
      = ([], UniquePtr.ofPtrDeleter (some 3) 5, UniquePtr.ofPtrDeleter (some 3) 5) :=
  ⟨((C17_move [] (UniquePtr.ofPtrDeleter (some 3) 5) (UniquePtr.ofPtrDeleter (some 4) 6)).2.2.1
      (by decide)).2.2.2,
    (C17_move [] (UniquePtr.ofPtrDeleter (some 3) 5) (UniquePtr.ofPtrDeleter (some 3) 5)).2.2.2.1
      (Eq.refl _)⟩

/-- C18 as stated fails: with `a` made by `MakeShared` and `b` an alias of `a` (same block,
another pointer), after `a = b` the handle `a` still observes its own pointer, not
`b.Get()`. -/
theorem C18_counterexample :
    (run World.init [Op.makeShared, Op.sharedAlias 0 (some (Addr.raw 7))]).getShared 0
      = some { state_ := some 0, ptr_ := some (Addr.storage 0) } ∧
    (run World.init [Op.makeShared, Op.sharedAlias 0 (some (Addr.raw 7))]).getShared 1
      = some { state_ := some 0, ptr_ := some (Addr.raw 7) } ∧
    (SharedPtr.copyAssign
      (run World.init [Op.makeShared, Op.sharedAlias 0 (some (Addr.raw 7))]).heap
      { state_ := some 0, ptr_ := some (Addr.storage 0) }
      { state_ := some 0, ptr_ := some (Addr.raw 7) }).2.Get
      ≠ SharedPtr.Get { state_ := some 0, ptr_ := some (Addr.raw 7) } := by
  decide

/-- C18, amended: after the copy assignment `a = b` the handle `a` references the same
control block as `b`; when the control blocks differed before the assignment `a` observes
the same address as `b`; when they were the same (as for an alias of `a`) the assignment
leaves `a` as it was, so `a` keeps its own pointer. -/
theorem C18_copyAssign_get (h : Heap) (a b : SharedPtr) :
    (SharedPtr.copyAssign h a b).2.state_ = b.state_ ∧
    (a.state_ ≠ b.state_ → (SharedPtr.copyAssign h a b).2.Get = b.Get) ∧
    (a.state_ = b.state_ →
      (SharedPtr.copyAssign h a b).2 = a ∧ (SharedPtr.copyAssign h a b).2.Get = a.Get) := by
  rcases a with ⟨sa, pa⟩
  rcases b with ⟨sb, pb⟩
  by_cases hg : sa = sb
  · subst hg
    simp [SharedPtr.copyAssign]
  · rcases sb with _ | b0 <;> simp [SharedPtr.copyAssign, hg, SharedPtr.Get]

/-- C18 amended, at two handles on different blocks and at a handle and its alias. -/
theorem C18_copyAssign_get_witness :
    ((some 0 : Option Nat) ≠ some 1 ∧
      (SharedPtr.copyAssign (run World.init [Op.makeShared, Op.makeShared]).heap
        { state_ := some 0, ptr_ := some (Addr.storage 0) }
        { state_ := some 1, ptr_ := some (Addr.storage 1) }).2.Get
        = SharedPtr.Get { state_ := some 1, ptr_ := some (Addr.storage 1) }) ∧
    ((some 0 : Option Nat) = some 0 ∧
      (SharedPtr.copyAssign
        (run World.init [Op.makeShared, Op.sharedAlias 0 (some (Addr.raw 7))]).heap
        { state_ := some 0, ptr_ := some (Addr.storage 0) }
        { state_ := some 0, ptr_ := some (Addr.raw 7) }).2
        = { state_ := some 0, ptr_ := some (Addr.storage 0) }) :=
  ⟨⟨by decide,
      (C18_copyAssign_get (run World.init [Op.makeShared, Op.makeShared]).heap
        { state_ := some 0, ptr_ := some (Addr.storage 0) }
        { state_ := some 1, ptr_ := some (Addr.storage 1) }).2.1 (by decide)⟩,
    ⟨Eq.refl _,
      ((C18_copyAssign_get
        (run World.init [Op.makeShared, Op.sharedAlias 0 (some (Addr.raw 7))]).heap
        { state_ := some 0, ptr_ := some (Addr.storage 0) }
        { state_ := some 0, ptr_ := some (Addr.raw 7) }).2.2 (Eq.refl _)).1⟩⟩

/-- C19 as stated fails, in two ways.  The hand-over `p = a.Release(); b.Reset(p);`
followed by the destruction of `a` and `b` passes the pointer that `Release` returned to
`b`'s deleter.  And `b.Reset(a.Get())` on a pointer that `a` still holds, which `Reset`
accepts like any other pointer, passes that pointer to a deleter twice. -/
theorem C19_counterexample :
    (some 0 ∈ (urun UWorld.init [UOp.constructNew 5, UOp.constructNull 6, UOp.release 0,
        UOp.resetTo 1 0]).destroyAll.released ∧
      (urun UWorld.init [UOp.constructNew 5, UOp.constructNull 6, UOp.release 0,
        UOp.resetTo 1 0]).destroyAll.log
        = [{ deleter := 6, ptr := none, stored := some 0 },
           { deleter := 6, ptr := some 0, stored := some 0 },
           { deleter := 5, ptr := none, stored := none }] ∧
      deletions (urun UWorld.init [UOp.constructNew 5, UOp.constructNull 6, UOp.release 0,
        UOp.resetTo 1 0]).destroyAll.log 0 = 1) ∧
    (some 0 ∉ (urun UWorld.init [UOp.constructNew 5, UOp.constructNull 6,
        UOp.resetTo 1 0]).destroyAll.released ∧
      deletions (urun UWorld.init [UOp.constructNew 5, UOp.constructNull 6,
        UOp.resetTo 1 0]).destroyAll.log 0 = 2) := by
  decide

/-- C19, amended: take any program of constructions, `Reset`, `Release`, move
constructions, move assignments, `Swap` and destructor calls over `UniquePtr` objects in
which every pointer the caller passes to a constructor or to `Reset` is the result of a
`new` expression, null, the pointer the handle already holds, or a pointer the caller
holds from `Release` (`uvalid`), followed by the destruction of all objects still alive.
Then no object holds a pointer any more; every pointer that was handed to the handles
and is not in the hands of the caller at the end has been passed to a deleter exactly
once; every pointer in the hands of the caller at the end has been passed to a deleter
zero times; in particular a pointer that `Release` returned and that was never handed to
a handle again is never passed to a deleter; and no other non-null pointer was ever
passed to a deleter. -/
theorem C19_release_once (ops : List UOp) (p : Nat) (hv : uvalid UWorld.init ops = true) :
    (urun UWorld.init ops).destroyAll.holders p = 0 ∧
    (p < (urun UWorld.init ops).next →
      (urun UWorld.init ops).destroyAll.callerHolds p = false →
      deletions (urun UWorld.init ops).destroyAll.log p = 1) ∧
    ((urun UWorld.init ops).destroyAll.callerHolds p = true →
      deletions (urun UWorld.init ops).destroyAll.log p = 0) ∧
    (some p ∈ (urun UWorld.init ops).destroyAll.released →
      p ∉ (urun UWorld.init ops).destroyAll.handedOver →
      deletions (urun UWorld.init ops).destroyAll.log p = 0) ∧
    ((urun UWorld.init ops).next ≤ p →
      deletions (urun UWorld.init ops).destroyAll.log p = 0) := by
  have hw := urun_Inv UWorld.init uinv_init ops hv p
  have hd : deletions (urun UWorld.init ops).destroyAll.log p
      = deletions (urun UWorld.init ops).log p + (urun UWorld.init ops).holders p := by
    simp only [UWorld.destroyAll, deletions_destroyEach, List.countP_reverse, UWorld.holders]
  have hc : (urun UWorld.init ops).destroyAll.callerHolds p
      = (urun UWorld.init ops).callerHolds p := rfl
  have hrel : (urun UWorld.init ops).destroyAll.released = (urun UWorld.init ops).released := rfl
  have hho : (urun UWorld.init ops).destroyAll.handedOver
      = (urun UWorld.init ops).handedOver := rfl
  rw [hc, hrel, hho, hd]
  have hlt := Nat.lt_or_ge p (urun UWorld.init ops).next
  refine ⟨holders_destroyAll _ p, ?_, ?_, ?_, ?_⟩
  · intro hlt2 hnc
    simp only [UWorld.callerHolds, decide_eq_false_iff_not] at hnc
    omega
  · intro hcl
    simp only [UWorld.callerHolds, decide_eq_true_eq] at hcl
    omega
  · intro hm hnm
    have h1 : 1 ≤ (urun UWorld.init ops).releases p :=
      List.countP_pos_iff.mpr ⟨some p, hm, by simp⟩
    have h2 : (urun UWorld.init ops).handovers p = 0 := by
      simp only [UWorld.handovers]
      rw [List.countP_eq_zero]
      intro a ha
      simp only [decide_eq_true_eq]
      intro e
      exact hnm (e ▸ ha)
    omega
  · intro hge
    omega

/-- C19 amended, at a program with a swap, a release, a move assignment, a reset and a
move construction (pointer `0` is deleted once, the released pointer `1` never), and at
the hand-over `b.Reset(a.Release())` (the pointer is deleted once, by `b`). -/
theorem C19_release_once_witness :
    (uvalid UWorld.init [UOp.constructNew 5, UOp.constructNew 6, UOp.swap 0 1, UOp.release 0,
        UOp.moveAssign 0 1, UOp.resetNew 1, UOp.moveConstruct 1] = true ∧
      deletions (urun UWorld.init [UOp.constructNew 5, UOp.constructNew 6, UOp.swap 0 1,
        UOp.release 0, UOp.moveAssign 0 1, UOp.resetNew 1,
        UOp.moveConstruct 1]).destroyAll.log 0 = 1 ∧
      deletions (urun UWorld.init [UOp.constructNew 5, UOp.constructNew 6, UOp.swap 0 1,
        UOp.release 0, UOp.moveAssign 0 1, UOp.resetNew 1,
        UOp.moveConstruct 1]).destroyAll.log 1 = 0) ∧
    (uvalid UWorld.init [UOp.constructNew 5, UOp.constructNull 6, UOp.release 0,
        UOp.resetTo 1 0] = true ∧
      deletions (urun UWorld.init [UOp.constructNew 5, UOp.constructNull 6, UOp.release 0,
        UOp.resetTo 1 0]).destroyAll.log 0 = 1) :=
  ⟨⟨by decide,
      (C19_release_once [UOp.constructNew 5, UOp.constructNew 6, UOp.swap 0 1, UOp.release 0,
        UOp.moveAssign 0 1, UOp.resetNew 1, UOp.moveConstruct 1] 0 (by decide)).2.1 (by decide)
        (by decide),
      (C19_release_once [UOp.constructNew 5, UOp.constructNew 6, UOp.swap 0 1, UOp.release 0,
        UOp.moveAssign 0 1, UOp.resetNew 1, UOp.moveConstruct 1] 1 (by decide)).2.2.1
        (by decide)⟩,
    ⟨by decide,
      (C19_release_once [UOp.constructNew 5, UOp.constructNull 6, UOp.release 0,
        UOp.resetTo 1 0] 0 (by decide)).2.1 (by decide) (by decide)⟩⟩

/-- C20 (evaluation at the failing input): for `a` holding pointer `1` with deleter `5` and
`b` holding pointer `2` with deleter `6`, after `a.Swap(b)` the pointers are exchanged but
each handle keeps its own deleter, so destroying both passes pointer `2` to deleter `5` and
pointer `1` to deleter `6`. -/
theorem C20_swap_diverges :
    UniquePtr.Swap (UniquePtr.ofPtrDeleter (some 1) 5) (UniquePtr.ofPtrDeleter (some 2) 6)
      = (UniquePtr.ofPtrDeleter (some 2) 5, UniquePtr.ofPtrDeleter (some 1) 6) ∧
    (UniquePtr.Swap (UniquePtr.ofPtrDeleter (some 1) 5)
      (UniquePtr.ofPtrDeleter (some 2) 6)).1.GetDeleter ≠ 6 ∧
    UniquePtr.destroy
      (UniquePtr.destroy []
        (UniquePtr.Swap (UniquePtr.ofPtrDeleter (some 1) 5)
          (UniquePtr.ofPtrDeleter (some 2) 6)).1)
      (UniquePtr.Swap (UniquePtr.ofPtrDeleter (some 1) 5)
        (UniquePtr.ofPtrDeleter (some 2) 6)).2
      = [{ deleter := 5, ptr := some 2, stored := some 2 },
         { deleter := 6, ptr := some 1, stored := some 1 }] := by
  decide

end SmartPtrs
